import Mathlib

/-!
Hexgrid: grid population, hexagon layout and rendering

A shallow embedding of `config.go`, `svg.go` and `pdf.go`.

Modelling conventions.

* The `float64` arithmetic that decides a count or a verdict, the counts of
  `PopulateGrid` and the validation of `LoadYAMLConfig`, is IEEE 754 binary64
  (`F64`): every operation rounds to the nearest value, ties to even. The
  `Percentage` of an item type is the number written in the configuration; the
  `float64` stored for it is `F64.ofRat` of that number.
* The geometry of `svg.go` and `pdf.go` is taken over exact rationals (`ℚ`);
  Go's untyped numeric constants are exact, so `HexWidth = 43.3` is the rational
  `433/10`.
* `int` values are mathematical integers (`Int`); overflow of integer arithmetic
  is out of reach for grids that fit in memory. The conversion `int(x)` of a
  `float64` is range-limited to 64 bits (`F64.toInt`). Loop counters that start
  at `0` are naturals.
* A `*ItemType` is an address together with the record stored there: item types
  are never written after loading, so the pointee is fixed. Pointer comparison
  and map keys use the address only.
* A `*HexCell` is the matrix slot `(row, col)` holding the cell: `CreateHexGrid`
  allocates one fresh cell per slot, so slots and cell pointers correspond.
* A run-time panic (negative `make` length, index out of range) is `none`.
* `rand.Shuffle` and the iteration order of a Go map are inputs of
  `PopulateGrid`: functions which the theorems assume to permute their argument.
* `math.Pi`, `math.Cos` and `math.Sin` are parameters of the path generators,
  which are polymorphic in the number type so that they can be read over `ℝ`.
* Formatted text is kept as structure: an SVG element records the values handed
  to `fmt.Sprintf`; the `%.1f` rounding of the printed digits is not modelled.
* The outcomes of `os.ReadFile`, `ioutil.ReadFile` and `yaml.Unmarshal` are
  inputs of the functions that call them; writing a file is not modelled.
* A Go string is a list of Unicode characters and `len` counts the bytes of its
  UTF-8 encoding. `fmt.Sscanf` with `%02x` follows the scanner of package `fmt`.
-/

namespace Hexgrid

/-! ## Data model (`config.go`) -/

/-- ItemType represents a type of item that can be placed in the hex grid. -/
structure ItemType where
  Name : String
  Percentage : ℚ
  Style : String
  Color : String
deriving DecidableEq

/-- A `*ItemType`: the address and the (immutable) record it points to. -/
structure ItemTypePtr where
  addr : Nat
  val : ItemType
deriving DecidableEq

/-- YAMLConfig represents the YAML configuration file structure. -/
structure YAMLConfig where
  Default : String
  Items : List ItemType
deriving DecidableEq

/-- HexCell represents a single hexagon cell in the grid. -/
structure HexCell where
  Row : Int
  Col : Int
  ItemType : Option ItemTypePtr
  X : ℚ
  Y : ℚ
deriving DecidableEq

/-- HexGrid represents the complete hex grid. -/
structure HexGrid where
  Rows : Int
  Cols : Int
  Cells : List (List HexCell)
  ItemTypes : List ItemTypePtr
  DefaultColor : String
deriving DecidableEq

/-- A `*HexCell`, represented by the matrix slot `(row, col)` that holds it. -/
abbrev CellPtr := Nat × Nat

/-! ## `float64` -/

/-- A `float64` value: a finite value (kept as the rational it denotes; the sign
of a zero is not kept), an infinity with its sign, or a NaN. -/
inductive F64 where
  | fin (q : ℚ)
  | inf (neg : Bool)
  | nan
deriving DecidableEq

/-- Rounding of a rational to the nearest integer, ties to the even one. -/
def roundHalfEven (q : ℚ) : Int :=
  let f := ⌊q⌋
  if q - f < 1 / 2 then f
  else if 1 / 2 < q - f then f + 1
  else if f % 2 = 0 then f
  else f + 1

/-- The `float64` nearest to a rational (IEEE 754 binary64, round to nearest,
ties to even): with `2^e ≤ |x| < 2^(e+1)`, and `e` at least `-1022`, the value is
the multiple of `2^(e-52)` nearest to `x`; a result of magnitude `2^1024` or
more is an infinity. -/
def F64.ofRat (x : ℚ) : F64 :=
  if x = 0 then F64.fin 0
  else
    let e := max (Int.log 2 |x|) (-1022)
    let ulp : ℚ := 2 ^ (e - 52)
    let r : ℚ := (roundHalfEven (x / ulp) : ℚ) * ulp
    if 2 ^ 1024 ≤ |r| then F64.inf (decide (x < 0)) else F64.fin r

/-- The conversion `float64(n)` of an `int`. -/
def F64.ofInt (n : Int) : F64 := F64.ofRat n

/-- The `float64` product `a * b`. -/
def F64.mul : F64 → F64 → F64
  | F64.fin a, F64.fin b => F64.ofRat (a * b)
  | F64.fin a, F64.inf s => if a = 0 then F64.nan else F64.inf (xor (decide (a < 0)) s)
  | F64.inf s, F64.fin b => if b = 0 then F64.nan else F64.inf (xor s (decide (b < 0)))
  | F64.inf s, F64.inf t => F64.inf (xor s t)
  | F64.nan, _ => F64.nan
  | _, F64.nan => F64.nan

/-- The `float64` quotient `a / b`. -/
def F64.div : F64 → F64 → F64
  | F64.fin a, F64.fin b =>
    if b = 0 then (if a = 0 then F64.nan else F64.inf (decide (a < 0)))
    else F64.ofRat (a / b)
  | F64.fin _, F64.inf _ => F64.fin 0
  | F64.inf s, F64.fin b => F64.inf (xor s (decide (b < 0)))
  | F64.inf _, F64.inf _ => F64.nan
  | F64.nan, _ => F64.nan
  | _, F64.nan => F64.nan

/-- The `float64` sum `a + b`. -/
def F64.add : F64 → F64 → F64
  | F64.fin a, F64.fin b => F64.ofRat (a + b)
  | F64.fin _, F64.inf s => F64.inf s
  | F64.inf s, F64.fin _ => F64.inf s
  | F64.inf s, F64.inf t => if s = t then F64.inf s else F64.nan
  | F64.nan, _ => F64.nan
  | _, F64.nan => F64.nan

/-- The `float64` comparison `a < b`; every comparison with a NaN is false. -/
def F64.lt : F64 → F64 → Bool
  | F64.fin a, F64.fin b => decide (a < b)
  | F64.fin _, F64.inf s => !s
  | F64.inf s, F64.fin _ => s
  | F64.inf s, F64.inf t => s && !t
  | F64.nan, _ => false
  | _, F64.nan => false

/-- Go's `int(x)` for a `float64` `x`: the fraction is discarded. When the
result does not fit `int` (64 bits), or `x` is an infinity or a NaN, the value
is implementation-dependent; the value of the amd64 compiler, the smallest
`int`, is used. -/
def F64.toInt : F64 → Int
  | F64.fin q =>
    let t : Int := if 0 ≤ q then ⌊q⌋ else ⌈q⌉
    if -(2 ^ 63) ≤ t ∧ t ≤ 2 ^ 63 - 1 then t else -(2 ^ 63)
  | F64.inf _ => -(2 ^ 63)
  | F64.nan => -(2 ^ 63)

/-- The expression `grid.Cells[row][col]`; `none` is an index-out-of-range panic. -/
def getCell (cells : List (List HexCell)) (p : CellPtr) : Option HexCell :=
  match cells[p.1]? with
  | none => none
  | some row => row[p.2]?

/-- The row-major list of slots visited by `for row < rows { for col < cols {..} }`. -/
def slots (rows cols : Nat) : List CellPtr :=
  (List.range rows).flatMap (fun row => (List.range cols).map (fun col => (row, col)))

/-! ## `CreateHexGrid` -/

/-- CreateHexGrid creates a new hex grid with the specified dimensions
(`config.go` 81-108). `make` panics on a negative length: for `rows < 0` at the
outer slice, for `cols < 0` when the first row is allocated. -/
def CreateHexGrid (rows cols : Int) (config : YAMLConfig) : Option HexGrid :=
  if rows < 0 then none
  else if 0 < rows ∧ cols < 0 then none
  else some
    { Rows := rows
      Cols := cols
      Cells := (List.range rows.toNat).map (fun (row : Nat) =>
        (List.range cols.toNat).map (fun (col : Nat) =>
          ({ Row := (row : Int), Col := (col : Int), ItemType := none, X := 0, Y := 0 } : HexCell)))
      ItemTypes := config.Items.enum.map (fun e => ({ addr := e.1, val := e.2 } : ItemTypePtr))
      DefaultColor := config.Default }

/-! ## `PopulateGrid` -/

/-- The count of one item type (`config.go` 117):
`int(float64(totalCells) * itemType.Percentage / 100.0)`, with the `float64`
product and quotient and the conversion to `int`. The field `Percentage` is the
number written in the configuration; the `float64` stored for it is the nearest
one, `F64.ofRat`. -/
def itemCount (totalCells : Int) (itemType : ItemTypePtr) : Int :=
  F64.toInt
    (F64.div (F64.mul (F64.ofInt totalCells) (F64.ofRat itemType.val.Percentage))
      (F64.fin 100))

/-- The assignment `m[k] = v` on a `map[*ItemType]int` kept as an association
list: an existing key (same address) is overwritten, a new key is added. -/
def mapSet (m : List (ItemTypePtr × Int)) (k : ItemTypePtr) (v : Int) :
    List (ItemTypePtr × Int) :=
  if m.any (fun e => e.1.addr == k.addr) then
    m.map (fun e => if e.1.addr = k.addr then (e.1, v) else e)
  else m ++ [(k, v)]

/-- The map `itemCounts` built by the first loop of `PopulateGrid`
(`config.go` 115-119). -/
def itemCounts (grid : HexGrid) : List (ItemTypePtr × Int) :=
  grid.ItemTypes.foldl
    (fun m itemType => mapSet m itemType (itemCount (grid.Rows * grid.Cols) itemType)) []

/-- The slice `allCells` built by the second loop of `PopulateGrid`
(`config.go` 122-127); `none` when some `grid.Cells[row][col]` is out of range. -/
def collectCells (grid : HexGrid) : Option (List CellPtr) :=
  let all := slots grid.Rows.toNat grid.Cols.toNat
  if all.all (fun p => (getCell grid.Cells p).isSome) then some all else none

/-- The store `cell.ItemType = itemType` through the cell pointer `p`. -/
def setItemType (cells : List (List HexCell)) (p : CellPtr) (itemType : ItemTypePtr) :
    List (List HexCell) :=
  cells.modify (fun row => row.modify (fun cell => { cell with ItemType := some itemType }) p.2) p.1

/-- State of the assignment loops: the cells and the variable `cellIndex`. -/
structure AssignState where
  cells : List (List HexCell)
  cellIndex : Nat
deriving DecidableEq

/-- The inner loop `for i := 0; i < count && cellIndex < len(allCells); i++`
(`config.go` 137-140), with the number of remaining values of `i` as first
argument. `allCells[cellIndex]` out of range is a panic. -/
def assignInner (allCells : List CellPtr) (itemType : ItemTypePtr) :
    Nat → AssignState → Option AssignState
  | 0, s => some s
  | n + 1, s =>
    if s.cellIndex < allCells.length then
      match allCells[s.cellIndex]? with
      | none => none
      | some p =>
        assignInner allCells itemType n
          { cells := setItemType s.cells p itemType, cellIndex := s.cellIndex + 1 }
    else some s

/-- The outer loop `for itemType, count := range itemCounts` (`config.go` 136-141)
over the entries in the order in which the map yields them. -/
def assignOuter (allCells : List CellPtr) :
    List (ItemTypePtr × Int) → AssignState → Option AssignState
  | [], s => some s
  | e :: rest, s =>
    match assignInner allCells e.1 e.2.toNat s with
    | none => none
    | some s' => assignOuter allCells rest s'

/-- PopulateGrid fills the grid with items based on their percentages
(`config.go` 110-142). `shuffle` is the effect of `rand.Shuffle` on `allCells`,
`iterate` the order in which `range itemCounts` yields the map entries.
`make([]*HexCell, 0, totalCells)` panics on a negative capacity. -/
def PopulateGrid (grid : HexGrid) (shuffle : List CellPtr → List CellPtr)
    (iterate : List (ItemTypePtr × Int) → List (ItemTypePtr × Int)) : Option HexGrid :=
  let totalCells := grid.Rows * grid.Cols
  let counts := itemCounts grid
  if totalCells < 0 then none
  else
    match collectCells grid with
    | none => none
    | some allCells =>
      let allCells := shuffle allCells
      match assignOuter allCells (iterate counts) { cells := grid.Cells, cellIndex := 0 } with
      | none => none
      | some s => some { grid with Cells := s.cells }

/-- A shuffle permutes the list it is given. -/
def IsShuffle (shuffle : List CellPtr → List CellPtr) : Prop :=
  ∀ l, (shuffle l).Perm l

/-- A map iteration yields every entry once, in some order. -/
def IsIteration (iterate : List (ItemTypePtr × Int) → List (ItemTypePtr × Int)) : Prop :=
  ∀ m, (iterate m).Perm m

/-- The quota of an item type: `floor(rows*cols * percentage / 100)`. -/
def quota (rows cols : Int) (itemType : ItemType) : Int :=
  ⌊((rows * cols : Int) : ℚ) * itemType.Percentage / 100⌋

/-- Number of cells of the matrix assigned to the item type at address `a`. -/
def assignedTo (cells : List (List HexCell)) (a : Nat) : Nat :=
  cells.flatten.countP (fun cell => cell.ItemType.map (fun p => p.addr) == some a)

/-- Number of cells of the matrix whose item type is the record `itemType`. -/
def assignedValue (cells : List (List HexCell)) (itemType : ItemType) : Nat :=
  cells.flatten.countP (fun cell => cell.ItemType.map (fun p => p.val) == some itemType)

/-- Number of cells of the matrix with no item type. -/
def unassigned (cells : List (List HexCell)) : Nat :=
  cells.flatten.countP (fun cell => cell.ItemType.isNone)

/-! ## Cells and slots -/

/-- The matrix has `r` rows of `c` cells each. -/
def Shaped (cells : List (List HexCell)) (r c : Nat) : Prop :=
  cells.length = r ∧ ∀ row ∈ cells, row.length = c

/-- Item type stored in slot `p`, when the slot exists. -/
def itemAt (cells : List (List HexCell)) (p : CellPtr) : Option (Option ItemTypePtr) :=
  (getCell cells p).map (fun cell => cell.ItemType)

/-- Labels handed out by the assignment loops: each entry's item type, repeated
`count` times, in iteration order. -/
def labelsOf (entries : List (ItemTypePtr × Int)) : List ItemTypePtr :=
  entries.flatMap (fun e => List.replicate e.2.toNat e.1)

/-- Pairwise assignment of labels to slots, stopping when either list ends. -/
def assignAll : List CellPtr → List ItemTypePtr → List (List HexCell) → List (List HexCell)
  | p :: ps, t :: ts, cells => assignAll ps ts (setItemType cells p t)
  | [], _, cells => cells
  | _ :: _, [], cells => cells

/-! ## Grids built by `CreateHexGrid` -/

/-- The pointers `&config.Items[i]` stored by `CreateHexGrid`. -/
def itemPtrs (items : List ItemType) : List ItemTypePtr :=
  items.enum.map (fun e => ({ addr := e.1, val := e.2 } : ItemTypePtr))

/-- The test configuration of `config_test.go`: two item types at 50% each. -/
def scenarioA : YAMLConfig :=
  { Default := "#FFFFFF"
    Items := [{ Name := "Test Item", Percentage := 50, Style := "fill", Color := "#FF0000" },
              { Name := "Test Dot", Percentage := 50, Style := "dot", Color := "#00FF00" }] }

/-- One item type at 33%. -/
def scenarioB : YAMLConfig :=
  { Default := "#FFFFFF"
    Items := [{ Name := "Third", Percentage := 33, Style := "fill", Color := "#FF0000" }] }

/-- Entries of the map `itemCounts` of a grid built from `items`. -/
def entriesOf (rows cols : Int) (items : List ItemType) : List (ItemTypePtr × Int) :=
  (itemPtrs items).map (fun t => (t, itemCount (rows * cols) t))

/-- A fresh 2 x 2 grid for the two-type test configuration. -/
def gridA : HexGrid :=
  { Rows := 2
    Cols := 2
    Cells := [[{ Row := 0, Col := 0, ItemType := none, X := 0, Y := 0 },
               { Row := 0, Col := 1, ItemType := none, X := 0, Y := 0 }],
              [{ Row := 1, Col := 0, ItemType := none, X := 0, Y := 0 },
               { Row := 1, Col := 1, ItemType := none, X := 0, Y := 0 }]]
    ItemTypes := [{ addr := 0, val := { Name := "Test Item", Percentage := 50, Style := "fill",
                                        Color := "#FF0000" } },
                  { addr := 1, val := { Name := "Test Dot", Percentage := 50, Style := "dot",
                                        Color := "#00FF00" } }]
    DefaultColor := "#FFFFFF" }

/-- One item type at 18.4%. -/
def scenarioC : YAMLConfig :=
  { Default := "#FFFFFF"
    Items := [{ Name := "C", Percentage := 184 / 10, Style := "fill", Color := "#FF0000" }] }

/-- The `float64` nearest to 2.4, as a rational. -/
def pct24 : ℚ := 5404319552844595 / 2251799813685248

/-- The `float64` nearest to 97.6, as a rational. -/
def pct976 : ℚ := 3433994715870003 / 35184372088832

/-- One item type at the `float64` nearest to 2.4%. -/
def scenarioD : YAMLConfig :=
  { Default := "#FFFFFF"
    Items := [{ Name := "D", Percentage := pct24, Style := "fill", Color := "#FF0000" }] }

/-- Two item types at the `float64` values nearest to 2.4% and 97.6%. -/
def scenarioE : YAMLConfig :=
  { Default := "#FFFFFF"
    Items := [{ Name := "D", Percentage := pct24, Style := "fill", Color := "#FF0000" },
              { Name := "E", Percentage := pct976, Style := "dot", Color := "#00FF00" }] }

/-- Two item types at 100% and `2^-100`%: their sum exceeds 100. -/
def scenarioF : YAMLConfig :=
  { Default := "#FFFFFF"
    Items := [{ Name := "F", Percentage := 100, Style := "fill", Color := "#FF0000" },
              { Name := "G", Percentage := 1 / 2 ^ 100, Style := "dot", Color := "#00FF00" }] }

/-- One item type at `10^21`%, a configuration that bypassed validation. -/
def scenarioG : YAMLConfig :=
  { Default := "#FFFFFF"
    Items := [{ Name := "G", Percentage := 10 ^ 21, Style := "fill", Color := "#FF0000" }] }

/-- Three item types at 0.2%, 83.9% and 15.9%: as decimals they sum to 100. -/
def scenarioH : YAMLConfig :=
  { Default := "#FFFFFF"
    Items := [{ Name := "H1", Percentage := 2 / 10, Style := "fill", Color := "#FF0000" },
              { Name := "H2", Percentage := 839 / 10, Style := "dot", Color := "#00FF00" },
              { Name := "H3", Percentage := 159 / 10, Style := "fill", Color := "#0000FF" }] }

/-! ## Hexagon parameters (`svg.go`) -/

/-- Distance from center to any corner. -/
def HexSize {R : Type} [Field R] : R := 25

/-- Width of hexagon, the constant `43.3`. -/
def HexWidth {R : Type} [Field R] : R := 433 / 10

/-- Height of hexagon. -/
def HexHeight {R : Type} [Field R] : R := 50

/-- Offset for the x axis between columns. -/
def HexColumnOffset {R : Type} [Field R] : R := 40

/-- Offset for the start of the staggered rows:
`(HexWidth-HexColumnOffset)/2 + HexColumnOffset`. -/
def HexEvenRowStartOffset {R : Type} [Field R] : R :=
  (HexWidth - HexColumnOffset) / 2 + HexColumnOffset

/-- The functions of package `math` used by the renderers. -/
structure Trig (R : Type) where
  Pi : R
  Cos : R → R
  Sin : R → R

/-- One command of an SVG path: `M x y`, `L x y` or `Z`. -/
inductive PathCmd (R : Type) where
  | M (x y : R)
  | L (x y : R)
  | Z
deriving DecidableEq

/-- An element appended to the SVG body: the `<path d fill stroke stroke-width/>`
of a hexagon, or the `<circle cx cy r fill stroke stroke-width/>` of a dot. -/
inductive SvgElem where
  | path (d : List (PathCmd ℚ)) (fill stroke : String) (strokeWidth : Nat)
  | circle (cx cy : ℚ) (r : Nat) (fill stroke : String) (strokeWidth : Nat)
deriving DecidableEq

/-- The SVG text: the `width` and `height` attributes and the elements inside
the translated group. -/
structure SvgDocument where
  width : ℚ
  height : ℚ
  body : List SvgElem
deriving DecidableEq

/-- generateHexagonPath creates the SVG path for a hexagon (`svg.go` 109-127):
the loop over `i = 0..5` appends one point each, then `Z` is appended. -/
def generateHexagonPath {R : Type} [Field R] (trig : Trig R) (centerX centerY : R) :
    List (PathCmd R) :=
  let points := (List.range 6).foldl (fun (points : List (PathCmd R)) (i : Nat) =>
    let angle := (i : R) * trig.Pi / 3
    let x := centerX + HexSize * trig.Cos angle
    let y := centerY + HexSize * trig.Sin angle
    if i = 0 then points ++ [PathCmd.M x y] else points ++ [PathCmd.L x y]) []
  points ++ [PathCmd.Z]

/-- The canvas width of `GenerateSVG` (`svg.go` 23-26). -/
def svgWidth (rows cols : Int) : ℚ :=
  let w := (cols : ℚ) * (HexWidth + HexColumnOffset)
  if rows > 1 then w + HexEvenRowStartOffset else w

/-- The canvas height of `GenerateSVG` (`svg.go` 28-32); `%` is Go's remainder. -/
def svgHeight (rows : Int) : ℚ :=
  let h := (rows : ℚ) * (HexHeight / 2)
  if rows.tmod 2 = 0 then h + HexHeight / 2 else h

/-- The hexagon center of cell `(row, col)` (`svg.go` 52-58). -/
def cellCenter (row col : Nat) : ℚ × ℚ :=
  let x := (col : ℚ) * (HexWidth + HexColumnOffset)
  let x := if row % 2 = 1 then x + HexEvenRowStartOffset else x
  let y := (row : ℚ) * (HexHeight / 2)
  (x, y)

/-- The styling chosen by `GenerateSVG` (`svg.go` 66-82): `(fillColor, strokeColor)`. -/
def svgColors (itemType : Option ItemTypePtr) (defaultColor : String) : String × String :=
  match itemType with
  | some t =>
    if t.val.Style = "fill" then (t.val.Color, "#333") else (defaultColor, "#333")
  | none => (defaultColor, "#ccc")

/-- The text appended for one cell by `GenerateSVG` (`svg.go` 63-92): the hexagon
path, then the dot when the style is `dot`. -/
def cellElements (trig : Trig ℚ) (defaultColor : String) (itemType : Option ItemTypePtr)
    (x y : ℚ) : List SvgElem :=
  let hexPath := generateHexagonPath trig x y
  let colors := svgColors itemType defaultColor
  let svg := [SvgElem.path hexPath colors.1 colors.2 1]
  match itemType with
  | some t =>
    if t.val.Style = "dot" then svg ++ [SvgElem.circle x y 9 t.val.Color "black" 2] else svg
  | none => svg

/-- The stores `cell.X = x; cell.Y = y` through the cell pointer `p`. -/
def setCenter (cells : List (List HexCell)) (p : CellPtr) (x y : ℚ) : List (List HexCell) :=
  cells.modify (fun row => row.modify (fun cell => { cell with X := x, Y := y }) p.2) p.1

/-- State of the rendering loops: the cells and the text `svg` built so far. -/
structure SvgState where
  cells : List (List HexCell)
  svg : List SvgElem
deriving DecidableEq

/-- Body of the inner loop of `GenerateSVG` (`svg.go` 48-92) for one `(row, col)`. -/
def svgCell (trig : Trig ℚ) (defaultColor : String) (row col : Nat) (s : SvgState) :
    Option SvgState :=
  match getCell s.cells (row, col) with
  | none => none
  | some cell =>
    let c := cellCenter row col
    some { cells := setCenter s.cells (row, col) c.1 c.2
           svg := s.svg ++ cellElements trig defaultColor cell.ItemType c.1 c.2 }

/-- The loop `for i := 0; i < n; i++ { body }`: the state after `n` rounds. -/
def forLoop {σ : Type} (body : Nat → σ → Option σ) : Nat → σ → Option σ
  | 0, s => some s
  | n + 1, s =>
    match forLoop body n s with
    | none => none
    | some s' => body n s'

/-- GenerateSVG creates an SVG representation of the hex grid (`svg.go` 20-107):
the grid with the centers stored in its cells, and the document written. -/
def GenerateSVG (trig : Trig ℚ) (grid : HexGrid) : Option (HexGrid × SvgDocument) :=
  match forLoop (fun row s =>
      forLoop (fun col s => svgCell trig grid.DefaultColor row col s) grid.Cols.toNat s)
      grid.Rows.toNat { cells := grid.Cells, svg := [] } with
  | none => none
  | some s =>
    some ({ grid with Cells := s.cells },
      { width := svgWidth grid.Rows grid.Cols, height := svgHeight grid.Rows, body := s.svg })

/-! ## Document renderer (`pdf.go`) -/

/-- A call on the PDF object made by `drawHexagon`. A colour is recorded as the
string handed to `hexToRGB`. -/
inductive PdfOp (R : Type) where
  | SetFillColor (hex : String)
  | SetDrawColor (hex : String)
  | Polygon (points : List (R × R)) (styleStr : String)
  | Circle (x y r : R) (styleStr : String)
deriving DecidableEq

/-- The fill and stroke strings of `drawHexagon` (`pdf.go` 85-99). -/
def pdfColors (itemType : Option ItemTypePtr) (defaultColor : String) : String × String :=
  match itemType with
  | some t =>
    if t.val.Style = "fill" then (t.val.Color, "#333333") else (defaultColor, "#333333")
  | none => (defaultColor, "#CCCCCC")

/-- The hexagon points computed by `drawHexagon` (`pdf.go` 76-83). -/
def hexagonPoints {R : Type} [Field R] (trig : Trig R) (centerX centerY size : R) :
    List (R × R) :=
  (List.range 6).foldl (fun (points : List (R × R)) (i : Nat) =>
    let angle := (i : R) * trig.Pi / 3
    let x := centerX + size * trig.Cos angle
    let y := centerY + size * trig.Sin angle
    points ++ [(x, y)]) []

/-- drawHexagon draws a hexagon at the specified position (`pdf.go` 74-118). -/
def drawHexagon {R : Type} [Field R] (trig : Trig R) (centerX centerY size : R)
    (cell : HexCell) (defaultColor : String) : List (PdfOp R) :=
  let points := hexagonPoints trig centerX centerY size
  let colors := pdfColors cell.ItemType defaultColor
  let ops := [PdfOp.SetFillColor colors.1, PdfOp.SetDrawColor colors.2,
    PdfOp.Polygon points "F", PdfOp.Polygon points "D"]
  match cell.ItemType with
  | some t =>
    if t.val.Style = "dot" then
      ops ++ [PdfOp.SetFillColor t.val.Color, PdfOp.Circle centerX centerY 2 "F"]
    else ops
  | none => ops

/-- Value of a hexadecimal digit, in either case. -/
def hexDigit (c : Char) : Option Nat :=
  if '0' ≤ c ∧ c ≤ '9' then some (c.toNat - '0'.toNat)
  else if 'a' ≤ c ∧ c ≤ 'f' then some (c.toNat - 'a'.toNat + 10)
  else if 'A' ≤ c ∧ c ≤ 'F' then some (c.toNat - 'A'.toNat + 10)
  else none

/-- The colour denoted by a hexadecimal colour string in an SVG attribute:
`#rgb` is the shorthand of `#rrggbb`, and the digits are case-insensitive. -/
def cssHexColor (s : String) : Option (Nat × Nat × Nat) :=
  match s.toList with
  | ['#', r, g, b] =>
    match hexDigit r, hexDigit g, hexDigit b with
    | some r, some g, some b => some (17 * r, 17 * g, 17 * b)
    | _, _, _ => none
  | ['#', r1, r2, g1, g2, b1, b2] =>
    match hexDigit r1, hexDigit r2, hexDigit g1, hexDigit g2, hexDigit b1, hexDigit b2 with
    | some r1, some r2, some g1, some g2, some b1, some b2 =>
      some (16 * r1 + r2, 16 * g1 + g2, 16 * b1 + b2)
    | _, _, _, _, _, _ => none
  | _ => none

/-- A path element. -/
def SvgElem.isPath : SvgElem → Bool
  | SvgElem.path _ _ _ _ => true
  | SvgElem.circle _ _ _ _ _ _ => false

/-- A circle element. -/
def SvgElem.isCircle : SvgElem → Bool
  | SvgElem.path _ _ _ _ => false
  | SvgElem.circle _ _ _ _ _ _ => true

/-- The cell has an item type of style `dot`. -/
def HexCell.isDot (cell : HexCell) : Bool :=
  match cell.ItemType with
  | some t => t.val.Style == "dot"
  | none => false

/-- Test functions in place of package `math`, for evaluation over `ℚ`. -/
def trigQ : Trig ℚ := { Pi := 22 / 7, Cos := fun _ => 1, Sin := fun _ => 0 }

/-- The 2 x 2 grid of the test configuration with the first row populated. -/
def gridP : HexGrid :=
  { gridA with
    Cells := [[{ Row := 0, Col := 0, ItemType := gridA.ItemTypes[0]?, X := 0, Y := 0 },
               { Row := 0, Col := 1, ItemType := gridA.ItemTypes[1]?, X := 0, Y := 0 }],
              [{ Row := 1, Col := 0, ItemType := none, X := 0, Y := 0 },
               { Row := 1, Col := 1, ItemType := none, X := 0, Y := 0 }]] }

/-- The dot marker of a cell: a circle of radius 9 at `(x, y)` in the item
type's colour when the style is `dot`, nothing otherwise. -/
def dotMarker (itemType : Option ItemTypePtr) (x y : ℚ) : List SvgElem :=
  match itemType with
  | some t => if t.val.Style = "dot" then [SvgElem.circle x y 9 t.val.Color "black" 2] else []
  | none => []

/-- The path of the cell in slot `p` followed by its dot marker. -/
def markupAt (trig : Trig ℚ) (defaultColor : String) (cells : List (List HexCell))
    (p : CellPtr) : List SvgElem :=
  match getCell cells p with
  | none => []
  | some cell =>
    SvgElem.path (generateHexagonPath trig (cellCenter p.1 p.2).1 (cellCenter p.1 p.2).2)
        (svgColors cell.ItemType defaultColor).1 (svgColors cell.ItemType defaultColor).2 1 ::
      dotMarker cell.ItemType (cellCenter p.1 p.2).1 (cellCenter p.1 p.2).2

/-- Run a step function over a list of inputs, stopping at the first failure. -/
def runAll {α σ : Type} (f : α → σ → Option σ) : List α → σ → Option σ
  | [], s => some s
  | a :: as, s =>
    match f a s with
    | none => none
    | some s' => runAll f as s'

/-- The stores through the cell pointer `p` as a function on the cell. -/
def modifyCell (cells : List (List HexCell)) (p : CellPtr) (f : HexCell → HexCell) :
    List (List HexCell) :=
  cells.modify (fun row => row.modify f p.2) p.1

/-- Corner `i` of the hexagon centered at `(cx, cy)`: the point at angle `i·60°`
(`i·π/3`) and radius `HexSize`. -/
def hexCorner {R : Type} [Field R] (trig : Trig R) (cx cy : R) (i : Nat) : R × R :=
  (cx + HexSize * trig.Cos ((i : R) * (trig.Pi / 3)), cy + HexSize * trig.Sin ((i : R) * (trig.Pi / 3)))

/-- Number of cells of the matrix that have an item type. -/
def assigned (cells : List (List HexCell)) : Nat :=
  cells.flatten.countP (fun cell => cell.ItemType.isSome)

/-! ## Composition wrapper (`svg.go`, `GenerateHTML`) -/

/-- The symbol of a legend entry: the `legend-symbol fill` box or the
`legend-symbol dot` circle, with its background colour. -/
inductive LegendSymbol where
  | fill (color : String)
  | dot (color : String)
deriving DecidableEq

/-- One `legend-item` of the legend: the symbol and the values printed in
`%s (%.1f%%)`. -/
structure LegendItem where
  symbol : LegendSymbol
  name : String
  percentage : ℚ
deriving DecidableEq

/-- The HTML page: the embedded SVG text and the entries of the legend. -/
structure HtmlDocument where
  svgContent : String
  legend : List LegendItem
deriving DecidableEq

/-- GenerateHTML creates an HTML page that embeds the SVG with scrolling and
legend (`svg.go` 129-262). `svgFile` is the outcome of `os.ReadFile(svgPath)`,
`none` when it fails; the result is the page handed to `os.WriteFile`. -/
def GenerateHTML (grid : HexGrid) (svgFile : Option String) : Except String HtmlDocument :=
  match svgFile with
  | none => Except.error "failed to read SVG file"
  | some svgContent =>
    let legendHTML := grid.ItemTypes.foldl (fun (legendHTML : List LegendItem) itemType =>
      let symbol :=
        if itemType.val.Style = "fill" then LegendSymbol.fill itemType.val.Color
        else LegendSymbol.dot itemType.val.Color
      legendHTML ++ [{ symbol := symbol, name := itemType.val.Name,
                       percentage := itemType.val.Percentage }]) []
    Except.ok { svgContent := svgContent, legend := legendHTML }

/-! ## `LoadYAMLConfig` -/

/-- The errors returned by `LoadYAMLConfig`, with the values they print. -/
inductive ConfigError where
  | readFailed
  | parseFailed
  | defaultRequired
  | noItems
  | invalidPercentage (name : String) (percentage : F64)
  | invalidStyle (name style : String)
  | totalExceeds (totalPercentage : F64)
deriving DecidableEq

/-- The validation loop of `LoadYAMLConfig` (`config.go` 63-72) from the
running `totalPercentage`, a `float64`; the comparisons and the sum are those of
`float64`, on the value stored for each percentage. It returns the total when no
item is rejected. -/
def validateItems : List ItemType → F64 → Except ConfigError F64
  | [], totalPercentage => Except.ok totalPercentage
  | item :: rest, totalPercentage =>
    if F64.lt (F64.ofRat item.Percentage) (F64.fin 0) = true ∨
        F64.lt (F64.fin 100) (F64.ofRat item.Percentage) = true then
      Except.error (ConfigError.invalidPercentage item.Name (F64.ofRat item.Percentage))
    else
      let totalPercentage := F64.add totalPercentage (F64.ofRat item.Percentage)
      if item.Style ≠ "dot" ∧ item.Style ≠ "fill" then
        Except.error (ConfigError.invalidStyle item.Name item.Style)
      else validateItems rest totalPercentage

/-- LoadYAMLConfig loads and parses the YAML configuration file
(`config.go` 42-79). `file` is the outcome of `ioutil.ReadFile`, `unmarshal`
the effect of `yaml.Unmarshal` on the data, `none` when they fail. -/
def LoadYAMLConfig (file : Option String) (unmarshal : String → Option YAMLConfig) :
    Except ConfigError YAMLConfig :=
  match file with
  | none => Except.error ConfigError.readFailed
  | some data =>
    match unmarshal data with
    | none => Except.error ConfigError.parseFailed
    | some config =>
      if config.Default = "" then Except.error ConfigError.defaultRequired
      else if config.Items.length = 0 then Except.error ConfigError.noItems
      else
        match validateItems config.Items (F64.fin 0) with
        | Except.error e => Except.error e
        | Except.ok totalPercentage =>
          if F64.lt (F64.fin 100) totalPercentage = true then
            Except.error (ConfigError.totalExceeds totalPercentage)
          else Except.ok config

/-- The `float64` total of the stored percentages, added in list order from 0,
each sum rounded: the value of `totalPercentage` after the loop. -/
def sumPercentage (items : List ItemType) : F64 :=
  items.foldl (fun total item => F64.add total (F64.ofRat item.Percentage)) (F64.fin 0)

/-! ## `hexToRGB` (`pdf.go`) and the scanner of package `fmt` -/

/-- Go's `len(s)` for a string: the number of bytes of its UTF-8 encoding. -/
def byteLen (s : List Char) : Nat := (s.map (fun c => c.utf8Size)).sum

/-- The function `isSpace` of package `fmt`: the Unicode white space table. -/
def isSpace (r : Char) : Bool :=
  let n := r.toNat
  (0x0009 ≤ n ∧ n ≤ 0x000d) ∨ n = 0x0020 ∨ n = 0x0085 ∨ n = 0x00a0 ∨ n = 0x1680 ∨
    (0x2000 ≤ n ∧ n ≤ 0x200a) ∨ (0x2028 ≤ n ∧ n ≤ 0x2029) ∨ n = 0x202f ∨ n = 0x205f ∨
    n = 0x3000

/-- The scanner's `SkipSpace` with `limit` runes still readable: it consumes
white space, fails on a newline (`unexpected newline`, `none`) and stops before
the first other rune; the result is the limit left and the input left. -/
def skipSpace : Nat → List Char → Option (Nat × List Char)
  | _, [] => some (0, [])
  | 0, r :: rest => some (0, r :: rest)
  | limit + 1, r :: rest =>
    if r = '\r' ∧ limit ≠ 0 ∧ rest.head? = some '\n' then skipSpace limit rest
    else if r = '\n' then none
    else if isSpace r then skipSpace limit rest
    else some (limit + 1, r :: rest)

/-- The value of a string of hexadecimal digits, most significant first. -/
def hexValue (digits : List Char) : Nat :=
  digits.foldl (fun v c => 16 * v + (hexDigit c).getD 0) 0

/-- The scanner's `scanInt` for the verb `x` with `limit` runes readable
(`SkipSpace`, `notEOF`, one optional sign, `scanNumber` with at least one
hexadecimal digit, `strconv.ParseInt(tok, 16, 64)`); `none` is a scan error,
otherwise the integer and the input left. -/
def scanHexInt (limit : Nat) (input : List Char) : Option (Int × List Char) :=
  match skipSpace limit input with
  | none => none
  | some (limit, input) =>
    match limit, input with
    | 0, _ => none
    | _, [] => none
    | limit + 1, r :: rest =>
      let signed := r = '+' ∨ r = '-'
      let limit := if signed then limit else limit + 1
      let input := if signed then rest else r :: rest
      let digits := (input.take limit).takeWhile (fun c => (hexDigit c).isSome)
      if digits = [] then none
      else
        let v : Int := if r = '-' then - (hexValue digits : Int) else (hexValue digits : Int)
        if v < -(2 ^ 63) ∨ 2 ^ 63 - 1 < v then none
        else some (v, input.drop digits.length)

/-- One `%02x` of `fmt.Sscanf`: white space before the verb is skipped without
counting, then `scanInt` reads within the width 2. -/
def scanField (input : List Char) : Option (Int × List Char) :=
  match skipSpace (2 ^ 30) input with
  | none => none
  | some (_, input) => scanHexInt 2 input

/-- hexToRGB converts hex color string to RGB values (`pdf.go` 167-183). The
error of `fmt.Sscanf(hex, "%02x%02x%02x", &r, &g, &b)` is dropped: the fields
scanned before the error keep their value, the others stay 0. -/
def hexToRGB (hex : String) : Int × Int × Int :=
  let s := hex.toList
  let s := if byteLen s > 0 ∧ s.head? = some '#' then s.drop 1 else s
  if byteLen s ≠ 6 then (0, 0, 0)
  else
    match scanField s with
    | none => (0, 0, 0)
    | some (r, s) =>
      match scanField s with
      | none => (r, 0, 0)
      | some (g, s) =>
        match scanField s with
        | none => (r, g, 0)
        | some (b, _) => (r, g, b)

/-- The hexadecimal digits, the string `hexadecimalDigits` of package `fmt`. -/
def hexChars : List Char := "0123456789aAbBcCdDeEfF".toList

/-! ## Rounding to `float64` -/

theorem roundHalfEven_sub_le (q : ℚ) : |((roundHalfEven q : Int) : ℚ) - q| ≤ 1 / 2 := by
  have h1 : ((⌊q⌋ : Int) : ℚ) ≤ q := Int.floor_le q
  have h2 : q < ((⌊q⌋ : Int) : ℚ) + 1 := Int.lt_floor_add_one q
  unfold roundHalfEven
  simp only
  split_ifs with ha hb hc
  · rw [abs_le]; constructor <;> linarith
  · rw [abs_le]; push_cast; constructor <;> linarith
  · rw [abs_le]; push_neg at ha hb; constructor <;> linarith
  · rw [abs_le]; push_neg at ha hb; push_cast; constructor <;> linarith

theorem roundHalfEven_nonneg {q : ℚ} (hq : 0 ≤ q) : 0 ≤ roundHalfEven q := by
  have hf : 0 ≤ ⌊q⌋ := Int.floor_nonneg.2 hq
  unfold roundHalfEven
  simp only
  split_ifs <;> omega

theorem roundHalfEven_eq_of_close (q : ℚ) (k : Int) (h1 : q - k < 1 / 2) (h2 : (k : ℚ) - q < 1 / 2) :
    roundHalfEven q = k := by
  unfold roundHalfEven
  simp only
  by_cases hq : (k : ℚ) ≤ q
  · have hf : ⌊q⌋ = k := by
      rw [Int.floor_eq_iff]
      constructor
      · exact hq
      · linarith
    rw [hf, if_pos h1]
  · push_neg at hq
    have hf : ⌊q⌋ = k - 1 := by
      rw [Int.floor_eq_iff]
      push_cast
      constructor <;> linarith
    rw [hf]
    push_cast
    rw [if_neg (by linarith), if_pos (by linarith)]
    ring

/-- Evaluation of the rounding at a positive rational: with `2^E ≤ x < 2^(E+1)`
and `k` within one half of `x / 2^(E-52)`, the nearest `float64` is
`k * 2^(E-52)`. -/
theorem F64.ofRat_eq_fin (x : ℚ) (E k : Int) (hE : -1022 ≤ E)
    (h1 : (2 : ℚ) ^ E ≤ x) (h2 : x < (2 : ℚ) ^ (E + 1))
    (hk1 : x / (2 : ℚ) ^ (E - 52) - k < 1 / 2) (hk2 : (k : ℚ) - x / (2 : ℚ) ^ (E - 52) < 1 / 2)
    (hfin : |(k : ℚ) * (2 : ℚ) ^ (E - 52)| < 2 ^ 1024) :
    F64.ofRat x = F64.fin ((k : ℚ) * (2 : ℚ) ^ (E - 52)) := by
  have hpos : 0 < x := lt_of_lt_of_le (zpow_pos (by norm_num) E) h1
  have hlog : Int.log 2 |x| = E := by
    rw [abs_of_pos hpos]
    apply le_antisymm
    · have := (Int.lt_zpow_iff_log_lt (b := 2) (by norm_num) hpos (x := E + 1)).1
        (by exact_mod_cast h2)
      omega
    · exact (Int.zpow_le_iff_le_log (b := 2) (by norm_num) hpos).1 (by exact_mod_cast h1)
  unfold F64.ofRat
  rw [if_neg hpos.ne']
  simp only [hlog, max_eq_left hE]
  rw [roundHalfEven_eq_of_close _ k hk1 hk2, if_neg (not_le.2 hfin)]

/-- Rounding a non-negative rational below `2^1023`: the result is finite and
non-negative, exceeds `x` by at most the relative error `2^-53` plus `2^-1075`,
and by at most the relative error alone when it is at least `2^-1021`. -/
theorem F64.ofRat_bounds (x : ℚ) (hx : 0 ≤ x) (hlt : x < 2 ^ 1023) :
    ∃ r, F64.ofRat x = F64.fin r ∧ 0 ≤ r ∧ r ≤ x * (1 + 1 / 2 ^ 53) + 1 / 2 ^ 1075 ∧
      ((1 : ℚ) / 2 ^ 1021 ≤ r → r ≤ x * (1 + 1 / 2 ^ 53)) := by
  rcases hx.eq_or_lt with h0 | hpos
  · subst h0
    refine ⟨0, by simp [F64.ofRat], le_refl _, by norm_num, ?_⟩
    intro h
    norm_num at h
  · set L := Int.log 2 |x| with hL
    have habs : |x| = x := abs_of_pos hpos
    set e := max L (-1022) with he
    set u : ℚ := 2 ^ (e - 52) with hu
    have hupos : 0 < u := zpow_pos (by norm_num) _
    set k := roundHalfEven (x / u) with hk
    have hkn : (0 : ℚ) ≤ (k : ℚ) := by
      exact_mod_cast roundHalfEven_nonneg (div_nonneg hpos.le hupos.le)
    have herr : |(k : ℚ) - x / u| ≤ 1 / 2 := roundHalfEven_sub_le (x / u)
    have hr : (k : ℚ) * u ≤ x + u / 2 := by
      have := (abs_le.1 herr).2
      have h1 : (k : ℚ) ≤ x / u + 1 / 2 := by linarith
      calc (k : ℚ) * u ≤ (x / u + 1 / 2) * u := mul_le_mul_of_nonneg_right h1 hupos.le
        _ = x + u / 2 := by field_simp; ring
    have hlow : (2 : ℚ) ^ L ≤ x := by
      have := Int.zpow_log_le_self (b := 2) (r := x) (by norm_num) hpos
      rw [hL, habs]
      exact_mod_cast this
    have hhigh : x < (2 : ℚ) ^ (L + 1) := by
      have := Int.lt_zpow_succ_log_self (b := 2) (R := ℚ) (by norm_num) x
      rw [hL, habs]
      exact_mod_cast this
    have hcases : (u / 2 ≤ x * (1 / 2 ^ 53) ∧ -1022 ≤ L) ∨
        (u / 2 = 1 / 2 ^ 1075 ∧ x < 1 / 2 ^ 1022) := by
      by_cases hLe : -1022 ≤ L
      · left
        refine ⟨?_, hLe⟩
        have heq : e = L := max_eq_left hLe
        have : u = 2 ^ L * (1 / 2 ^ 52) := by
          rw [hu, heq, zpow_sub₀ (by norm_num)]
          norm_num
          ring
        rw [this]
        calc (2 : ℚ) ^ L * (1 / 2 ^ 52) / 2 = 2 ^ L * (1 / 2 ^ 53) := by ring
          _ ≤ x * (1 / 2 ^ 53) := mul_le_mul_of_nonneg_right hlow (by norm_num)
      · right
        push_neg at hLe
        have heq : e = -1022 := max_eq_right hLe.le
        constructor
        · rw [hu, heq]
          norm_num
        · have h1 : (2 : ℚ) ^ (L + 1) ≤ 2 ^ (-1022 : ℤ) :=
            zpow_le_zpow_right₀ (by norm_num) (by omega)
          have h2 : (2 : ℚ) ^ (-1022 : ℤ) = 1 / 2 ^ 1022 := by norm_num
          calc x < (2 : ℚ) ^ (L + 1) := hhigh
            _ ≤ 2 ^ (-1022 : ℤ) := h1
            _ = 1 / 2 ^ 1022 := h2
    have hcrude : (k : ℚ) * u ≤ x * (1 + 1 / 2 ^ 53) + 1 / 2 ^ 1075 := by
      rcases hcases with ⟨h, _⟩ | ⟨h, _⟩
      · have : (0 : ℚ) ≤ 1 / 2 ^ 1075 := by norm_num
        linarith
      · have : 0 ≤ x * (1 / 2 ^ 53) := mul_nonneg hpos.le (by norm_num)
        linarith
    have hfin : |(k : ℚ) * u| < 2 ^ 1024 := by
      rw [abs_of_nonneg (mul_nonneg hkn hupos.le)]
      have h1 : x * (1 + 1 / 2 ^ 53) + 1 / 2 ^ 1075 < 2 ^ 1023 * (1 + 1 / 2 ^ 53) + 1 / 2 ^ 1075 := by
        have : x * (1 + 1 / 2 ^ 53) < 2 ^ 1023 * (1 + 1 / 2 ^ 53) :=
          mul_lt_mul_of_pos_right hlt (by norm_num)
        linarith
      have h2 : (2 : ℚ) ^ 1023 * (1 + 1 / 2 ^ 53) + 1 / 2 ^ 1075 < 2 ^ 1024 := by norm_num
      linarith
    refine ⟨(k : ℚ) * u, ?_, mul_nonneg hkn hupos.le, hcrude, ?_⟩
    · unfold F64.ofRat
      rw [if_neg hpos.ne']
      simp only
      rw [← hL, ← he, ← hu, ← hk, if_neg (not_le.2 hfin)]
    · intro hbig
      rcases hcases with ⟨h, _⟩ | ⟨h, hsmall⟩
      · linarith
      · exfalso
        have h3 : (1 : ℚ) / 2 ^ 1022 + 1 / 2 ^ 1075 < 1 / 2 ^ 1021 := by norm_num
        linarith

/-- Exactness of the rounding on positive integers below `2^53`. -/
theorem F64.ofRat_natCast (N : Nat) (h0 : 0 < N) (h : N < 2 ^ 53) :
    F64.ofRat (N : ℚ) = F64.fin (N : ℚ) := by
  have hpos : (0 : ℚ) < (N : ℚ) := by exact_mod_cast h0
  obtain ⟨L, hL⟩ : ∃ L : Int, L = Int.log 2 ((N : ℚ)) := ⟨_, rfl⟩
  have hlow : (2 : ℚ) ^ L ≤ (N : ℚ) := by
    have := Int.zpow_log_le_self (b := 2) (r := (N : ℚ)) (by norm_num) hpos
    rw [← hL, Nat.cast_ofNat] at this
    exact this
  have hhigh : (N : ℚ) < (2 : ℚ) ^ (L + 1) := by
    have := Int.lt_zpow_succ_log_self (b := 2) (R := ℚ) (by norm_num) (N : ℚ)
    rw [← hL, Nat.cast_ofNat] at this
    exact this
  have hL0 : 0 ≤ L := by
    rw [hL]
    apply (Int.zpow_le_iff_le_log (b := 2) (by norm_num) hpos).1
    have : (1 : ℚ) ≤ (N : ℚ) := by exact_mod_cast h0
    rw [zpow_zero]
    exact this
  have hL52 : L < 53 := by
    rw [hL]
    apply (Int.lt_zpow_iff_log_lt (b := 2) (by norm_num) hpos).1
    have h1 : ((N : ℚ)) < 2 ^ 53 := by exact_mod_cast h
    norm_num at h1 ⊢
    exact h1
  obtain ⟨d, hd⟩ : ∃ d : Nat, (d : Int) = 52 - L := ⟨(52 - L).toNat, by omega⟩
  have hu : (2 : ℚ) ^ (L - 52) = 1 / 2 ^ d := by
    have : L - 52 = -(d : Int) := by omega
    rw [this, zpow_neg, zpow_natCast, one_div]
  have hk : (N : ℚ) / (2 : ℚ) ^ (L - 52) = (((N * 2 ^ d : Nat) : Int) : ℚ) := by
    rw [hu]
    push_cast
    field_simp
  have hval : ((((N * 2 ^ d : Nat) : Int) : ℚ)) * (2 : ℚ) ^ (L - 52) = (N : ℚ) := by
    rw [hu]
    push_cast
    field_simp
  rw [F64.ofRat_eq_fin (N : ℚ) L ((N * 2 ^ d : Nat) : Int) (by omega) hlow hhigh
    (by rw [hk]; norm_num) (by rw [hk]; norm_num)
    (by
      rw [hval, abs_of_pos hpos]
      have h1 : (N : ℚ) < 2 ^ 53 := by exact_mod_cast h
      have h2 : (2 : ℚ) ^ 53 < 2 ^ 1024 := by norm_num
      linarith), hval]

/-- Arithmetic of the four roundings of a count that reaches 1. -/
theorem count_chain (n p t q m v ε τ : ℚ) (hn : 0 ≤ n)
    (hε0 : 0 ≤ ε) (hε : ε ≤ 1) (hτ : τ * 2 ^ 51 ≤ 25) (hτ0 : 0 ≤ τ)
    (ht0 : 0 ≤ t) (ht : τ ≤ t → t ≤ n * (1 + ε)) (htT : t ≤ 2 ^ 51)
    (hq0 : 0 ≤ q) (hq : τ ≤ q → q ≤ p * (1 + ε)) (hqT : q ≤ 102)
    (hm : τ ≤ m → m ≤ t * q * (1 + ε))
    (hv : τ ≤ v → v ≤ m / 100 * (1 + ε)) (hv1 : 1 ≤ v) :
    v ≤ n * p * (1 + ε) ^ 4 / 100 := by
  have hτ1 : τ ≤ 1 := by
    have : τ * 1 ≤ τ * 2 ^ 51 := mul_le_mul_of_nonneg_left (by norm_num) hτ0
    linarith
  have h1 : v ≤ m / 100 * (1 + ε) := hv (le_trans hτ1 hv1)
  have hm50 : 50 ≤ m := by
    by_contra hcon
    push_neg at hcon
    have : m / 100 * (1 + ε) < 1 := by
      rcases le_or_lt m 0 with hm0 | hm0
      · have : m / 100 * (1 + ε) ≤ 0 :=
          mul_nonpos_of_nonpos_of_nonneg (by linarith) (by linarith)
        linarith
      · calc m / 100 * (1 + ε) ≤ m / 100 * 2 :=
            mul_le_mul_of_nonneg_left (by linarith) (by linarith)
          _ < 1 := by linarith
    linarith
  have h2 : m ≤ t * q * (1 + ε) := hm (by linarith)
  have htq : 25 ≤ t * q := by
    by_contra hcon
    push_neg at hcon
    have htq0 : 0 ≤ t * q := mul_nonneg ht0 hq0
    have : t * q * (1 + ε) ≤ t * q * 2 := mul_le_mul_of_nonneg_left (by linarith) htq0
    linarith
  have ht' : τ ≤ t := by
    by_contra hcon
    push_neg at hcon
    have : t * q ≤ t * 102 := mul_le_mul_of_nonneg_left hqT ht0
    have h3 : τ * 102 ≤ τ * 2 ^ 51 := mul_le_mul_of_nonneg_left (by norm_num) hτ0
    linarith
  have hq' : τ ≤ q := by
    by_contra hcon
    push_neg at hcon
    have : t * q ≤ 2 ^ 51 * q := mul_le_mul_of_nonneg_right htT hq0
    have h3 : 2 ^ 51 * q < 2 ^ 51 * τ := by
      apply mul_lt_mul_of_pos_left hcon (by norm_num)
    linarith
  have h3 : t ≤ n * (1 + ε) := ht ht'
  have h4 : q ≤ p * (1 + ε) := hq hq'
  have h1e : (0 : ℚ) ≤ 1 + ε := by linarith
  have h5 : t * q ≤ n * (1 + ε) * (p * (1 + ε)) :=
    mul_le_mul h3 h4 hq0 (mul_nonneg hn h1e)
  have h6 : m ≤ n * (1 + ε) * (p * (1 + ε)) * (1 + ε) :=
    le_trans h2 (mul_le_mul_of_nonneg_right h5 h1e)
  have h7 : m / 100 * (1 + ε) ≤ n * (1 + ε) * (p * (1 + ε)) * (1 + ε) / 100 * (1 + ε) := by
    apply mul_le_mul_of_nonneg_right _ h1e
    linarith
  calc v ≤ m / 100 * (1 + ε) := h1
    _ ≤ n * (1 + ε) * (p * (1 + ε)) * (1 + ε) / 100 * (1 + ε) := h7
    _ = n * p * (1 + ε) ^ 4 / 100 := by ring

theorem sum_map_eq_of_le {α : Type} (a b : α → ℚ) :
    ∀ l : List α, (∀ x ∈ l, a x ≤ b x) → (l.map b).sum ≤ (l.map a).sum →
      ∀ x ∈ l, a x = b x
  | [], _, _ => by simp
  | y :: l, hle, hsum => by
    have hy : a y ≤ b y := hle y (List.mem_cons_self _ _)
    have hl : ∀ x ∈ l, a x ≤ b x := fun x hx => hle x (List.mem_cons_of_mem _ hx)
    have hls : (l.map a).sum ≤ (l.map b).sum := List.sum_le_sum hl
    simp only [List.map_cons, List.sum_cons] at hsum
    have ih := sum_map_eq_of_le a b l hl (by linarith)
    intro x hx
    rcases List.mem_cons.1 hx with rfl | hx
    · linarith
    · exact ih x hx

theorem sum_map_mul_left (c : ℚ) (f : ItemTypePtr → ℚ) (l : List ItemTypePtr) :
    (l.map (fun t => c * f t)).sum = c * (l.map f).sum := by
  induction l with
  | nil => simp
  | cons x l ih => simp [ih, mul_add]

theorem sum_map_intCast (f : ItemTypePtr → Int) (l : List ItemTypePtr) :
    (((l.map f).sum : Int) : ℚ) = (l.map (fun t => (f t : ℚ))).sum := by
  induction l with
  | nil => simp
  | cons x l ih => simp [ih]

/-! ## The counts of `PopulateGrid` -/

/-- The steps of `itemCount`: the four roundings and the conversion. -/
theorem itemCount_of_steps (n : Int) (t : ItemTypePtr) (a q m v : ℚ) (c : Int)
    (ha : F64.ofRat (n : ℚ) = F64.fin a) (hq : F64.ofRat t.val.Percentage = F64.fin q)
    (hm : F64.ofRat (a * q) = F64.fin m) (hv : F64.ofRat (m / 100) = F64.fin v)
    (hv0 : 0 ≤ v) (hc : ⌊v⌋ = c) (hc1 : -(2 ^ 63) ≤ c) (hc2 : c ≤ 2 ^ 63 - 1) :
    itemCount n t = c := by
  unfold itemCount F64.ofInt
  rw [ha, hq]
  simp only [F64.mul]
  rw [hm]
  simp only [F64.div]
  rw [if_neg (by norm_num), hv]
  simp only [F64.toInt]
  rw [if_pos hv0, hc, if_pos ⟨hc1, hc2⟩]

/-- For at most `2^50` cells and a percentage in [0,100] the count is
non-negative and at most the exact product times `(1 + 2^-53)^4`. -/
theorem itemCount_bounds (n : Int) (t : ItemTypePtr) (hn0 : 0 < n) (hn : n ≤ 2 ^ 50)
    (hp0 : 0 ≤ t.val.Percentage) (hp : t.val.Percentage ≤ 100) :
    0 ≤ itemCount n t ∧
      ((itemCount n t : Int) : ℚ) ≤
        (n : ℚ) * t.val.Percentage * (1 + 1 / 2 ^ 53) ^ 4 / 100 := by
  have hnq0 : (0 : ℚ) < (n : ℚ) := by exact_mod_cast hn0
  have hnq : (n : ℚ) ≤ 2 ^ 50 := by exact_mod_cast hn
  have hbig : (2 : ℚ) ^ 70 < 2 ^ 1023 := by norm_num
  have hη : (1 : ℚ) / 2 ^ 1075 ≤ 1 := by norm_num
  obtain ⟨a, ha, ha0, hac, har⟩ := F64.ofRat_bounds (n : ℚ) hnq0.le (by
    have : (2 : ℚ) ^ 50 < 2 ^ 70 := by norm_num
    linarith)
  obtain ⟨q, hq, hq0, hqc, hqr⟩ := F64.ofRat_bounds t.val.Percentage hp0 (by
    have : (100 : ℚ) < 2 ^ 70 := by norm_num
    linarith)
  have haT : a ≤ 2 ^ 51 := by
    have h1 : (n : ℚ) * (1 + 1 / 2 ^ 53) ≤ 2 ^ 50 * (1 + 1 / 2 ^ 53) :=
      mul_le_mul_of_nonneg_right hnq (by norm_num)
    have h2 : (2 : ℚ) ^ 50 * (1 + 1 / 2 ^ 53) + 1 ≤ 2 ^ 51 := by norm_num
    linarith
  have hqT : q ≤ 102 := by
    have h1 : t.val.Percentage * (1 + 1 / 2 ^ 53) ≤ 100 * (1 + 1 / 2 ^ 53) :=
      mul_le_mul_of_nonneg_right hp (by norm_num)
    have h2 : (100 : ℚ) * (1 + 1 / 2 ^ 53) + 1 ≤ 102 := by norm_num
    linarith
  have haq : a * q ≤ 2 ^ 51 * 102 := mul_le_mul haT hqT hq0 (by norm_num)
  obtain ⟨m, hm, hm0, hmc, hmr⟩ := F64.ofRat_bounds (a * q) (mul_nonneg ha0 hq0) (by
    have : (2 : ℚ) ^ 51 * 101 < 2 ^ 70 := by norm_num
    linarith)
  have hmT : m ≤ 2 ^ 59 := by
    have h1 : a * q * (1 + 1 / 2 ^ 53) ≤ 2 ^ 51 * 102 * (1 + 1 / 2 ^ 53) :=
      mul_le_mul_of_nonneg_right haq (by norm_num)
    have h2 : (2 : ℚ) ^ 51 * 101 * (1 + 1 / 2 ^ 53) + 1 ≤ 2 ^ 59 := by norm_num
    linarith
  obtain ⟨v, hv, hv0, hvc, hvr⟩ := F64.ofRat_bounds (m / 100) (div_nonneg hm0 (by norm_num)) (by
    have : m / 100 ≤ m := by
      rw [div_le_iff₀ (by norm_num)]
      linarith
    have : (2 : ℚ) ^ 59 < 2 ^ 70 := by norm_num
    linarith)
  have hvT : v ≤ 2 ^ 60 := by
    have h0 : m / 100 ≤ 2 ^ 59 := by
      have : m / 100 ≤ m := by
        rw [div_le_iff₀ (by norm_num)]
        linarith
      linarith
    have h1 : m / 100 * (1 + 1 / 2 ^ 53) ≤ 2 ^ 59 * (1 + 1 / 2 ^ 53) :=
      mul_le_mul_of_nonneg_right h0 (by norm_num)
    have h2 : (2 : ℚ) ^ 59 * (1 + 1 / 2 ^ 53) + 1 ≤ 2 ^ 60 := by norm_num
    linarith
  have hfl0 : 0 ≤ ⌊v⌋ := Int.floor_nonneg.2 hv0
  have hflv : ((⌊v⌋ : Int) : ℚ) ≤ v := Int.floor_le v
  have hflT : ⌊v⌋ ≤ 2 ^ 63 - 1 := by
    have h1 : ((⌊v⌋ : Int) : ℚ) ≤ 2 ^ 60 := le_trans hflv hvT
    have h2 : ⌊v⌋ ≤ 2 ^ 60 := by exact_mod_cast h1
    have h3 : (2 : Int) ^ 60 ≤ 2 ^ 63 - 1 := by norm_num
    exact le_trans h2 h3
  have hcount : itemCount n t = ⌊v⌋ :=
    itemCount_of_steps n t a q m v ⌊v⌋ ha hq hm hv hv0 rfl (by
      have : -(2 : Int) ^ 63 ≤ 0 := by norm_num
      exact le_trans this hfl0) hflT
  rw [hcount]
  refine ⟨hfl0, ?_⟩
  rcases lt_or_le v 1 with hlt | hge
  · have hz : ⌊v⌋ = 0 := by
      rw [Int.floor_eq_iff]
      constructor
      · simpa using hv0
      · simpa using hlt
    rw [hz]
    have : (0 : ℚ) ≤ (n : ℚ) * t.val.Percentage * (1 + 1 / 2 ^ 53) ^ 4 / 100 := by
      apply div_nonneg _ (by norm_num)
      exact mul_nonneg (mul_nonneg hnq0.le hp0) (by norm_num)
    simpa using this
  · have := count_chain (n : ℚ) t.val.Percentage a q m v (1 / 2 ^ 53) (1 / 2 ^ 1021) hnq0.le
      (by norm_num) (by norm_num) (by norm_num) (by norm_num) ha0 har haT hq0 hqr hqT hmr hvr hge
    exact le_trans hflv this

/-- For at most `2^50` cells and percentages in [0,100] that sum to at most 100,
the counts computed by `PopulateGrid` are non-negative and sum to at most the
number of cells. -/
theorem sum_itemCount_le (rows cols : Int) (types : List ItemTypePtr)
    (hpos : 0 < rows * cols) (hsize : rows * cols ≤ 2 ^ 50)
    (hrange : ∀ t ∈ types, 0 ≤ t.val.Percentage ∧ t.val.Percentage ≤ 100)
    (hsum : (types.map (fun t => t.val.Percentage)).sum ≤ 100) :
    (∀ t ∈ types, 0 ≤ itemCount (rows * cols) t) ∧
      (types.map (itemCount (rows * cols))).sum ≤ rows * cols := by
  have hb : ∀ t ∈ types, 0 ≤ itemCount (rows * cols) t ∧
      ((itemCount (rows * cols) t : Int) : ℚ) ≤
        ((rows * cols : Int) : ℚ) * t.val.Percentage * (1 + 1 / 2 ^ 53) ^ 4 / 100 :=
    fun t ht => itemCount_bounds (rows * cols) t hpos hsize (hrange t ht).1 (hrange t ht).2
  refine ⟨fun t ht => (hb t ht).1, ?_⟩
  have hn0 : (0 : ℚ) < ((rows * cols : Int) : ℚ) := by exact_mod_cast hpos
  have hn : (((rows * cols : Int) : ℚ)) ≤ 2 ^ 50 := by exact_mod_cast hsize
  obtain ⟨n, hndef⟩ : ∃ n : ℚ, n = ((rows * cols : Int) : ℚ) := ⟨_, rfl⟩
  rw [← hndef] at hn0 hn
  have hle : (types.map (fun t => ((itemCount (rows * cols) t : Int) : ℚ))).sum ≤
      (types.map (fun t => n * (1 + 1 / 2 ^ 53) ^ 4 / 100 * t.val.Percentage)).sum := by
    apply List.sum_le_sum
    intro t ht
    have := (hb t ht).2
    rw [← hndef] at this
    calc ((itemCount (rows * cols) t : Int) : ℚ)
        ≤ n * t.val.Percentage * (1 + 1 / 2 ^ 53) ^ 4 / 100 := this
      _ = n * (1 + 1 / 2 ^ 53) ^ 4 / 100 * t.val.Percentage := by ring
  rw [sum_map_mul_left] at hle
  have hc : (0 : ℚ) ≤ n * (1 + 1 / 2 ^ 53) ^ 4 / 100 :=
    div_nonneg (mul_nonneg hn0.le (by norm_num)) (by norm_num)
  have h1 : n * (1 + 1 / 2 ^ 53) ^ 4 / 100 * (types.map (fun t => t.val.Percentage)).sum ≤
      n * (1 + 1 / 2 ^ 53) ^ 4 / 100 * 100 := mul_le_mul_of_nonneg_left hsum hc
  have h2 : n * (1 + 1 / 2 ^ 53) ^ 4 / 100 * 100 = n + n * ((1 + 1 / 2 ^ 53) ^ 4 - 1) := by ring
  have h3 : n * ((1 + 1 / 2 ^ 53) ^ 4 - 1) ≤ 2 ^ 50 * ((1 + 1 / 2 ^ 53) ^ 4 - 1) :=
    mul_le_mul_of_nonneg_right hn (by norm_num)
  have h4 : (2 : ℚ) ^ 50 * ((1 + 1 / 2 ^ 53) ^ 4 - 1) < 1 := by norm_num
  have h5 : (((types.map (itemCount (rows * cols))).sum : Int) : ℚ) <
      ((rows * cols + 1 : Int) : ℚ) := by
    rw [sum_map_intCast]
    push_cast
    rw [← Int.cast_mul, ← hndef]
    linarith
  have h6 : (types.map (itemCount (rows * cols))).sum < rows * cols + 1 := by
    exact_mod_cast h5
  omega

/-- The exact quotas `floor(rows*cols * percentage / 100)` of percentages in
[0,100] that sum to at most 100 sum to at most `rows*cols`, with equality only
when the percentages sum to exactly 100 and every product is a multiple of
100. -/
theorem quota_sum_le (rows cols : Int) (types : List ItemTypePtr)
    (hpos : 0 < rows * cols)
    (hsum : (types.map (fun t => t.val.Percentage)).sum ≤ 100) :
    (types.map (fun t => quota rows cols t.val)).sum ≤ rows * cols ∧
    ((types.map (fun t => quota rows cols t.val)).sum = rows * cols →
      (types.map (fun t => t.val.Percentage)).sum = 100 ∧
      ∀ t ∈ types, ∃ k : Int, t.val.Percentage * ((rows * cols : Int) : ℚ) = 100 * (k : ℚ)) := by
  have hn : (0 : ℚ) < ((rows * cols : Int) : ℚ) := by exact_mod_cast hpos
  set n : ℚ := ((rows * cols : Int) : ℚ) with hndef
  have hfl : ∀ t ∈ types, ((quota rows cols t.val : Int) : ℚ) ≤ n / 100 * t.val.Percentage := by
    intro t _
    unfold quota
    calc ((⌊n * t.val.Percentage / 100⌋ : Int) : ℚ) ≤ n * t.val.Percentage / 100 := Int.floor_le _
      _ = n / 100 * t.val.Percentage := by ring
  have hle : (types.map (fun t => ((quota rows cols t.val : Int) : ℚ))).sum ≤
      (types.map (fun t => n / 100 * t.val.Percentage)).sum := List.sum_le_sum hfl
  rw [sum_map_mul_left] at hle
  have hcast := sum_map_intCast (fun t => quota rows cols t.val) types
  refine ⟨?_, ?_⟩
  · have h1 : (((types.map (fun t => quota rows cols t.val)).sum : Int) : ℚ) ≤ n := by
      rw [hcast]
      calc _ ≤ n / 100 * (types.map (fun t => t.val.Percentage)).sum := hle
        _ ≤ n / 100 * 100 := by
            apply mul_le_mul_of_nonneg_left hsum; positivity
        _ = n := by ring
    rw [hndef] at h1
    exact Int.cast_le.1 h1
  · intro heq
    have h1 : (types.map (fun t => ((quota rows cols t.val : Int) : ℚ))).sum = n := by
      rw [← hcast, heq]
    have h2 : n ≤ n / 100 * (types.map (fun t => t.val.Percentage)).sum := h1 ▸ hle
    have h3 : (100 : ℚ) ≤ (types.map (fun t => t.val.Percentage)).sum := by
      by_contra hlt
      push_neg at hlt
      have : n / 100 * (types.map (fun t => t.val.Percentage)).sum < n / 100 * 100 :=
        mul_lt_mul_of_pos_left hlt (by positivity)
      have : n / 100 * 100 = n := by ring
      linarith
    have h4 : (types.map (fun t => t.val.Percentage)).sum = 100 := le_antisymm hsum h3
    refine ⟨h4, ?_⟩
    have h5 := sum_map_eq_of_le (fun t => ((quota rows cols t.val : Int) : ℚ))
      (fun t => n / 100 * t.val.Percentage) types hfl (by
        rw [sum_map_mul_left, h4, h1]
        apply le_of_eq; ring)
    intro t ht
    refine ⟨quota rows cols t.val, ?_⟩
    have := h5 t ht
    simp only at this
    rw [this]; ring

theorem getCell_setItemType_self (cells : List (List HexCell)) (p : CellPtr) (t : ItemTypePtr) :
    getCell (setItemType cells p t) p =
      (getCell cells p).map (fun cell => { cell with ItemType := some t }) := by
  unfold getCell setItemType
  rw [List.getElem?_modify]
  cases h : cells[p.1]? with
  | none => simp
  | some row =>
    simp only [if_true, Option.map_eq_map, Option.map_some']
    rw [List.getElem?_modify]
    simp

theorem getCell_setItemType_ne (cells : List (List HexCell)) (p q : CellPtr) (t : ItemTypePtr)
    (h : q ≠ p) : getCell (setItemType cells p t) q = getCell cells q := by
  unfold getCell setItemType
  rw [List.getElem?_modify]
  cases hrow : cells[q.1]? with
  | none => simp
  | some row =>
    by_cases h1 : p.1 = q.1
    · have h2 : p.2 ≠ q.2 := fun h2 => h (Prod.ext h1.symm h2.symm)
      simp only [h1, if_true, Option.map_eq_map, Option.map_some']
      rw [List.getElem?_modify]
      simp [h2]
    · simp [h1]

theorem shaped_setItemType {cells : List (List HexCell)} {r c : Nat} (h : Shaped cells r c)
    (p : CellPtr) (t : ItemTypePtr) : Shaped (setItemType cells p t) r c := by
  obtain ⟨h1, h2⟩ := h
  refine ⟨by simp [setItemType, h1], ?_⟩
  intro row hrow
  obtain ⟨i, hi, rfl⟩ := List.getElem_of_mem hrow
  have hi' : i < cells.length := by simpa [setItemType] using hi
  have hget : (setItemType cells p t)[i]? = some ((setItemType cells p t)[i]) :=
    List.getElem?_eq_getElem hi
  unfold setItemType at hget
  rw [List.getElem?_modify, List.getElem?_eq_getElem hi'] at hget
  simp only [Option.map_eq_map, Option.map_some', Option.some.injEq] at hget
  unfold setItemType
  rw [← hget]
  split
  · simp [h2 _ (List.getElem_mem hi')]
  · exact h2 _ (List.getElem_mem hi')

theorem shaped_assignAll :
    ∀ (ps : List CellPtr) (ts : List ItemTypePtr) (cells : List (List HexCell)) (r c : Nat),
      Shaped cells r c → Shaped (assignAll ps ts cells) r c
  | [], _, _, _, _, h => by simpa [assignAll] using h
  | _ :: _, [], _, _, _, h => by simpa [assignAll] using h
  | p :: ps, t :: ts, cells, r, c, h => by
    simp only [assignAll]
    exact shaped_assignAll ps ts _ r c (shaped_setItemType h p t)

theorem getCell_assignAll_of_not_mem :
    ∀ (ps : List CellPtr) (ts : List ItemTypePtr) (cells : List (List HexCell)) (q : CellPtr),
      q ∉ ps → getCell (assignAll ps ts cells) q = getCell cells q
  | [], _, _, _, _ => by simp [assignAll]
  | _ :: _, [], _, _, _ => by simp [assignAll]
  | p :: ps, t :: ts, cells, q, h => by
    simp only [assignAll]
    rw [getCell_assignAll_of_not_mem ps ts _ q (fun hq => h (List.mem_cons_of_mem _ hq))]
    exact getCell_setItemType_ne cells p q t (fun hq => h (hq ▸ List.mem_cons_self _ _))

theorem assignAll_nil_right (ps : List CellPtr) (cells : List (List HexCell)) :
    assignAll ps [] cells = cells := by
  cases ps <;> rfl

theorem assignAll_append :
    ∀ (ps : List CellPtr) (ts us : List ItemTypePtr) (cells : List (List HexCell)),
      assignAll ps (ts ++ us) cells = assignAll (ps.drop ts.length) us (assignAll ps ts cells)
  | ps, [], us, cells => by simp [assignAll_nil_right]
  | [], t :: ts, us, cells => by simp [assignAll]
  | p :: ps, t :: ts, us, cells => by
    simp only [List.cons_append, assignAll, List.length_cons, List.drop_succ_cons]
    exact assignAll_append ps ts us _

/-- Items found in the slots `ps` after the pairwise assignment: the labels that
fit, then the old contents of the slots left over. -/
theorem map_itemAt_assignAll :
    ∀ (ps : List CellPtr) (ts : List ItemTypePtr) (cells : List (List HexCell)),
      ps.Nodup → (∀ p ∈ ps, (getCell cells p).isSome) →
      ps.map (itemAt (assignAll ps ts cells)) =
        (ts.take ps.length).map (fun t => some (some t)) ++ (ps.drop ts.length).map (itemAt cells)
  | [], ts, cells, _, _ => by simp [assignAll]
  | p :: ps, [], cells, _, _ => by simp [assignAll]
  | p :: ps, t :: ts, cells, hnd, hval => by
    have hp : p ∉ ps := (List.nodup_cons.1 hnd).1
    have hps : ps.Nodup := (List.nodup_cons.1 hnd).2
    have hval' : ∀ q ∈ ps, (getCell (setItemType cells p t) q).isSome := by
      intro q hq
      have hne : q ≠ p := fun h => hp (h ▸ hq)
      rw [getCell_setItemType_ne cells p q t hne]
      exact hval q (List.mem_cons_of_mem _ hq)
    have ih := map_itemAt_assignAll ps ts (setItemType cells p t) hps hval'
    have hhead : itemAt (assignAll ps ts (setItemType cells p t)) p = some (some t) := by
      unfold itemAt
      rw [getCell_assignAll_of_not_mem ps ts _ p hp, getCell_setItemType_self]
      obtain ⟨cell, hcell⟩ := Option.isSome_iff_exists.1 (hval p (List.mem_cons_self _ _))
      simp [hcell]
    have htail : (ps.drop ts.length).map (itemAt (setItemType cells p t)) =
        (ps.drop ts.length).map (itemAt cells) := by
      apply List.map_congr_left
      intro q hq
      have hq' : q ∈ ps := List.mem_of_mem_drop hq
      have hne : q ≠ p := fun h => hp (h ▸ hq')
      unfold itemAt
      rw [getCell_setItemType_ne cells p q t hne]
    simp only [assignAll, List.map_cons, List.length_cons, List.take_succ_cons,
      List.drop_succ_cons, List.cons_append, hhead, ih, htail]

/-! ## The assignment loops -/

theorem assignInner_eq (sh : List CellPtr) (t : ItemTypePtr) :
    ∀ (n : Nat) (cells : List (List HexCell)) (k : Nat), k ≤ sh.length →
      assignInner sh t n { cells := cells, cellIndex := k } =
        some { cells := assignAll (sh.drop k) (List.replicate n t) cells,
               cellIndex := min (k + n) sh.length }
  | 0, cells, k, hk => by
    simp [assignInner, assignAll_nil_right, Nat.min_eq_left hk]
  | n + 1, cells, k, hk => by
    unfold assignInner
    by_cases hlt : k < sh.length
    · simp only [hlt, if_true, List.getElem?_eq_getElem hlt]
      rw [assignInner_eq sh t n _ (k + 1) hlt, List.drop_eq_getElem_cons hlt,
        List.replicate_succ]
      simp only [assignAll]
      congr 2
      omega
    · have hk' : k = sh.length := by omega
      subst hk'
      simp [assignAll]

theorem labelsOf_cons (e : ItemTypePtr × Int) (es : List (ItemTypePtr × Int)) :
    labelsOf (e :: es) = List.replicate e.2.toNat e.1 ++ labelsOf es := by
  simp [labelsOf]

theorem assignOuter_eq (sh : List CellPtr) :
    ∀ (es : List (ItemTypePtr × Int)) (cells : List (List HexCell)) (k : Nat), k ≤ sh.length →
      assignOuter sh es { cells := cells, cellIndex := k } =
        some { cells := assignAll (sh.drop k) (labelsOf es) cells,
               cellIndex := min (k + (labelsOf es).length) sh.length }
  | [], cells, k, hk => by
    simp [assignOuter, labelsOf, assignAll_nil_right, Nat.min_eq_left hk]
  | e :: es, cells, k, hk => by
    unfold assignOuter
    rw [assignInner_eq sh e.1 e.2.toNat cells k hk]
    simp only
    rw [assignOuter_eq sh es _ _ (Nat.min_le_right _ _), labelsOf_cons, assignAll_append]
    simp only [List.length_replicate, List.drop_drop, List.length_append]
    have hdrop : List.drop (min (k + e.2.toNat) sh.length) sh = List.drop (k + e.2.toNat) sh := by
      by_cases h : k + e.2.toNat ≤ sh.length
      · rw [Nat.min_eq_left h]
      · have h1 : sh.length ≤ k + e.2.toNat := by omega
        rw [Nat.min_eq_right h1, List.drop_of_length_le (le_refl _),
          List.drop_of_length_le h1]
    have hidx : min (min (k + e.2.toNat) sh.length + (labelsOf es).length) sh.length =
        min (k + (e.2.toNat + (labelsOf es).length)) sh.length := by
      omega
    rw [hdrop, hidx]

/-! ## Slots of a well-shaped matrix -/

theorem map_getElem?_range {α : Type} (l : List α) :
    (List.range l.length).map (fun i => l[i]?) = l.map some := by
  apply List.ext_getElem?
  intro i
  by_cases h : i < l.length
  · simp [h]
  · have h1 : l.length ≤ i := by omega
    rw [List.getElem?_eq_none (by simpa using h1), List.getElem?_eq_none (by simpa using h1)]

theorem slots_succ (r c : Nat) :
    slots (r + 1) c = (List.range c).map (fun col => (0, col)) ++
      (slots r c).map (fun p => (p.1 + 1, p.2)) := by
  unfold slots
  rw [List.range_succ_eq_map, List.flatMap_cons, List.flatMap_map, List.map_flatMap]
  simp [Function.comp_def]

theorem map_getCell_slots :
    ∀ (cells : List (List HexCell)) (r c : Nat), Shaped cells r c →
      (slots r c).map (getCell cells) = cells.flatten.map some
  | [], r, c, h => by
    obtain ⟨h1, _⟩ := h
    simp at h1
    subst h1
    simp [slots]
  | row :: rest, r, c, h => by
    obtain ⟨h1, h2⟩ := h
    simp only [List.length_cons] at h1
    subst h1
    have hrow : row.length = c := h2 row (List.mem_cons_self _ _)
    have hrest : Shaped rest rest.length c :=
      ⟨rfl, fun x hx => h2 x (List.mem_cons_of_mem _ hx)⟩
    rw [slots_succ, List.map_append, List.flatten_cons, List.map_append, List.map_map,
      List.map_map, ← map_getCell_slots rest rest.length c hrest]
    congr 1
    rw [← hrow, ← map_getElem?_range row]
    apply List.map_congr_left
    · intro i _
      simp [getCell]
    · apply List.map_congr_left
      intro p _
      simp [getCell]

theorem nodup_slots (r c : Nat) : (slots r c).Nodup := by
  unfold slots
  rw [List.nodup_flatMap]
  refine ⟨fun row _ => (List.nodup_range c).map (fun a b h => (Prod.mk.inj h).2), ?_⟩
  refine (List.nodup_range r).imp ?_
  intro a b hab
  intro x hxa hxb
  simp only [List.mem_map, List.mem_range] at hxa hxb
  obtain ⟨_, _, rfl⟩ := hxa
  obtain ⟨_, _, hx⟩ := hxb
  exact hab (Prod.mk.inj hx).1.symm

theorem length_slots (r c : Nat) : (slots r c).length = r * c := by
  induction r with
  | zero => simp [slots]
  | succ r ih => rw [slots_succ]; simp [ih]; ring

theorem getCell_isSome_of_shaped {cells : List (List HexCell)} {r c : Nat}
    (h : Shaped cells r c) : ∀ p ∈ slots r c, (getCell cells p).isSome := by
  intro p hp
  have hmem : getCell cells p ∈ (slots r c).map (getCell cells) := List.mem_map_of_mem _ hp
  rw [map_getCell_slots cells r c h] at hmem
  obtain ⟨cell, _, hcell⟩ := List.mem_map.1 hmem
  rw [← hcell]
  rfl

theorem collectCells_of_shaped {grid : HexGrid}
    (h : Shaped grid.Cells grid.Rows.toNat grid.Cols.toNat) :
    collectCells grid = some (slots grid.Rows.toNat grid.Cols.toNat) := by
  unfold collectCells
  simp only
  rw [if_pos]
  rw [List.all_eq_true]
  exact getCell_isSome_of_shaped h

/-- Effect of `PopulateGrid` on a well-shaped grid: it returns, keeps every field
but the cells, keeps the shape, and the item types of the cells are, up to the
order of the cells, the labels that fit followed by the old contents of the
slots left over. -/
theorem PopulateGrid_spec (grid : HexGrid) (shuffle : List CellPtr → List CellPtr)
    (iterate : List (ItemTypePtr × Int) → List (ItemTypePtr × Int))
    (hn : 0 ≤ grid.Rows * grid.Cols)
    (hshape : Shaped grid.Cells grid.Rows.toNat grid.Cols.toNat)
    (hsh : IsShuffle shuffle) :
    ∃ g, PopulateGrid grid shuffle iterate = some g ∧
      g.Rows = grid.Rows ∧ g.Cols = grid.Cols ∧ g.ItemTypes = grid.ItemTypes ∧
      g.DefaultColor = grid.DefaultColor ∧
      Shaped g.Cells grid.Rows.toNat grid.Cols.toNat ∧
      (g.Cells.flatten.map (fun cell => some cell.ItemType)).Perm
        (((labelsOf (iterate (itemCounts grid))).take
            (grid.Rows.toNat * grid.Cols.toNat)).map (fun t => some (some t)) ++
          ((shuffle (slots grid.Rows.toNat grid.Cols.toNat)).drop
            (labelsOf (iterate (itemCounts grid))).length).map (itemAt grid.Cells)) := by
  set sl := slots grid.Rows.toNat grid.Cols.toNat with hsl
  set sh := shuffle sl with hshdef
  have hperm : sh.Perm sl := hsh sl
  have hnd : sh.Nodup := hperm.nodup_iff.2 (nodup_slots _ _)
  have hlen : sh.length = grid.Rows.toNat * grid.Cols.toNat := by
    rw [hperm.length_eq, hsl, length_slots]
  have hval : ∀ p ∈ sh, (getCell grid.Cells p).isSome := fun p hp =>
    getCell_isSome_of_shaped hshape p (hperm.subset hp)
  have hrun : PopulateGrid grid shuffle iterate =
      some { grid with Cells := assignAll sh (labelsOf (iterate (itemCounts grid))) grid.Cells } := by
    unfold PopulateGrid
    simp only [not_lt.2 hn, if_false, collectCells_of_shaped hshape]
    rw [assignOuter_eq _ _ _ 0 (Nat.zero_le _)]
    simp [hshdef, hsl]
  refine ⟨_, hrun, rfl, rfl, rfl, rfl, shaped_assignAll _ _ _ _ _ hshape, ?_⟩
  simp only
  have hfin := shaped_assignAll sh (labelsOf (iterate (itemCounts grid))) _ _ _ hshape
  have h1 := map_getCell_slots _ _ _ hfin
  have h2 := map_itemAt_assignAll sh (labelsOf (iterate (itemCounts grid))) grid.Cells hnd hval
  rw [hlen] at h2
  rw [← h2]
  have h3 : (assignAll sh (labelsOf (iterate (itemCounts grid))) grid.Cells).flatten.map
      (fun cell => some cell.ItemType) =
      sl.map (itemAt (assignAll sh (labelsOf (iterate (itemCounts grid))) grid.Cells)) := by
    have := congrArg (List.map (Option.map (fun cell : HexCell => cell.ItemType))) h1
    simp only [List.map_map] at this
    rw [hsl]
    unfold itemAt
    simpa [Function.comp_def] using this.symm
  rw [h3]
  exact (hperm.map _).symm

theorem CreateHexGrid_some {rows cols : Int} {config : YAMLConfig} {grid : HexGrid}
    (h : CreateHexGrid rows cols config = some grid) :
    0 ≤ rows ∧ (0 < rows → 0 ≤ cols) ∧ grid.Rows = rows ∧ grid.Cols = cols ∧
      grid.ItemTypes = itemPtrs config.Items ∧ grid.DefaultColor = config.Default ∧
      Shaped grid.Cells rows.toNat cols.toNat ∧
      ∀ cell ∈ grid.Cells.flatten, cell.ItemType = none := by
  unfold CreateHexGrid at h
  split_ifs at h with h1 h2
  have hg := Option.some.inj h
  subst hg
  refine ⟨not_lt.1 h1, fun hr => ?_, rfl, rfl, rfl, rfl, ⟨by simp, ?_⟩, ?_⟩
  · by_contra hc
    exact h2 ⟨hr, not_le.1 hc⟩
  · intro row hrow
    simp only [List.mem_map] at hrow
    obtain ⟨_, _, rfl⟩ := hrow
    simp
  · intro cell hcell
    simp only [List.mem_flatten, List.mem_map] at hcell
    obtain ⟨row, ⟨_, _, rfl⟩, hc⟩ := hcell
    simp only [List.mem_map] at hc
    obtain ⟨_, _, rfl⟩ := hc
    rfl

theorem CreateHexGrid_isSome (rows cols : Int) (config : YAMLConfig)
    (hr : 0 ≤ rows) (hc : 0 ≤ cols) : (CreateHexGrid rows cols config).isSome := by
  unfold CreateHexGrid
  simp [not_lt.2 hr, not_lt.2 hc]

theorem mem_itemPtrs {items : List ItemType} {t : ItemTypePtr} :
    t ∈ itemPtrs items ↔ ∃ (h : t.addr < items.length), t.val = items[t.addr] := by
  unfold itemPtrs
  constructor
  · intro ht
    obtain ⟨e, he, rfl⟩ := List.mem_map.1 ht
    obtain ⟨h1, h2⟩ := List.mem_enum (i := e.1) (x := e.2) he
    exact ⟨h1, h2⟩
  · rintro ⟨h1, h2⟩
    refine List.mem_map.2 ⟨(t.addr, t.val), ?_, rfl⟩
    rw [List.mem_iff_getElem?]
    refine ⟨t.addr, ?_⟩
    simp [List.enum, List.getElem?_enumFrom, h1, h2]

theorem map_addr_itemPtrs (items : List ItemType) :
    (itemPtrs items).map (fun t => t.addr) = items.enum.map Prod.fst := by
  simp [itemPtrs, Function.comp_def]

theorem map_val_itemPtrs (items : List ItemType) :
    (itemPtrs items).map (fun t => t.val) = items := by
  simp [itemPtrs, Function.comp_def]

theorem nodup_addr_itemPtrs (items : List ItemType) :
    ((itemPtrs items).map (fun t => t.addr)).Nodup := by
  rw [map_addr_itemPtrs]
  exact List.nodup_enum_map_fst items

/-- With pairwise distinct addresses the map receives one entry per item type. -/
theorem foldl_mapSet_of_nodup (c : ItemTypePtr → Int) :
    ∀ (ts : List ItemTypePtr) (m : List (ItemTypePtr × Int)),
      (ts.map (fun t => t.addr)).Nodup →
      (∀ t ∈ ts, ∀ e ∈ m, e.1.addr ≠ t.addr) →
      ts.foldl (fun m t => mapSet m t (c t)) m = m ++ ts.map (fun t => (t, c t))
  | [], m, _, _ => by simp
  | t :: ts, m, hnd, hdis => by
    simp only [List.map_cons, List.nodup_cons] at hnd
    have hnew : mapSet m t (c t) = m ++ [(t, c t)] := by
      unfold mapSet
      rw [if_neg]
      simp only [List.any_eq_true, beq_iff_eq, not_exists, not_and]
      intro e he
      exact hdis t (List.mem_cons_self _ _) e he
    simp only [List.foldl_cons, hnew]
    rw [foldl_mapSet_of_nodup c ts _ hnd.2]
    · simp
    · intro u hu e he
      rcases List.mem_append.1 he with he | he
      · exact hdis u (List.mem_cons_of_mem _ hu) e he
      · simp only [List.mem_singleton] at he
        subst he
        intro heq
        exact hnd.1 (List.mem_map.2 ⟨u, hu, heq.symm⟩)

theorem itemCounts_of_nodup (grid : HexGrid)
    (h : (grid.ItemTypes.map (fun t => t.addr)).Nodup) :
    itemCounts grid =
      grid.ItemTypes.map (fun t => (t, itemCount (grid.Rows * grid.Cols) t)) := by
  unfold itemCounts
  rw [foldl_mapSet_of_nodup (fun t => itemCount (grid.Rows * grid.Cols) t) _ [] h]
  · simp
  · intro _ _ e he
    simp at he

/-! ## Counting -/

theorem countP_labelsOf (P : ItemTypePtr → Bool) (es : List (ItemTypePtr × Int)) :
    (labelsOf es).countP P = (es.map (fun e => if P e.1 then e.2.toNat else 0)).sum := by
  unfold labelsOf
  rw [List.countP_flatMap]
  congr 1
  apply List.map_congr_left
  intro e _
  simp only [Function.comp_apply, List.countP_replicate]

theorem length_labelsOf (es : List (ItemTypePtr × Int)) :
    (labelsOf es).length = (es.map (fun e => e.2.toNat)).sum := by
  unfold labelsOf
  rw [List.length_flatMap]
  congr 1
  apply List.map_congr_left
  intro e _
  simp

theorem sum_map_single {ts : List ItemTypePtr} (hnd : ts.Nodup) {t0 : ItemTypePtr}
    (hmem : t0 ∈ ts) (P : ItemTypePtr → Bool) (hP : ∀ t ∈ ts, P t = true ↔ t = t0)
    (c : ItemTypePtr → Int) :
    (ts.map (fun t => if P t then (c t).toNat else 0)).sum = (c t0).toNat := by
  rw [List.sum_map_eq_nsmul_single t0]
  · rw [List.count_eq_one_of_mem hnd hmem, one_nsmul, if_pos ((hP t0 hmem).2 rfl)]
  · intro t hne ht
    rw [if_neg]
    intro hPt
    exact hne ((hP t ht).1 hPt)

theorem countP_cells (q : Option ItemTypePtr → Bool) (cells : List (List HexCell)) :
    cells.flatten.countP (fun cell => q cell.ItemType) =
      (cells.flatten.map (fun cell => some cell.ItemType)).countP
        (fun o => match o with
          | some x => q x
          | none => false) := by
  rw [List.countP_map]
  rfl

theorem sum_toNat_cast (c : ItemTypePtr → Int) (ts : List ItemTypePtr)
    (h : ∀ t ∈ ts, 0 ≤ c t) :
    (((ts.map (fun t => (c t).toNat)).sum : Nat) : Int) = (ts.map c).sum := by
  induction ts with
  | nil => simp
  | cons t ts ih =>
    simp only [List.map_cons, List.sum_cons, Nat.cast_add]
    rw [ih (fun u hu => h u (List.mem_cons_of_mem _ hu)),
      Int.toNat_of_nonneg (h t (List.mem_cons_self _ _))]

theorem quota_nonneg (rows cols : Int) (it : ItemType) (hn : 0 ≤ rows * cols)
    (hp : 0 ≤ it.Percentage) : 0 ≤ quota rows cols it := by
  unfold quota
  apply Int.floor_nonneg.2
  have : (0 : ℚ) ≤ ((rows * cols : Int) : ℚ) := by exact_mod_cast hn
  positivity

theorem sum_map_val_itemPtrs (f : ItemType → Int) (items : List ItemType) :
    ((itemPtrs items).map (fun t => f t.val)).sum = (items.map f).sum := by
  have h := congrArg (fun l => (List.map f l).sum) (map_val_itemPtrs items)
  simpa [List.map_map, Function.comp_def] using h

theorem sum_percentage_itemPtrs (items : List ItemType) :
    ((itemPtrs items).map (fun t => t.val.Percentage)).sum =
      (items.map (fun it => it.Percentage)).sum := by
  have h := congrArg (fun l => (List.map (fun it : ItemType => it.Percentage) l).sum)
    (map_val_itemPtrs items)
  simpa [List.map_map, Function.comp_def] using h

theorem mem_itemPtrs_val {items : List ItemType} {t : ItemTypePtr} (h : t ∈ itemPtrs items) :
    t.val ∈ items := by
  obtain ⟨h1, h2⟩ := mem_itemPtrs.1 h
  rw [h2]
  exact List.getElem_mem h1

/-- Outcome of `CreateHexGrid` followed by `PopulateGrid` on a valid
configuration: the run returns, every label is handed out, and the item types
of the cells are, up to order, the labels followed by empty cells. -/
theorem populate_fresh (rows cols : Int) (config : YAMLConfig) (grid : HexGrid)
    (shuffle : List CellPtr → List CellPtr)
    (iterate : List (ItemTypePtr × Int) → List (ItemTypePtr × Int))
    (hgrid : CreateHexGrid rows cols config = some grid)
    (hpos : 0 < rows * cols) (hsize : rows * cols ≤ 2 ^ 50)
    (hrange : ∀ it ∈ config.Items, 0 ≤ it.Percentage ∧ it.Percentage ≤ 100)
    (hsum : (config.Items.map (fun it => it.Percentage)).sum ≤ 100)
    (hsh : IsShuffle shuffle) (hit : IsIteration iterate) :
    ∃ g, PopulateGrid grid shuffle iterate = some g ∧
      g.ItemTypes = itemPtrs config.Items ∧
      Shaped g.Cells rows.toNat cols.toNat ∧
      ((rows.toNat * cols.toNat : Nat) : Int) = rows * cols ∧
      (labelsOf (iterate (entriesOf rows cols config.Items))).length ≤ rows.toNat * cols.toNat ∧
      (g.Cells.flatten.map (fun cell => some cell.ItemType)).Perm
        ((labelsOf (iterate (entriesOf rows cols config.Items))).map (fun t => some (some t)) ++
          List.replicate (rows.toNat * cols.toNat -
            (labelsOf (iterate (entriesOf rows cols config.Items))).length) (some none)) := by
  obtain ⟨hr, hc, hR, hC, hI, _, hshape, hnone⟩ := CreateHexGrid_some hgrid
  have hr' : 0 < rows := by
    rcases hr.lt_or_eq with h | h
    · exact h
    · rw [← h] at hpos; simp at hpos
  have hc' : 0 ≤ cols := hc hr'
  have hN : ((rows.toNat * cols.toNat : Nat) : Int) = rows * cols := by
    rw [Nat.cast_mul, Int.toNat_of_nonneg hr, Int.toNat_of_nonneg hc']
  have hshape' : Shaped grid.Cells grid.Rows.toNat grid.Cols.toNat := by rw [hR, hC]; exact hshape
  obtain ⟨g, hg, _, _, hgI, _, hgs, hperm⟩ :=
    PopulateGrid_spec grid shuffle iterate (by rw [hR, hC]; exact hpos.le) hshape' hsh
  rw [hR, hC] at hgs hperm
  have hcounts : itemCounts grid = entriesOf rows cols config.Items := by
    rw [itemCounts_of_nodup grid (by rw [hI]; exact nodup_addr_itemPtrs _), hI, hR, hC]
    rfl
  rw [hcounts] at hperm
  set labels := labelsOf (iterate (entriesOf rows cols config.Items)) with hlabels
  have hrange' : ∀ t ∈ itemPtrs config.Items, 0 ≤ t.val.Percentage ∧ t.val.Percentage ≤ 100 :=
    fun t ht => hrange _ (mem_itemPtrs_val ht)
  have hsum' : ((itemPtrs config.Items).map (fun t => t.val.Percentage)).sum ≤ 100 := by
    rw [sum_percentage_itemPtrs]; exact hsum
  obtain ⟨hnn, hle⟩ :=
    sum_itemCount_le rows cols (itemPtrs config.Items) hpos hsize hrange' hsum'
  have hL : labels.length ≤ rows.toNat * cols.toNat := by
    have h1 : labels.length =
        ((itemPtrs config.Items).map (fun t => (itemCount (rows * cols) t).toNat)).sum := by
      rw [hlabels, length_labelsOf, ((hit _).map _).sum_eq]
      simp [entriesOf, List.map_map, Function.comp_def]
    have h2 := sum_toNat_cast (itemCount (rows * cols)) (itemPtrs config.Items) hnn
    have h3 : ((labels.length : Nat) : Int) ≤ ((rows.toNat * cols.toNat : Nat) : Int) := by
      rw [h1, h2, hN]; exact hle
    exact_mod_cast h3
  refine ⟨g, hg, hgI.trans hI, hgs, hN, hL, ?_⟩
  rw [List.take_of_length_le hL] at hperm
  have hsl : (shuffle (slots rows.toNat cols.toNat)).Perm (slots rows.toNat cols.toNat) := hsh _
  have hrest : ((shuffle (slots rows.toNat cols.toNat)).drop labels.length).map
      (itemAt grid.Cells) =
      List.replicate (rows.toNat * cols.toNat - labels.length) (some none) := by
    rw [List.eq_replicate_iff]
    refine ⟨by simp [hsl.length_eq, length_slots], ?_⟩
    intro o ho
    obtain ⟨p, hp, rfl⟩ := List.mem_map.1 ho
    have hp' : p ∈ slots rows.toNat cols.toNat := hsl.subset (List.mem_of_mem_drop hp)
    have hmem : itemAt grid.Cells p ∈ (slots rows.toNat cols.toNat).map (itemAt grid.Cells) :=
      List.mem_map_of_mem _ hp'
    have hmap : (slots rows.toNat cols.toNat).map (itemAt grid.Cells) =
        grid.Cells.flatten.map (fun cell => some cell.ItemType) := by
      have := congrArg (List.map (Option.map (fun cell : HexCell => cell.ItemType)))
        (map_getCell_slots _ _ _ hshape)
      simp only [List.map_map] at this
      unfold itemAt
      simpa [Function.comp_def] using this
    rw [hmap] at hmem
    obtain ⟨cell, hcell, hce⟩ := List.mem_map.1 hmem
    rw [← hce, hnone cell hcell]
  rw [hrest] at hperm
  exact hperm

theorem countP_of_perm_labels (q : Option ItemTypePtr → Bool) (cells : List (List HexCell))
    (labels : List ItemTypePtr) (k : Nat)
    (hperm : (cells.flatten.map (fun cell => some cell.ItemType)).Perm
      (labels.map (fun t => some (some t)) ++ List.replicate k (some none))) :
    cells.flatten.countP (fun cell => q cell.ItemType) =
      labels.countP (fun t => q (some t)) + (if q none then k else 0) := by
  rw [countP_cells, hperm.countP_eq, List.countP_append, List.countP_map,
    List.countP_replicate]
  rfl

theorem length_flatten_of_shaped {cells : List (List HexCell)} {r c : Nat}
    (h : Shaped cells r c) : cells.flatten.length = r * c := by
  have := congrArg List.length (map_getCell_slots cells r c h)
  rw [List.length_map, List.length_map, length_slots] at this
  exact this.symm

theorem nodup_itemPtrs (items : List ItemType) : (itemPtrs items).Nodup :=
  List.Nodup.of_map _ (nodup_addr_itemPtrs items)

theorem getElem_mem_itemPtrs (items : List ItemType) (i : Nat) (hi : i < items.length) :
    ({ addr := i, val := items[i] } : ItemTypePtr) ∈ itemPtrs items :=
  mem_itemPtrs.2 ⟨hi, rfl⟩

theorem countP_labels_single (rows cols : Int) (items : List ItemType)
    (iterate : List (ItemTypePtr × Int) → List (ItemTypePtr × Int)) (hit : IsIteration iterate)
    (P : ItemTypePtr → Bool) (t0 : ItemTypePtr) (hmem : t0 ∈ itemPtrs items)
    (hP : ∀ t ∈ itemPtrs items, P t = true ↔ t = t0) :
    (labelsOf (iterate (entriesOf rows cols items))).countP P =
      (itemCount (rows * cols) t0).toNat := by
  rw [countP_labelsOf, ((hit _).map _).sum_eq]
  unfold entriesOf
  rw [List.map_map]
  exact sum_map_single (nodup_itemPtrs items) hmem P hP (itemCount (rows * cols))

theorem length_labels (rows cols : Int) (items : List ItemType)
    (iterate : List (ItemTypePtr × Int) → List (ItemTypePtr × Int)) (hit : IsIteration iterate) :
    (labelsOf (iterate (entriesOf rows cols items))).length =
      ((itemPtrs items).map (fun t => (itemCount (rows * cols) t).toNat)).sum := by
  rw [length_labelsOf, ((hit _).map _).sum_eq]
  simp [entriesOf, List.map_map, Function.comp_def]

theorem length_labels_cast (rows cols : Int) (items : List ItemType)
    (iterate : List (ItemTypePtr × Int) → List (ItemTypePtr × Int)) (hit : IsIteration iterate)
    (hnn : ∀ t ∈ itemPtrs items, 0 ≤ itemCount (rows * cols) t) :
    (((labelsOf (iterate (entriesOf rows cols items))).length : Nat) : Int) =
      ((itemPtrs items).map (itemCount (rows * cols))).sum := by
  rw [length_labels rows cols items iterate hit,
    sum_toNat_cast (itemCount (rows * cols)) (itemPtrs items) hnn]

/-- Cell counts after `CreateHexGrid` and `PopulateGrid` on a valid configuration. -/
theorem populate_counts (rows cols : Int) (config : YAMLConfig) (grid : HexGrid)
    (shuffle : List CellPtr → List CellPtr)
    (iterate : List (ItemTypePtr × Int) → List (ItemTypePtr × Int))
    (hgrid : CreateHexGrid rows cols config = some grid)
    (hpos : 0 < rows * cols) (hsize : rows * cols ≤ 2 ^ 50)
    (hrange : ∀ it ∈ config.Items, 0 ≤ it.Percentage ∧ it.Percentage ≤ 100)
    (hsum : (config.Items.map (fun it => it.Percentage)).sum ≤ 100)
    (hsh : IsShuffle shuffle) (hit : IsIteration iterate) :
    ∃ g, PopulateGrid grid shuffle iterate = some g ∧
      ((g.Cells.flatten.length : Nat) : Int) = rows * cols ∧
      ((unassigned g.Cells : Nat) : Int) =
        rows * cols - (grid.ItemTypes.map (itemCount (rows * cols))).sum ∧
      ∀ (i : Nat) (hi : i < config.Items.length),
        ((assignedTo g.Cells i : Nat) : Int) =
          itemCount (rows * cols) { addr := i, val := config.Items[i] } ∧
        (config.Items.Nodup →
          ((assignedValue g.Cells config.Items[i] : Nat) : Int) =
            itemCount (rows * cols) { addr := i, val := config.Items[i] }) := by
  obtain ⟨g, hg, _, hshape, hN, hL, hperm⟩ :=
    populate_fresh rows cols config grid shuffle iterate hgrid hpos hsize hrange hsum hsh hit
  obtain ⟨_, _, _, _, hI, _, _, _⟩ := CreateHexGrid_some hgrid
  have hnn : ∀ t ∈ itemPtrs config.Items, 0 ≤ itemCount (rows * cols) t := fun t ht =>
    (itemCount_bounds (rows * cols) t hpos hsize (hrange _ (mem_itemPtrs_val ht)).1
      (hrange _ (mem_itemPtrs_val ht)).2).1
  have hlen := length_labels_cast rows cols config.Items iterate hit hnn
  refine ⟨g, hg, ?_, ?_, ?_⟩
  · rw [length_flatten_of_shaped hshape, hN]
  · unfold unassigned
    rw [countP_of_perm_labels (fun o => o.isNone) _ _ _ hperm]
    simp only [Option.isNone_some, Option.isNone_none, if_true]
    rw [List.countP_eq_zero.2 (by simp), Nat.zero_add, Nat.cast_sub hL, hN, hlen, hI]
  · intro i hi
    have hmem := getElem_mem_itemPtrs config.Items i hi
    have hquota : ((itemCount (rows * cols) { addr := i, val := config.Items[i] }).toNat : Int) =
        itemCount (rows * cols) { addr := i, val := config.Items[i] } :=
      Int.toNat_of_nonneg (hnn _ hmem)
    constructor
    · unfold assignedTo
      rw [countP_of_perm_labels (fun o => o.map (fun p => p.addr) == some i) _ _ _ hperm]
      rw [countP_labels_single rows cols config.Items iterate hit _ _ hmem]
      · simpa using hquota
      · intro t ht
        obtain ⟨h1, h2⟩ := mem_itemPtrs.1 ht
        constructor
        · intro h
          have hti : t.addr = i := by simpa using h
          subst hti
          cases t
          simp_all
        · rintro rfl
          simp
    · intro hnd
      unfold assignedValue
      rw [countP_of_perm_labels (fun o => o.map (fun p => p.val) == some config.Items[i]) _ _ _
        hperm]
      rw [countP_labels_single rows cols config.Items iterate hit _ _ hmem]
      · simpa using hquota
      · intro t ht
        obtain ⟨h1, h2⟩ := mem_itemPtrs.1 ht
        constructor
        · intro h
          have hv : t.val = config.Items[i] := by simpa using h
          have hti : t.addr = i := by
            rw [h2] at hv
            exact (List.Nodup.getElem_inj_iff hnd).1 hv
          subst hti
          cases t
          simp_all
        · rintro rfl
          simp

theorem CreateHexGrid_gridA : CreateHexGrid 2 2 scenarioA = some gridA := by
  rfl

theorem scenarioA_range :
    ∀ it ∈ scenarioA.Items, 0 ≤ it.Percentage ∧ it.Percentage ≤ 100 := by
  intro it h
  simp only [scenarioA, List.mem_cons, List.mem_singleton, List.not_mem_nil, or_false] at h
  rcases h with rfl | rfl <;> norm_num

theorem scenarioA_sum : (scenarioA.Items.map (fun it => it.Percentage)).sum ≤ 100 := by
  norm_num [scenarioA]

theorem scenarioB_range :
    ∀ it ∈ scenarioB.Items, 0 ≤ it.Percentage ∧ it.Percentage ≤ 100 := by
  intro it h
  simp only [scenarioB, List.mem_singleton] at h
  subst h
  norm_num

theorem scenarioB_sum : (scenarioB.Items.map (fun it => it.Percentage)).sum ≤ 100 := by
  norm_num [scenarioB]

/-! ## Counts at concrete percentages -/

/-- The rounding of a natural number below `2^53` is the number itself. -/
theorem F64.ofRat_nat (N : Nat) (q r : ℚ) (hq : q = N) (hr : r = N) (h0 : 0 < N)
    (h : N < 2 ^ 53) : F64.ofRat q = F64.fin r := by
  subst hq hr
  exact F64.ofRat_natCast N h0 h

/-- The rounding of a positive `x` in `[2^E, 2^(E+1))` within half a unit of
`k * 2^(E-52)`. -/
theorem F64.ofRat_near (x r : ℚ) (E k : Int) (hE : -1022 ≤ E)
    (h1 : (2 : ℚ) ^ E ≤ x) (h2 : x < 2 ^ (E + 1))
    (hk1 : x / 2 ^ (E - 52) - k < 1 / 2) (hk2 : (k : ℚ) - x / 2 ^ (E - 52) < 1 / 2)
    (hfin : |(k : ℚ) * 2 ^ (E - 52)| < 2 ^ 1024) (hr : r = (k : ℚ) * 2 ^ (E - 52)) :
    F64.ofRat x = F64.fin r := by
  rw [hr]
  exact F64.ofRat_eq_fin x E k hE h1 h2 hk1 hk2 hfin

theorem itemCount_100_of_50 (t : ItemTypePtr) (h : t.val.Percentage = 50) :
    itemCount 100 t = 50 := by
  refine itemCount_of_steps 100 t 100 50 5000 50 50
    (F64.ofRat_nat 100 _ _ (by norm_num) (by norm_num) (by norm_num) (by norm_num))
    (F64.ofRat_nat 50 _ _ (by rw [h]; norm_num) (by norm_num) (by norm_num) (by norm_num))
    (F64.ofRat_nat 5000 _ _ (by norm_num) (by norm_num) (by norm_num) (by norm_num))
    (F64.ofRat_nat 50 _ _ (by norm_num) (by norm_num) (by norm_num) (by norm_num))
    (by norm_num) (by norm_num) (by norm_num) (by norm_num)

theorem itemCount_100_of_33 (t : ItemTypePtr) (h : t.val.Percentage = 33) :
    itemCount 100 t = 33 := by
  refine itemCount_of_steps 100 t 100 33 3300 33 33
    (F64.ofRat_nat 100 _ _ (by norm_num) (by norm_num) (by norm_num) (by norm_num))
    (F64.ofRat_nat 33 _ _ (by rw [h]; norm_num) (by norm_num) (by norm_num) (by norm_num))
    (F64.ofRat_nat 3300 _ _ (by norm_num) (by norm_num) (by norm_num) (by norm_num))
    (F64.ofRat_nat 33 _ _ (by norm_num) (by norm_num) (by norm_num) (by norm_num))
    (by norm_num) (by norm_num) (by norm_num) (by norm_num)

/-- 375 cells at 18.4%: the `float64` count is 68. -/
theorem itemCount_375_of_184 (t : ItemTypePtr) (h : t.val.Percentage = 184 / 10) :
    itemCount 375 t = 68 := by
  refine itemCount_of_steps 375 t 375 (2589569785738035 / 140737488355328)
    (7586630231654399 / 1099511627776) (4855443348258815 / 70368744177664) 68
    (F64.ofRat_nat 375 _ _ (by norm_num) (by norm_num) (by norm_num) (by norm_num))
    (F64.ofRat_near _ _ 4 5179139571476070 (by norm_num) (by rw [h]; norm_num)
      (by rw [h]; norm_num) (by rw [h]; norm_num) (by rw [h]; norm_num)
      (by rw [abs_of_pos (by norm_num)]; norm_num) (by norm_num))
    (F64.ofRat_near _ _ 12 7586630231654399 (by norm_num) (by norm_num) (by norm_num)
      (by norm_num) (by norm_num) (by rw [abs_of_pos (by norm_num)]; norm_num) (by norm_num))
    (F64.ofRat_near _ _ 6 4855443348258815 (by norm_num) (by norm_num) (by norm_num)
      (by norm_num) (by norm_num) (by rw [abs_of_pos (by norm_num)]; norm_num) (by norm_num))
    (by norm_num) ?_ (by norm_num) (by norm_num)
  rw [Int.floor_eq_iff]
  constructor <;> norm_num

/-- 125 cells at the `float64` nearest to 2.4%: the `float64` count is 3. -/
theorem itemCount_125_of_pct24 (t : ItemTypePtr) (h : t.val.Percentage = pct24) :
    itemCount 125 t = 3 := by
  refine itemCount_of_steps 125 t 125 pct24 300 3 3
    (F64.ofRat_nat 125 _ _ (by norm_num) (by norm_num) (by norm_num) (by norm_num))
    (F64.ofRat_near _ _ 1 5404319552844595 (by norm_num) (by rw [h, pct24]; norm_num)
      (by rw [h, pct24]; norm_num) (by rw [h, pct24]; norm_num) (by rw [h, pct24]; norm_num)
      (by rw [abs_of_pos (by norm_num)]; norm_num) (by rw [pct24]; norm_num))
    (F64.ofRat_near _ _ 8 5277655813324800 (by norm_num) (by rw [pct24]; norm_num)
      (by rw [pct24]; norm_num) (by rw [pct24]; norm_num) (by rw [pct24]; norm_num)
      (by rw [abs_of_pos (by norm_num)]; norm_num) (by norm_num))
    (F64.ofRat_nat 3 _ _ (by norm_num) (by norm_num) (by norm_num) (by norm_num))
    (by norm_num) (by norm_num) (by norm_num) (by norm_num)

/-- 125 cells at the `float64` nearest to 97.6%: the `float64` count is 122. -/
theorem itemCount_125_of_pct976 (t : ItemTypePtr) (h : t.val.Percentage = pct976) :
    itemCount 125 t = 122 := by
  refine itemCount_of_steps 125 t 125 pct976 12200 122 122
    (F64.ofRat_nat 125 _ _ (by norm_num) (by norm_num) (by norm_num) (by norm_num))
    (F64.ofRat_near _ _ 6 6867989431740006 (by norm_num) (by rw [h, pct976]; norm_num)
      (by rw [h, pct976]; norm_num) (by rw [h, pct976]; norm_num) (by rw [h, pct976]; norm_num)
      (by rw [abs_of_pos (by norm_num)]; norm_num) (by rw [pct976]; norm_num))
    (F64.ofRat_near _ _ 13 6707020929433600 (by norm_num) (by rw [pct976]; norm_num)
      (by rw [pct976]; norm_num) (by rw [pct976]; norm_num) (by rw [pct976]; norm_num)
      (by rw [abs_of_pos (by norm_num)]; norm_num) (by norm_num))
    (F64.ofRat_nat 122 _ _ (by norm_num) (by norm_num) (by norm_num) (by norm_num))
    (by norm_num) (by norm_num) (by norm_num) (by norm_num)

theorem quota_of_184 (it : ItemType) (h : it.Percentage = 184 / 10) : quota 15 25 it = 69 := by
  unfold quota
  rw [h, Int.floor_eq_iff]
  constructor <;> norm_num

theorem quota_of_pct24 (it : ItemType) (h : it.Percentage = pct24) : quota 5 25 it = 2 := by
  unfold quota
  rw [h, pct24, Int.floor_eq_iff]
  constructor <;> norm_num

theorem quota_of_pct976 (it : ItemType) (h : it.Percentage = pct976) : quota 5 25 it = 121 := by
  unfold quota
  rw [h, pct976, Int.floor_eq_iff]
  constructor <;> norm_num

theorem scenarioC_range :
    ∀ it ∈ scenarioC.Items, 0 ≤ it.Percentage ∧ it.Percentage ≤ 100 := by
  intro it h
  simp only [scenarioC, List.mem_singleton] at h
  subst h
  norm_num

theorem scenarioC_sum : (scenarioC.Items.map (fun it => it.Percentage)).sum ≤ 100 := by
  norm_num [scenarioC]

theorem scenarioD_range :
    ∀ it ∈ scenarioD.Items, 0 ≤ it.Percentage ∧ it.Percentage ≤ 100 := by
  intro it h
  simp only [scenarioD, List.mem_singleton] at h
  subst h
  norm_num [pct24]

theorem scenarioD_sum : (scenarioD.Items.map (fun it => it.Percentage)).sum ≤ 100 := by
  norm_num [scenarioD, pct24]

theorem scenarioE_range :
    ∀ it ∈ scenarioE.Items, 0 ≤ it.Percentage ∧ it.Percentage ≤ 100 := by
  intro it h
  simp only [scenarioE, List.mem_cons, List.mem_singleton, List.not_mem_nil, or_false] at h
  rcases h with rfl | rfl <;> norm_num [pct24, pct976]

theorem scenarioE_sum : (scenarioE.Items.map (fun it => it.Percentage)).sum ≤ 100 := by
  norm_num [scenarioE, pct24, pct976]

theorem itemCount_scenarioA (t : ItemTypePtr) (h : t ∈ itemPtrs scenarioA.Items) :
    itemCount (10 * 10) t = 50 := by
  have hv := mem_itemPtrs_val h
  simp only [scenarioA, List.mem_cons, List.mem_singleton, List.not_mem_nil, or_false] at hv
  have e : (10 : Int) * 10 = 100 := by norm_num
  rw [e]
  rcases hv with hv | hv <;>
  · apply itemCount_100_of_50
    rw [hv]

theorem itemCount_scenarioB (t : ItemTypePtr) (h : t ∈ itemPtrs scenarioB.Items) :
    itemCount (10 * 10) t = 33 := by
  have hv := mem_itemPtrs_val h
  simp only [scenarioB, List.mem_singleton] at hv
  have e : (10 : Int) * 10 = 100 := by norm_num
  rw [e]
  apply itemCount_100_of_33
  rw [hv]

theorem itemCount_scenarioC (t : ItemTypePtr) (h : t ∈ itemPtrs scenarioC.Items) :
    itemCount (15 * 25) t = 68 := by
  have hv := mem_itemPtrs_val h
  simp only [scenarioC, List.mem_singleton] at hv
  have e : (15 : Int) * 25 = 375 := by norm_num
  rw [e]
  apply itemCount_375_of_184
  rw [hv]

theorem itemCount_scenarioD (t : ItemTypePtr) (h : t ∈ itemPtrs scenarioD.Items) :
    itemCount (5 * 25) t = 3 := by
  have hv := mem_itemPtrs_val h
  simp only [scenarioD, List.mem_singleton] at hv
  have e : (5 : Int) * 25 = 125 := by norm_num
  rw [e]
  apply itemCount_125_of_pct24
  rw [hv]

/-- The run on the 15 x 25 grid with one item type at 18.4%: 68 cells are
assigned and 307 are left without an item type. -/
theorem scenarioC_run (shuffle : List CellPtr → List CellPtr)
    (iterate : List (ItemTypePtr × Int) → List (ItemTypePtr × Int))
    (hsh : IsShuffle shuffle) (hit : IsIteration iterate) :
    ∃ grid g, CreateHexGrid 15 25 scenarioC = some grid ∧
      PopulateGrid grid shuffle iterate = some g ∧
      assignedTo g.Cells 0 = 68 ∧ unassigned g.Cells = 307 := by
  obtain ⟨grid, hgrid⟩ := Option.isSome_iff_exists.1
    (CreateHexGrid_isSome 15 25 scenarioC (by decide) (by decide))
  obtain ⟨_, _, _, _, hI, _, _, _⟩ := CreateHexGrid_some hgrid
  obtain ⟨g, hg, _, h2, h3⟩ := populate_counts 15 25 scenarioC grid shuffle iterate hgrid
    (by decide) (by norm_num) scenarioC_range scenarioC_sum hsh hit
  have q0 := (h3 0 (by decide)).1
  rw [itemCount_scenarioC _ (getElem_mem_itemPtrs scenarioC.Items 0 (by decide))] at q0
  have hs : (grid.ItemTypes.map (itemCount (15 * 25))).sum = 68 := by
    rw [hI, List.map_congr_left itemCount_scenarioC]
    rfl
  rw [hs] at h2
  refine ⟨grid, g, hgrid, hg, ?_, ?_⟩
  · exact_mod_cast q0
  · have : ((unassigned g.Cells : Nat) : Int) = 307 := by rw [h2]; decide
    exact_mod_cast this

/-- The run on the 5 x 25 grid with one item type at the `float64` nearest to
2.4%: 3 cells are assigned and 122 are left without an item type. -/
theorem scenarioD_run (shuffle : List CellPtr → List CellPtr)
    (iterate : List (ItemTypePtr × Int) → List (ItemTypePtr × Int))
    (hsh : IsShuffle shuffle) (hit : IsIteration iterate) :
    ∃ grid g, CreateHexGrid 5 25 scenarioD = some grid ∧
      PopulateGrid grid shuffle iterate = some g ∧
      assignedTo g.Cells 0 = 3 ∧ unassigned g.Cells = 122 := by
  obtain ⟨grid, hgrid⟩ := Option.isSome_iff_exists.1
    (CreateHexGrid_isSome 5 25 scenarioD (by decide) (by decide))
  obtain ⟨_, _, _, _, hI, _, _, _⟩ := CreateHexGrid_some hgrid
  obtain ⟨g, hg, _, h2, h3⟩ := populate_counts 5 25 scenarioD grid shuffle iterate hgrid
    (by decide) (by norm_num) scenarioD_range scenarioD_sum hsh hit
  have q0 := (h3 0 (by decide)).1
  rw [itemCount_scenarioD _ (getElem_mem_itemPtrs scenarioD.Items 0 (by decide))] at q0
  have hs : (grid.ItemTypes.map (itemCount (5 * 25))).sum = 3 := by
    rw [hI, List.map_congr_left itemCount_scenarioD]
    rfl
  rw [hs] at h2
  refine ⟨grid, g, hgrid, hg, ?_, ?_⟩
  · exact_mod_cast q0
  · have : ((unassigned g.Cells : Nat) : Int) = 122 := by rw [h2]; decide
    exact_mod_cast this

/-! ## Claims on the allocator -/

/-- C1 as stated fails: on the 15 x 25 grid with one item type at 18.4% the
type gets 68 cells and its quota `floor(375 * 18.4 / 100)` is 69; on the 5 x 25
grid with one item type at the `float64` nearest to 2.4% the type gets 3 cells
and its quota is 2. -/
theorem PopulateGrid_assigns_quota_counterexample :
    (∃ grid g, CreateHexGrid 15 25 scenarioC = some grid ∧
      PopulateGrid grid List.reverse List.reverse = some g ∧
      assignedTo g.Cells 0 = 68 ∧ scenarioC.Items.map (quota 15 25) = [69]) ∧
    (∃ grid g, CreateHexGrid 5 25 scenarioD = some grid ∧
      PopulateGrid grid List.reverse List.reverse = some g ∧
      assignedTo g.Cells 0 = 3 ∧ scenarioD.Items.map (quota 5 25) = [2]) := by
  constructor
  · obtain ⟨grid, g, h1, h2, h3, _⟩ := scenarioC_run List.reverse List.reverse
      (fun l => List.reverse_perm l) (fun m => List.reverse_perm m)
    refine ⟨grid, g, h1, h2, h3, ?_⟩
    simp only [scenarioC, List.map_cons, List.map_nil]
    rw [quota_of_184 _ rfl]
  · obtain ⟨grid, g, h1, h2, h3, _⟩ := scenarioD_run List.reverse List.reverse
      (fun l => List.reverse_perm l) (fun m => List.reverse_perm m)
    refine ⟨grid, g, h1, h2, h3, ?_⟩
    simp only [scenarioD, List.map_cons, List.map_nil]
    rw [quota_of_pct24 _ rfl]

/-- C1, as the code has it: on a grid built by `CreateHexGrid` with `0 < rows*cols ≤ 2^50`,
percentages in [0,100] summing to at most 100, for every shuffle and every
iteration order of the map, `PopulateGrid` returns and the number of cells
assigned to each item type is exactly the count of `config.go` line 117,
`int(float64(rows*cols) * percentage / 100.0)` evaluated in `float64`: counted
by pointer for every configuration, and counted by record when the configured
item types are pairwise distinct. -/
theorem PopulateGrid_assigns_count (rows cols : Int) (config : YAMLConfig) (grid : HexGrid)
    (shuffle : List CellPtr → List CellPtr)
    (iterate : List (ItemTypePtr × Int) → List (ItemTypePtr × Int))
    (hgrid : CreateHexGrid rows cols config = some grid)
    (hpos : 0 < rows * cols) (hsize : rows * cols ≤ 2 ^ 50)
    (hrange : ∀ it ∈ config.Items, 0 ≤ it.Percentage ∧ it.Percentage ≤ 100)
    (hsum : (config.Items.map (fun it => it.Percentage)).sum ≤ 100)
    (hsh : IsShuffle shuffle) (hit : IsIteration iterate) :
    ∃ g, PopulateGrid grid shuffle iterate = some g ∧
      ∀ (i : Nat) (hi : i < config.Items.length),
        ((assignedTo g.Cells i : Nat) : Int) =
          itemCount (rows * cols) { addr := i, val := config.Items[i] } ∧
        (config.Items.Nodup →
          ((assignedValue g.Cells config.Items[i] : Nat) : Int) =
            itemCount (rows * cols) { addr := i, val := config.Items[i] }) := by
  obtain ⟨g, hg, _, _, h⟩ :=
    populate_counts rows cols config grid shuffle iterate hgrid hpos hsize hrange hsum hsh hit
  exact ⟨g, hg, h⟩

theorem PopulateGrid_assigns_count_witness :
    CreateHexGrid 2 2 scenarioA = some gridA ∧ (0 : Int) < 2 * 2 ∧ (2 : Int) * 2 ≤ 2 ^ 50 ∧
    IsShuffle List.reverse ∧ IsIteration List.reverse ∧
    ∃ g, PopulateGrid gridA List.reverse List.reverse = some g ∧
      ∀ (i : Nat) (hi : i < scenarioA.Items.length),
        ((assignedTo g.Cells i : Nat) : Int) =
          itemCount (2 * 2) { addr := i, val := scenarioA.Items[i] } ∧
        (scenarioA.Items.Nodup →
          ((assignedValue g.Cells scenarioA.Items[i] : Nat) : Int) =
            itemCount (2 * 2) { addr := i, val := scenarioA.Items[i] }) :=
  ⟨CreateHexGrid_gridA, by decide, by decide, fun l => List.reverse_perm l,
    fun m => List.reverse_perm m,
    PopulateGrid_assigns_count 2 2 scenarioA gridA List.reverse List.reverse CreateHexGrid_gridA
      (by decide) (by decide) scenarioA_range scenarioA_sum (fun l => List.reverse_perm l)
      (fun m => List.reverse_perm m)⟩

/-- C2 as stated fails for the counts that `PopulateGrid` computes: for 125
cells and two item types at the `float64` values nearest to 2.4% and 97.6%, in
range and summing to less than 100, the counts of `config.go` line 117 are 3
and 122 where the exact floors are 2 and 121, and the counts sum to the 125
cells although the percentages do not sum to 100. -/
theorem quota_sum_le_total_counterexample :
    (∀ t ∈ itemPtrs scenarioE.Items, 0 ≤ t.val.Percentage ∧ t.val.Percentage ≤ 100) ∧
    ((itemPtrs scenarioE.Items).map (fun t => t.val.Percentage)).sum ≤ 100 ∧
    (itemPtrs scenarioE.Items).map (itemCount (5 * 25)) = [3, 122] ∧
    (itemPtrs scenarioE.Items).map (fun t => quota 5 25 t.val) = [2, 121] ∧
    ((itemPtrs scenarioE.Items).map (itemCount (5 * 25))).sum = 5 * 25 ∧
    ((itemPtrs scenarioE.Items).map (fun t => t.val.Percentage)).sum ≠ 100 := by
  have e : (5 : Int) * 25 = 125 := by norm_num
  have hl : itemPtrs scenarioE.Items =
      [{ addr := 0, val := { Name := "D", Percentage := pct24, Style := "fill",
                             Color := "#FF0000" } },
       { addr := 1, val := { Name := "E", Percentage := pct976, Style := "dot",
                             Color := "#00FF00" } }] := rfl
  have hc : (itemPtrs scenarioE.Items).map (itemCount (5 * 25)) = [3, 122] := by
    rw [hl, e]
    simp only [List.map_cons, List.map_nil]
    rw [itemCount_125_of_pct24 _ rfl, itemCount_125_of_pct976 _ rfl]
  refine ⟨?_, ?_, hc, ?_, ?_, ?_⟩
  · intro t ht
    exact scenarioE_range _ (mem_itemPtrs_val ht)
  · rw [hl]
    norm_num [pct24, pct976]
  · rw [hl]
    simp only [List.map_cons, List.map_nil]
    rw [quota_of_pct24 _ rfl, quota_of_pct976 _ rfl]
  · rw [hc]
    decide
  · rw [hl]
    norm_num [pct24, pct976]

/-- C2, as the code has it: for item types with percentages in [0,100] summing to at most
100 and `0 < rows*cols ≤ 2^50`, the counts that `PopulateGrid` computes,
`int(float64(rows*cols) * percentage / 100.0)` in `float64`, are non-negative
and sum to at most `rows*cols`; the exact quotas
`floor(rows*cols * percentage / 100)` also sum to at most `rows*cols`, and when
the sum of the exact quotas equals `rows*cols` the percentages sum to exactly
100 and every product `percentage * rows*cols` is an exact multiple of 100. -/
theorem count_sum_le_total (rows cols : Int) (types : List ItemTypePtr)
    (hpos : 0 < rows * cols) (hsize : rows * cols ≤ 2 ^ 50)
    (hrange : ∀ t ∈ types, 0 ≤ t.val.Percentage ∧ t.val.Percentage ≤ 100)
    (hsum : (types.map (fun t => t.val.Percentage)).sum ≤ 100) :
    (∀ t ∈ types, 0 ≤ itemCount (rows * cols) t) ∧
    (types.map (itemCount (rows * cols))).sum ≤ rows * cols ∧
    (types.map (fun t => quota rows cols t.val)).sum ≤ rows * cols ∧
    ((types.map (fun t => quota rows cols t.val)).sum = rows * cols →
      (types.map (fun t => t.val.Percentage)).sum = 100 ∧
      ∀ t ∈ types, ∃ k : Int,
        t.val.Percentage * ((rows * cols : Int) : ℚ) = 100 * (k : ℚ)) :=
  ⟨(sum_itemCount_le rows cols types hpos hsize hrange hsum).1,
    (sum_itemCount_le rows cols types hpos hsize hrange hsum).2,
    quota_sum_le rows cols types hpos hsum⟩

theorem count_sum_le_total_witness :
    (0 : Int) < 10 * 10 ∧ (10 : Int) * 10 ≤ 2 ^ 50 ∧
    (∀ t ∈ gridA.ItemTypes, 0 ≤ t.val.Percentage ∧ t.val.Percentage ≤ 100) ∧
    (gridA.ItemTypes.map (fun t => t.val.Percentage)).sum ≤ 100 ∧
    (gridA.ItemTypes.map (itemCount (10 * 10))).sum ≤ 10 * 10 :=
  ⟨by decide, by decide, by norm_num [gridA], by norm_num [gridA],
    (count_sum_le_total 10 10 gridA.ItemTypes (by decide) (by decide) (by norm_num [gridA])
      (by norm_num [gridA])).2.1⟩

/-- C3 as stated fails: on the 15 x 25 grid with one item type at 18.4%, 307
cells are left with no item type where `rows*cols` minus the quota is 306; on
the 5 x 25 grid with one item type at the `float64` nearest to 2.4%, 122 cells
are left where `rows*cols` minus the quota is 123. -/
theorem PopulateGrid_unassigned_counterexample :
    (∃ grid g, CreateHexGrid 15 25 scenarioC = some grid ∧
      PopulateGrid grid List.reverse id = some g ∧
      unassigned g.Cells = 307 ∧
      15 * 25 - (scenarioC.Items.map (quota 15 25)).sum = 306) ∧
    (∃ grid g, CreateHexGrid 5 25 scenarioD = some grid ∧
      PopulateGrid grid List.reverse id = some g ∧
      unassigned g.Cells = 122 ∧
      5 * 25 - (scenarioD.Items.map (quota 5 25)).sum = 123) := by
  constructor
  · obtain ⟨grid, g, h1, h2, _, h3⟩ := scenarioC_run List.reverse id
      (fun l => List.reverse_perm l) (fun m => List.Perm.refl m)
    refine ⟨grid, g, h1, h2, h3, ?_⟩
    simp only [scenarioC, List.map_cons, List.map_nil]
    rw [quota_of_184 _ rfl]
    decide
  · obtain ⟨grid, g, h1, h2, _, h3⟩ := scenarioD_run List.reverse id
      (fun l => List.reverse_perm l) (fun m => List.Perm.refl m)
    refine ⟨grid, g, h1, h2, h3, ?_⟩
    simp only [scenarioD, List.map_cons, List.map_nil]
    rw [quota_of_pct24 _ rfl]
    decide

/-- C3, as the code has it: for every configuration with percentages in [0,100] summing to
at most 100, `0 < rows*cols ≤ 2^50` and every shuffle, after `CreateHexGrid` and
`PopulateGrid` the number of cells with no item type is `rows*cols` minus the
sum of the counts `int(float64(rows*cols) * percentage / 100.0)` that
`PopulateGrid` computes in `float64`. A 10 x 10 grid with two types at 50%/50%
has 100 cells, 50 assigned to each type and none empty; a 10 x 10 grid with one
type at 33% has 33 cells assigned and 67 cells with no item type. -/
theorem PopulateGrid_unassigned :
    (∀ (rows cols : Int) (config : YAMLConfig) (grid : HexGrid)
      (shuffle : List CellPtr → List CellPtr)
      (iterate : List (ItemTypePtr × Int) → List (ItemTypePtr × Int)),
      CreateHexGrid rows cols config = some grid →
      0 < rows * cols → rows * cols ≤ 2 ^ 50 →
      (∀ it ∈ config.Items, 0 ≤ it.Percentage ∧ it.Percentage ≤ 100) →
      (config.Items.map (fun it => it.Percentage)).sum ≤ 100 →
      IsShuffle shuffle → IsIteration iterate →
      ∃ g, PopulateGrid grid shuffle iterate = some g ∧
        ((g.Cells.flatten.length : Nat) : Int) = rows * cols ∧
        ((unassigned g.Cells : Nat) : Int) =
          rows * cols - (grid.ItemTypes.map (itemCount (rows * cols))).sum) ∧
    (∀ (shuffle : List CellPtr → List CellPtr)
      (iterate : List (ItemTypePtr × Int) → List (ItemTypePtr × Int)),
      IsShuffle shuffle → IsIteration iterate →
      ∃ grid g, CreateHexGrid 10 10 scenarioA = some grid ∧
        PopulateGrid grid shuffle iterate = some g ∧
        g.Cells.flatten.length = 100 ∧ assignedTo g.Cells 0 = 50 ∧
        assignedTo g.Cells 1 = 50 ∧ unassigned g.Cells = 0) ∧
    (∀ (shuffle : List CellPtr → List CellPtr)
      (iterate : List (ItemTypePtr × Int) → List (ItemTypePtr × Int)),
      IsShuffle shuffle → IsIteration iterate →
      ∃ grid g, CreateHexGrid 10 10 scenarioB = some grid ∧
        PopulateGrid grid shuffle iterate = some g ∧
        g.Cells.flatten.length = 100 ∧ assignedTo g.Cells 0 = 33 ∧
        unassigned g.Cells = 67) := by
  refine ⟨?_, ?_, ?_⟩
  · intro rows cols config grid shuffle iterate hgrid hpos hsize hrange hsum hsh hit
    obtain ⟨g, hg, h1, h2, _⟩ :=
      populate_counts rows cols config grid shuffle iterate hgrid hpos hsize hrange hsum hsh hit
    exact ⟨g, hg, h1, h2⟩
  · intro shuffle iterate hsh hit
    obtain ⟨grid, hgrid⟩ := Option.isSome_iff_exists.1
      (CreateHexGrid_isSome 10 10 scenarioA (by decide) (by decide))
    obtain ⟨_, _, _, _, hI, _, _, _⟩ := CreateHexGrid_some hgrid
    obtain ⟨g, hg, h1, h2, h3⟩ := populate_counts 10 10 scenarioA grid shuffle iterate hgrid
      (by decide) (by norm_num) scenarioA_range scenarioA_sum hsh hit
    have q0 := (h3 0 (by decide)).1
    have q1 := (h3 1 (by decide)).1
    rw [itemCount_scenarioA _ (getElem_mem_itemPtrs scenarioA.Items 0 (by decide))] at q0
    rw [itemCount_scenarioA _ (getElem_mem_itemPtrs scenarioA.Items 1 (by decide))] at q1
    have hs : (grid.ItemTypes.map (itemCount (10 * 10))).sum = 100 := by
      rw [hI, List.map_congr_left itemCount_scenarioA]
      rfl
    rw [hs] at h2
    refine ⟨grid, g, hgrid, hg, ?_, ?_, ?_, ?_⟩
    · exact_mod_cast h1
    · exact_mod_cast q0
    · exact_mod_cast q1
    · have : ((unassigned g.Cells : Nat) : Int) = 0 := by rw [h2]; decide
      exact_mod_cast this
  · intro shuffle iterate hsh hit
    obtain ⟨grid, hgrid⟩ := Option.isSome_iff_exists.1
      (CreateHexGrid_isSome 10 10 scenarioB (by decide) (by decide))
    obtain ⟨_, _, _, _, hI, _, _, _⟩ := CreateHexGrid_some hgrid
    obtain ⟨g, hg, h1, h2, h3⟩ := populate_counts 10 10 scenarioB grid shuffle iterate hgrid
      (by decide) (by norm_num) scenarioB_range scenarioB_sum hsh hit
    have q0 := (h3 0 (by decide)).1
    rw [itemCount_scenarioB _ (getElem_mem_itemPtrs scenarioB.Items 0 (by decide))] at q0
    have hs : (grid.ItemTypes.map (itemCount (10 * 10))).sum = 33 := by
      rw [hI, List.map_congr_left itemCount_scenarioB]
      rfl
    rw [hs] at h2
    refine ⟨grid, g, hgrid, hg, ?_, ?_, ?_⟩
    · exact_mod_cast h1
    · exact_mod_cast q0
    · have : ((unassigned g.Cells : Nat) : Int) = 67 := by rw [h2]; decide
      exact_mod_cast this

theorem PopulateGrid_unassigned_witness :
    CreateHexGrid 2 2 scenarioA = some gridA ∧ (0 : Int) < 2 * 2 ∧ (2 : Int) * 2 ≤ 2 ^ 50 ∧
    ∃ g, PopulateGrid gridA List.reverse id = some g ∧
      ((g.Cells.flatten.length : Nat) : Int) = 2 * 2 ∧
      ((unassigned g.Cells : Nat) : Int) =
        2 * 2 - (gridA.ItemTypes.map (itemCount (2 * 2))).sum :=
  ⟨CreateHexGrid_gridA, by decide, by decide,
    PopulateGrid_unassigned.1 2 2 scenarioA gridA List.reverse id CreateHexGrid_gridA
      (by decide) (by decide) scenarioA_range scenarioA_sum (fun l => List.reverse_perm l)
      (fun m => List.Perm.refl m)⟩

/-! ## The rendering loops -/

theorem getCell_modifyCell_self (cells : List (List HexCell)) (p : CellPtr)
    (f : HexCell → HexCell) : getCell (modifyCell cells p f) p = (getCell cells p).map f := by
  unfold getCell modifyCell
  rw [List.getElem?_modify]
  cases h : cells[p.1]? with
  | none => simp
  | some row =>
    simp only [if_true, Option.map_eq_map, Option.map_some']
    rw [List.getElem?_modify]
    simp

theorem getCell_modifyCell_ne (cells : List (List HexCell)) (p q : CellPtr)
    (f : HexCell → HexCell) (h : q ≠ p) : getCell (modifyCell cells p f) q = getCell cells q := by
  unfold getCell modifyCell
  rw [List.getElem?_modify]
  cases hrow : cells[q.1]? with
  | none => simp
  | some row =>
    by_cases h1 : p.1 = q.1
    · have h2 : p.2 ≠ q.2 := fun h2 => h (Prod.ext h1.symm h2.symm)
      simp only [h1, if_true, Option.map_eq_map, Option.map_some']
      rw [List.getElem?_modify]
      simp [h2]
    · simp [h1]

theorem runAll_append {α σ : Type} (f : α → σ → Option σ) :
    ∀ (l₁ l₂ : List α) (s : σ),
      runAll f (l₁ ++ l₂) s = (runAll f l₁ s).bind (runAll f l₂)
  | [], l₂, s => by simp [runAll]
  | a :: l₁, l₂, s => by
    simp only [List.cons_append, runAll]
    cases f a s with
    | none => rfl
    | some s' => exact runAll_append f l₁ l₂ s'

theorem forLoop_eq_runAll {σ : Type} (body : Nat → σ → Option σ) :
    ∀ (n : Nat) (s : σ), forLoop body n s = runAll body (List.range n) s
  | 0, s => by simp [forLoop, runAll]
  | n + 1, s => by
    rw [List.range_succ, runAll_append, ← forLoop_eq_runAll body n s]
    show (match forLoop body n s with
      | none => none
      | some s' => body n s') = _
    cases forLoop body n s with
    | none => rfl
    | some s' =>
      simp only [Option.some_bind, runAll]
      cases body n s' <;> rfl

theorem runAll_map {α β σ : Type} (f : β → σ → Option σ) (h : α → β) :
    ∀ (l : List α) (s : σ), runAll f (l.map h) s = runAll (fun a s => f (h a) s) l s
  | [], s => by simp [runAll]
  | a :: l, s => by
    simp only [List.map_cons, runAll]
    cases f (h a) s with
    | none => rfl
    | some s' => exact runAll_map f h l s'

theorem runAll_flatMap {α β σ : Type} (f : β → σ → Option σ) (g : α → List β) :
    ∀ (l : List α) (s : σ),
      runAll f (l.flatMap g) s = runAll (fun a s => runAll f (g a) s) l s
  | [], s => by simp [runAll]
  | a :: l, s => by
    rw [List.flatMap_cons, runAll_append]
    simp only [runAll]
    cases runAll f (g a) s with
    | none => rfl
    | some s' =>
      simp only [Option.some_bind]
      exact runAll_flatMap f g l s'

theorem nested_forLoop_eq_runAll {σ : Type} (f : Nat → Nat → σ → Option σ) (r c : Nat) (s : σ) :
    forLoop (fun row s => forLoop (fun col s => f row col s) c s) r s =
      runAll (fun p s => f p.1 p.2 s) (slots r c) s := by
  rw [forLoop_eq_runAll]
  unfold slots
  rw [runAll_flatMap]
  congr 1
  funext row s
  rw [forLoop_eq_runAll, runAll_map]

/-- Effect of the loop body of `GenerateSVG` run over distinct existing slots:
it returns, appends the markup of every slot in order, and stores the center in
each of these slots, leaving every other field and slot as it was. -/
theorem runAll_svgCell (trig : Trig ℚ) (dc : String) :
    ∀ (ps : List CellPtr) (s : SvgState), ps.Nodup →
      (∀ p ∈ ps, (getCell s.cells p).isSome) →
      ∃ s', runAll (fun p s => svgCell trig dc p.1 p.2 s) ps s = some s' ∧
        s'.svg = s.svg ++ ps.flatMap (markupAt trig dc s.cells) ∧
        ∀ q, getCell s'.cells q =
          if q ∈ ps then
            (getCell s.cells q).map (fun cell =>
              { cell with X := (cellCenter q.1 q.2).1, Y := (cellCenter q.1 q.2).2 })
          else getCell s.cells q
  | [], s, _, _ => ⟨s, by simp [runAll]⟩
  | p :: ps, s, hnd, hval => by
    have hp : p ∉ ps := (List.nodup_cons.1 hnd).1
    have hps : ps.Nodup := (List.nodup_cons.1 hnd).2
    obtain ⟨cell, hcell⟩ := Option.isSome_iff_exists.1 (hval p (List.mem_cons_self _ _))
    set s1 : SvgState :=
      { cells := setCenter s.cells p (cellCenter p.1 p.2).1 (cellCenter p.1 p.2).2
        svg := s.svg ++ cellElements trig dc cell.ItemType (cellCenter p.1 p.2).1
          (cellCenter p.1 p.2).2 } with hs1
    have hstep : svgCell trig dc p.1 p.2 s = some s1 := by
      unfold svgCell
      rw [hcell]
    have hne : ∀ q ∈ ps, getCell s1.cells q = getCell s.cells q := by
      intro q hq
      exact getCell_modifyCell_ne s.cells p q _ (fun h => hp (h ▸ hq))
    obtain ⟨s', hrun, hsvg, hcells⟩ := runAll_svgCell trig dc ps s1 hps (by
      intro q hq
      rw [hne q hq]
      exact hval q (List.mem_cons_of_mem _ hq))
    refine ⟨s', by simp only [runAll, hstep, hrun], ?_, ?_⟩
    · rw [hsvg, List.flatMap_cons, ← List.append_assoc]
      congr 1
      · rw [hs1]
        simp only
        congr 1
        unfold markupAt
        rw [hcell]
        simp only
        unfold cellElements dotMarker
        cases cell.ItemType with
        | none => rfl
        | some t =>
          simp only
          split <;> rfl
      · apply List.flatMap_congr
        intro q hq
        unfold markupAt
        rw [hne q hq]
    · intro q
      rw [hcells q]
      by_cases hq : q ∈ ps
      · have hqp : q ≠ p := fun h => hp (h ▸ hq)
        simp only [hq, if_true, List.mem_cons, or_true]
        rw [hne q hq]
      · by_cases hqp : q = p
        · subst hqp
          simp only [hq, if_false, List.mem_cons, true_or, if_true]
          exact getCell_modifyCell_self s.cells q _
        · simp only [hq, if_false, List.mem_cons, hqp, or_self]
          exact getCell_modifyCell_ne s.cells p q _ hqp

/-- What `GenerateSVG` does on a well-shaped grid. -/
theorem GenerateSVG_spec (trig : Trig ℚ) (grid : HexGrid)
    (hshape : Shaped grid.Cells grid.Rows.toNat grid.Cols.toNat) :
    ∃ g doc, GenerateSVG trig grid = some (g, doc) ∧
      doc.width = svgWidth grid.Rows grid.Cols ∧ doc.height = svgHeight grid.Rows ∧
      doc.body = (slots grid.Rows.toNat grid.Cols.toNat).flatMap
        (markupAt trig grid.DefaultColor grid.Cells) ∧
      ∀ p ∈ slots grid.Rows.toNat grid.Cols.toNat,
        getCell g.Cells p = (getCell grid.Cells p).map (fun cell =>
          { cell with X := (cellCenter p.1 p.2).1, Y := (cellCenter p.1 p.2).2 }) := by
  obtain ⟨s', hrun, hsvg, hcells⟩ := runAll_svgCell trig grid.DefaultColor
    (slots grid.Rows.toNat grid.Cols.toNat) { cells := grid.Cells, svg := [] }
    (nodup_slots _ _) (getCell_isSome_of_shaped hshape)
  refine ⟨{ grid with Cells := s'.cells },
    { width := svgWidth grid.Rows grid.Cols, height := svgHeight grid.Rows, body := s'.svg },
    ?_, rfl, rfl, ?_, ?_⟩
  · unfold GenerateSVG
    rw [nested_forLoop_eq_runAll, hrun]
  · simpa using hsvg
  · intro p hp
    have := hcells p
    simpa [hp] using this

/-! ## Claims on the renderers -/

/-- C4: the fill and stroke that `GenerateSVG` chooses for a cell follow the
three-case rule: no item type gives the default colour and stroke `#ccc`; style
`fill` gives the item type's colour and stroke `#333`; style `dot` gives the
default colour (not the item's) and stroke `#333`. -/
theorem svg_color_rule (trig : Trig ℚ) (defaultColor : String) (x y : ℚ)
    (addr : Nat) (name color : String) (pct : ℚ) :
    svgColors none defaultColor = (defaultColor, "#ccc") ∧
    svgColors (some ⟨addr, ⟨name, pct, "fill", color⟩⟩) defaultColor = (color, "#333") ∧
    svgColors (some ⟨addr, ⟨name, pct, "dot", color⟩⟩) defaultColor = (defaultColor, "#333") ∧
    cellElements trig defaultColor none x y =
      [SvgElem.path (generateHexagonPath trig x y) defaultColor "#ccc" 1] ∧
    cellElements trig defaultColor (some ⟨addr, ⟨name, pct, "fill", color⟩⟩) x y =
      [SvgElem.path (generateHexagonPath trig x y) color "#333" 1] ∧
    cellElements trig defaultColor (some ⟨addr, ⟨name, pct, "dot", color⟩⟩) x y =
      [SvgElem.path (generateHexagonPath trig x y) defaultColor "#333" 1,
       SvgElem.circle x y 9 color "black" 2] := by
  have h1 : ¬ ("dot" = "fill") := by decide
  have h2 : ¬ ("fill" = "dot") := by decide
  simp [svgColors, cellElements, h1, h2]

theorem tmod_two_eq_zero_iff_even (rows : Int) (h : 0 ≤ rows) :
    rows.tmod 2 = 0 ↔ Even rows := by
  rw [Int.tmod_eq_emod h (by decide), Int.even_iff]

/-- C5: for `rows ≥ 1` and `cols ≥ 1` the canvas width of `GenerateSVG` is
`cols*(HexWidth+HexColumnOffset)` plus the half-step
`(HexWidth+HexColumnOffset)/2` exactly when `rows > 1`, and the canvas height is
`rows*(HexHeight/2)` plus `HexHeight/2` exactly when `rows` is even; a 1 x 5
grid has width `5*(HexWidth+HexColumnOffset)` and a 4 x 1 grid has height
`5*(HexHeight/2)`. -/
theorem canvas_bounds (rows cols : Int) (hr : 1 ≤ rows) (_hc : 1 ≤ cols) :
    (∀ (trig : Trig ℚ) (grid g : HexGrid) (doc : SvgDocument),
      grid.Rows = rows → grid.Cols = cols → GenerateSVG trig grid = some (g, doc) →
      doc.width = svgWidth rows cols ∧ doc.height = svgHeight rows) ∧
    (1 < rows → svgWidth rows cols =
      (cols : ℚ) * (HexWidth + HexColumnOffset) + (HexWidth + HexColumnOffset) / 2) ∧
    (¬ 1 < rows → svgWidth rows cols = (cols : ℚ) * (HexWidth + HexColumnOffset)) ∧
    (Even rows → svgHeight rows = (rows : ℚ) * (HexHeight / 2) + HexHeight / 2) ∧
    (¬ Even rows → svgHeight rows = (rows : ℚ) * (HexHeight / 2)) ∧
    svgWidth 1 5 = 5 * (HexWidth + HexColumnOffset) ∧
    svgHeight 4 = 5 * (HexHeight / 2) := by
  refine ⟨?_, ?_, ?_, ?_, ?_, ?_, ?_⟩
  · intro trig grid g doc hR hC hrun
    unfold GenerateSVG at hrun
    split at hrun
    · exact absurd hrun (by simp)
    · simp only [Option.some.injEq, Prod.mk.injEq] at hrun
      rw [← hrun.2, hR, hC]
      exact ⟨rfl, rfl⟩
  · intro h
    unfold svgWidth
    simp only [gt_iff_lt, h, if_true, HexEvenRowStartOffset]
    ring
  · intro h
    unfold svgWidth
    simp only [gt_iff_lt, h, if_false]
  · intro h
    unfold svgHeight
    simp only [(tmod_two_eq_zero_iff_even rows (by omega)).2 h, if_true]
  · intro h
    unfold svgHeight
    rw [if_neg (fun h' => h ((tmod_two_eq_zero_iff_even rows (by omega)).1 h'))]
  · unfold svgWidth
    norm_num
  · unfold svgHeight
    norm_num [Int.tmod]
    ring

theorem canvas_bounds_witness :
    (1 : Int) ≤ 2 ∧ (1 : Int) ≤ 3 ∧
    svgWidth 2 3 = ((3 : Int) : ℚ) * (HexWidth + HexColumnOffset) + (HexWidth + HexColumnOffset) / 2 ∧
    svgHeight 2 = ((2 : Int) : ℚ) * (HexHeight / 2) + HexHeight / 2 :=
  ⟨by decide, by decide, (canvas_bounds 2 3 (by decide) (by decide)).2.1 (by decide),
    (canvas_bounds 2 3 (by decide) (by decide)).2.2.2.1 (by decide)⟩

/-- C6: the center computed by `GenerateSVG` for cell `(r, c+1)` has the same y
as that of `(r, c)` and an x larger by exactly `HexWidth + HexColumnOffset`; any
cell of row `r+1` has a y larger by exactly `HexHeight/2` than any cell of row
`r`; and on every well-shaped grid `GenerateSVG` returns and stores in each slot
`(row, col)` the center `cellCenter row col`, a function of `(row, col)` alone,
whatever the item types and the size of the grid. -/
theorem cellCenter_steps (trig : Trig ℚ) (grid : HexGrid)
    (hshape : Shaped grid.Cells grid.Rows.toNat grid.Cols.toNat) :
    (∀ r c : Nat, (cellCenter r (c + 1)).2 = (cellCenter r c).2 ∧
      (cellCenter r (c + 1)).1 = (cellCenter r c).1 + (HexWidth + HexColumnOffset)) ∧
    (∀ r c c' : Nat, (cellCenter (r + 1) c').2 = (cellCenter r c).2 + HexHeight / 2) ∧
    ∃ g doc, GenerateSVG trig grid = some (g, doc) ∧
      ∀ p ∈ slots grid.Rows.toNat grid.Cols.toNat,
        ∃ cell, getCell g.Cells p = some cell ∧ (cell.X, cell.Y) = cellCenter p.1 p.2 := by
  refine ⟨?_, ?_, ?_⟩
  · intro r c
    unfold cellCenter
    constructor
    · rfl
    · simp only [Nat.cast_add, Nat.cast_one]
      split <;> ring
  · intro r c c'
    unfold cellCenter
    simp only [Nat.cast_add, Nat.cast_one]
    ring
  · obtain ⟨g, doc, hrun, _, _, _, hcells⟩ := GenerateSVG_spec trig grid hshape
    refine ⟨g, doc, hrun, ?_⟩
    intro p hp
    obtain ⟨cell, hcell⟩ := Option.isSome_iff_exists.1 (getCell_isSome_of_shaped hshape p hp)
    rw [hcells p hp, hcell]
    exact ⟨_, rfl, rfl⟩

theorem shaped_gridP : Shaped gridP.Cells gridP.Rows.toNat gridP.Cols.toNat := by
  refine ⟨rfl, ?_⟩
  intro row hrow
  simp only [gridP, List.mem_cons, List.mem_singleton, List.not_mem_nil, or_false] at hrow
  rcases hrow with rfl | rfl <;> rfl

theorem cellCenter_steps_witness :
    Shaped gridP.Cells gridP.Rows.toNat gridP.Cols.toNat ∧
    ∃ g doc, GenerateSVG trigQ gridP = some (g, doc) ∧
      ∀ p ∈ slots gridP.Rows.toNat gridP.Cols.toNat,
        ∃ cell, getCell g.Cells p = some cell ∧ (cell.X, cell.Y) = cellCenter p.1 p.2 :=
  ⟨shaped_gridP, (cellCenter_steps trigQ gridP shaped_gridP).2.2⟩

/-- C7, as the code has it: for every odd row `r` and every column `c`, the x
of the center of `(r, c)` exceeds that of the same column in an even row by
half the horizontal step, `(HexWidth + HexColumnOffset)/2`, which is the
constant `HexEvenRowStartOffset`; in an even row the offset is zero. -/
theorem cellCenter_stagger (r r' c : Nat) (hodd : r % 2 = 1) (heven : r' % 2 = 0) :
    (cellCenter r c).1 = (cellCenter r' c).1 + (HexWidth + HexColumnOffset) / 2 ∧
    (cellCenter r' c).1 = (c : ℚ) * (HexWidth + HexColumnOffset) ∧
    (HexEvenRowStartOffset : ℚ) = (HexWidth + HexColumnOffset) / 2 := by
  have h0 : ¬ (r' % 2 = 1) := by omega
  unfold cellCenter
  simp only [hodd, h0, if_true, if_false, HexEvenRowStartOffset]
  refine ⟨by ring, trivial, by ring⟩

theorem cellCenter_stagger_witness :
    1 % 2 = 1 ∧ 0 % 2 = 0 ∧
    (cellCenter 1 3).1 = (cellCenter 0 3).1 + (HexWidth + HexColumnOffset) / 2 :=
  ⟨by decide, by decide, (cellCenter_stagger 1 0 3 (by decide) (by decide)).1⟩

/-- C7 as stated fails: in row 1, column 0 the x of the center does not exceed
that of row 0 by `(HexWidth + HexColumnOffset)/2 + HexColumnOffset/2`. -/
theorem cellCenter_stagger_counterexample :
    ¬ ((cellCenter 1 0).1 =
      (cellCenter 0 0).1 + ((HexWidth + HexColumnOffset) / 2 + HexColumnOffset / 2)) := by
  unfold cellCenter
  norm_num [HexWidth, HexColumnOffset, HexEvenRowStartOffset]

/-- C8: for a cell with no item type, with a `fill` type or with a `dot` type,
and every default colour, `drawHexagon` and `GenerateSVG` resolve the same
colours: the fill strings are identical for every item type, the strokes denote
the same colour (`#333` is the shorthand of `#333333`, `#ccc` of `#CCCCCC`), and
both renderers draw a dot marker in the item type's colour exactly when the
style is `dot`. -/
theorem pdf_svg_colors_agree (trigP trigS : Trig ℚ) (cell : HexCell) (defaultColor : String)
    (centerX centerY size x y : ℚ) (addr : Nat) (name color : String) (pct : ℚ) :
    (pdfColors cell.ItemType defaultColor).1 = (svgColors cell.ItemType defaultColor).1 ∧
    cssHexColor (svgColors cell.ItemType defaultColor).2 =
      cssHexColor (pdfColors cell.ItemType defaultColor).2 ∧
    (cssHexColor (svgColors cell.ItemType defaultColor).2).isSome = true ∧
    (∃ points, points = hexagonPoints trigP centerX centerY size ∧
      drawHexagon trigP centerX centerY size { cell with ItemType := none } defaultColor =
        [PdfOp.SetFillColor defaultColor, PdfOp.SetDrawColor "#CCCCCC",
         PdfOp.Polygon points "F", PdfOp.Polygon points "D"] ∧
      drawHexagon trigP centerX centerY size
          { cell with ItemType := some ⟨addr, ⟨name, pct, "fill", color⟩⟩ } defaultColor =
        [PdfOp.SetFillColor color, PdfOp.SetDrawColor "#333333",
         PdfOp.Polygon points "F", PdfOp.Polygon points "D"] ∧
      drawHexagon trigP centerX centerY size
          { cell with ItemType := some ⟨addr, ⟨name, pct, "dot", color⟩⟩ } defaultColor =
        [PdfOp.SetFillColor defaultColor, PdfOp.SetDrawColor "#333333",
         PdfOp.Polygon points "F", PdfOp.Polygon points "D",
         PdfOp.SetFillColor color, PdfOp.Circle centerX centerY 2 "F"]) ∧
    (∃ d, d = generateHexagonPath trigS x y ∧
      cellElements trigS defaultColor none x y = [SvgElem.path d defaultColor "#ccc" 1] ∧
      cellElements trigS defaultColor (some ⟨addr, ⟨name, pct, "fill", color⟩⟩) x y =
        [SvgElem.path d color "#333" 1] ∧
      cellElements trigS defaultColor (some ⟨addr, ⟨name, pct, "dot", color⟩⟩) x y =
        [SvgElem.path d defaultColor "#333" 1, SvgElem.circle x y 9 color "black" 2]) ∧
    cssHexColor "#333" = cssHexColor "#333333" ∧ cssHexColor "#ccc" = cssHexColor "#CCCCCC" := by
  have h1 : ¬ ("dot" = "fill") := by decide
  have h2 : ¬ ("fill" = "dot") := by decide
  have h3 : cssHexColor "#333" = cssHexColor "#333333" := by decide
  have h4 : cssHexColor "#ccc" = cssHexColor "#CCCCCC" := by decide
  have h5 : (cssHexColor "#333").isSome = true := by decide
  have h6 : (cssHexColor "#ccc").isSome = true := by decide
  refine ⟨?_, ?_, ?_, ⟨_, rfl, ?_, ?_, ?_⟩, ⟨_, rfl, ?_, ?_, ?_⟩, h3, h4⟩
  · unfold pdfColors svgColors
    cases cell.ItemType with
    | none => rfl
    | some t => simp only; split <;> rfl
  · unfold pdfColors svgColors
    cases cell.ItemType with
    | none => exact h4
    | some t => simp only; split <;> exact h3
  · unfold svgColors
    cases cell.ItemType with
    | none => exact h6
    | some t => simp only; split <;> exact h5
  · simp only [drawHexagon, pdfColors]
  · simp only [drawHexagon, pdfColors, if_true, h2, if_false]
  · simp only [drawHexagon, pdfColors, if_true, h1, if_false, List.cons_append, List.nil_append]
  · simp [cellElements, svgColors]
  · simp [cellElements, svgColors, h2]
  · simp [cellElements, svgColors, h1]

theorem sum_map_ite_eq_countP {α : Type} (P : α → Bool) (l : List α) :
    (l.map (fun a => if P a = true then 1 else 0)).sum = l.countP P := by
  induction l with
  | nil => rfl
  | cons a l ih =>
    simp only [List.map_cons, List.sum_cons, ih, List.countP_cons]
    omega

theorem countP_dotMarker (itemType : Option ItemTypePtr) (x y : ℚ) :
    (dotMarker itemType x y).countP SvgElem.isCircle =
      (match itemType with
        | some t => if t.val.Style = "dot" then 1 else 0
        | none => 0) ∧
    (dotMarker itemType x y).countP SvgElem.isPath = 0 := by
  unfold dotMarker
  cases itemType with
  | none => simp
  | some t =>
    simp only
    split <;> simp [SvgElem.isCircle, SvgElem.isPath]

/-- C9: on every well-shaped (in particular every populated) grid `GenerateSVG`
returns; the body is, slot by slot in row-major order, the path of the cell
immediately followed by its dot marker, which is a circle at the cell's center
with radius 9 and the item type's colour when the style is `dot` and nothing
otherwise; so the body holds exactly `rows*cols` paths and exactly one circle
for each cell of style `dot`. -/
theorem GenerateSVG_body (trig : Trig ℚ) (grid : HexGrid)
    (hshape : Shaped grid.Cells grid.Rows.toNat grid.Cols.toNat) :
    ∃ g doc, GenerateSVG trig grid = some (g, doc) ∧
      doc.body = (slots grid.Rows.toNat grid.Cols.toNat).flatMap (fun p =>
        match getCell grid.Cells p with
        | none => []
        | some cell =>
          SvgElem.path (generateHexagonPath trig (cellCenter p.1 p.2).1 (cellCenter p.1 p.2).2)
              (svgColors cell.ItemType grid.DefaultColor).1
              (svgColors cell.ItemType grid.DefaultColor).2 1 ::
            (match cell.ItemType with
              | some t =>
                if t.val.Style = "dot" then
                  [SvgElem.circle (cellCenter p.1 p.2).1 (cellCenter p.1 p.2).2 9 t.val.Color
                    "black" 2]
                else []
              | none => [])) ∧
      (∀ p ∈ slots grid.Rows.toNat grid.Cols.toNat, (getCell grid.Cells p).isSome = true) ∧
      doc.body.countP SvgElem.isPath = grid.Rows.toNat * grid.Cols.toNat ∧
      doc.body.countP SvgElem.isCircle = grid.Cells.flatten.countP HexCell.isDot := by
  obtain ⟨g, doc, hrun, _, _, hbody, _⟩ := GenerateSVG_spec trig grid hshape
  have hval := getCell_isSome_of_shaped hshape
  refine ⟨g, doc, hrun, ?_, hval, ?_, ?_⟩
  · rw [hbody]
    apply List.flatMap_congr
    intro p _
    unfold markupAt dotMarker
    rfl
  · rw [hbody, List.countP_flatMap]
    have : ∀ p ∈ slots grid.Rows.toNat grid.Cols.toNat,
        (List.countP SvgElem.isPath ∘ markupAt trig grid.DefaultColor grid.Cells) p = 1 := by
      intro p hp
      obtain ⟨cell, hcell⟩ := Option.isSome_iff_exists.1 (hval p hp)
      simp only [Function.comp_apply, markupAt, hcell, List.countP_cons,
        (countP_dotMarker _ _ _).2]
      rfl
    rw [List.map_congr_left this]
    simp [length_slots]
  · rw [hbody, List.countP_flatMap]
    have h1 : ∀ p ∈ slots grid.Rows.toNat grid.Cols.toNat,
        (List.countP SvgElem.isCircle ∘ markupAt trig grid.DefaultColor grid.Cells) p =
          (fun o : Option HexCell => if (match o with
            | some cell => cell.isDot
            | none => false) = true then 1 else 0) (getCell grid.Cells p) := by
      intro p hp
      obtain ⟨cell, hcell⟩ := Option.isSome_iff_exists.1 (hval p hp)
      simp only [Function.comp_apply, markupAt, hcell, List.countP_cons,
        (countP_dotMarker _ _ _).1, HexCell.isDot]
      cases cell.ItemType with
      | none => rfl
      | some t =>
        simp only [SvgElem.isCircle, beq_iff_eq]
        split <;> simp
    rw [List.map_congr_left h1]
    have h2 := sum_map_ite_eq_countP (fun o : Option HexCell => match o with
      | some cell => cell.isDot
      | none => false) ((slots grid.Rows.toNat grid.Cols.toNat).map (getCell grid.Cells))
    rw [List.map_map] at h2
    rw [show (fun p => (fun o : Option HexCell => if (match o with
            | some cell => cell.isDot
            | none => false) = true then 1 else 0) (getCell grid.Cells p)) =
          ((fun a => if (match a with
            | some cell => cell.isDot
            | none => false) = true then 1 else 0) ∘ getCell grid.Cells) from rfl, h2,
      map_getCell_slots _ _ _ hshape, List.countP_map]
    rfl

theorem GenerateSVG_body_witness :
    Shaped gridP.Cells gridP.Rows.toNat gridP.Cols.toNat ∧
    ∃ g doc, GenerateSVG trigQ gridP = some (g, doc) ∧
      doc.body.countP SvgElem.isPath = gridP.Rows.toNat * gridP.Cols.toNat ∧
      doc.body.countP SvgElem.isCircle = gridP.Cells.flatten.countP HexCell.isDot := by
  obtain ⟨g, doc, h1, _, _, h2, h3⟩ := GenerateSVG_body trigQ gridP shaped_gridP
  exact ⟨shaped_gridP, g, doc, h1, h2, h3⟩

theorem generateHexagonPath_eq {R : Type} [Field R] (trig : Trig R) (cx cy : R) :
    generateHexagonPath trig cx cy =
      [PathCmd.M (hexCorner trig cx cy 0).1 (hexCorner trig cx cy 0).2,
       PathCmd.L (hexCorner trig cx cy 1).1 (hexCorner trig cx cy 1).2,
       PathCmd.L (hexCorner trig cx cy 2).1 (hexCorner trig cx cy 2).2,
       PathCmd.L (hexCorner trig cx cy 3).1 (hexCorner trig cx cy 3).2,
       PathCmd.L (hexCorner trig cx cy 4).1 (hexCorner trig cx cy 4).2,
       PathCmd.L (hexCorner trig cx cy 5).1 (hexCorner trig cx cy 5).2,
       PathCmd.Z] := by
  have hr : List.range 6 = [0, 1, 2, 3, 4, 5] := by decide
  unfold generateHexagonPath hexCorner
  rw [hr]
  simp [mul_div_assoc]

/-- C10: for every center `(cx, cy)`, `generateHexagonPath` (with π, cosine and
sine over the reals) emits one `M`, five `L` and a final `Z`, the six points
being the corners `(cx + HexSize·cos(i·60°), cy + HexSize·sin(i·60°))`,
`i = 0..5`; every corner is at distance exactly `HexSize = 25` from the center,
the first corner is at angle 0, i.e. `(cx + HexSize, cy)`, and each corner
follows the previous one by a counter-clockwise turn of 60° about the center in
the coordinates of the path (positive cross product), corner 6 being corner 0. -/
theorem generateHexagonPath_corners (cx cy : ℝ) :
    generateHexagonPath { Pi := Real.pi, Cos := Real.cos, Sin := Real.sin } cx cy =
      [PathCmd.M (cx + 25 * Real.cos (0 * (Real.pi / 3))) (cy + 25 * Real.sin (0 * (Real.pi / 3))),
       PathCmd.L (cx + 25 * Real.cos (1 * (Real.pi / 3))) (cy + 25 * Real.sin (1 * (Real.pi / 3))),
       PathCmd.L (cx + 25 * Real.cos (2 * (Real.pi / 3))) (cy + 25 * Real.sin (2 * (Real.pi / 3))),
       PathCmd.L (cx + 25 * Real.cos (3 * (Real.pi / 3))) (cy + 25 * Real.sin (3 * (Real.pi / 3))),
       PathCmd.L (cx + 25 * Real.cos (4 * (Real.pi / 3))) (cy + 25 * Real.sin (4 * (Real.pi / 3))),
       PathCmd.L (cx + 25 * Real.cos (5 * (Real.pi / 3))) (cy + 25 * Real.sin (5 * (Real.pi / 3))),
       PathCmd.Z] ∧
    (HexSize : ℝ) = 25 ∧
    (∀ i : Nat,
      hexCorner { Pi := Real.pi, Cos := Real.cos, Sin := Real.sin } cx cy i =
        (cx + HexSize * Real.cos (i * (Real.pi / 3)), cy + HexSize * Real.sin (i * (Real.pi / 3))) ∧
      Real.sqrt
        (((hexCorner { Pi := Real.pi, Cos := Real.cos, Sin := Real.sin } cx cy i).1 - cx) ^ 2 +
         ((hexCorner { Pi := Real.pi, Cos := Real.cos, Sin := Real.sin } cx cy i).2 - cy) ^ 2) =
        HexSize ∧
      0 < ((hexCorner { Pi := Real.pi, Cos := Real.cos, Sin := Real.sin } cx cy i).1 - cx) *
            ((hexCorner { Pi := Real.pi, Cos := Real.cos, Sin := Real.sin } cx cy (i + 1)).2 - cy) -
          ((hexCorner { Pi := Real.pi, Cos := Real.cos, Sin := Real.sin } cx cy (i + 1)).1 - cx) *
            ((hexCorner { Pi := Real.pi, Cos := Real.cos, Sin := Real.sin } cx cy i).2 - cy)) ∧
    hexCorner { Pi := Real.pi, Cos := Real.cos, Sin := Real.sin } cx cy 0 = (cx + HexSize, cy) ∧
    hexCorner { Pi := Real.pi, Cos := Real.cos, Sin := Real.sin } cx cy 6 =
      hexCorner { Pi := Real.pi, Cos := Real.cos, Sin := Real.sin } cx cy 0 := by
  have hsize : (HexSize : ℝ) = 25 := rfl
  refine ⟨?_, hsize, ?_, ?_, ?_⟩
  · rw [generateHexagonPath_eq]
    simp [hexCorner, hsize]
  · intro i
    refine ⟨rfl, ?_, ?_⟩
    · simp only [hexCorner, add_sub_cancel_left, hsize]
      have h : (25 * Real.cos (↑i * (Real.pi / 3))) ^ 2 + (25 * Real.sin (↑i * (Real.pi / 3))) ^ 2 =
          25 ^ 2 := by
        have := Real.cos_sq_add_sin_sq (↑i * (Real.pi / 3))
        nlinarith [this]
      rw [h]
      exact Real.sqrt_sq (by norm_num)
    · simp only [hexCorner, add_sub_cancel_left, hsize]
      have hsin : Real.sin ((↑(i + 1) : ℝ) * (Real.pi / 3) - ↑i * (Real.pi / 3)) =
          Real.sin (Real.pi / 3) := by
        congr 1
        push_cast
        ring
      rw [Real.sin_sub, Real.sin_pi_div_three] at hsin
      have h3 : (0 : ℝ) < Real.sqrt 3 / 2 := by positivity
      nlinarith [hsin, h3]
  · simp [hexCorner]
  · simp only [hexCorner, Prod.mk.injEq, add_right_inj]
    have h : ((6 : Nat) : ℝ) * (Real.pi / 3) = 2 * Real.pi := by push_cast; ring
    rw [h]
    simp

/-- A grid returned by `PopulateGrid` on a grid built by `CreateHexGrid` is
well-shaped. -/
theorem populated_shaped (rows cols : Int) (config : YAMLConfig) (grid₀ grid : HexGrid)
    (shuffle : List CellPtr → List CellPtr)
    (iterate : List (ItemTypePtr × Int) → List (ItemTypePtr × Int))
    (hcreate : CreateHexGrid rows cols config = some grid₀)
    (hpop : PopulateGrid grid₀ shuffle iterate = some grid) :
    Shaped grid.Cells grid.Rows.toNat grid.Cols.toNat := by
  obtain ⟨_, _, hR, hC, _, _, hshape, _⟩ := CreateHexGrid_some hcreate
  have hshape' : Shaped grid₀.Cells grid₀.Rows.toNat grid₀.Cols.toNat := by
    rw [hR, hC]; exact hshape
  unfold PopulateGrid at hpop
  simp only at hpop
  split_ifs at hpop with hneg
  rw [collectCells_of_shaped hshape'] at hpop
  simp only at hpop
  rw [assignOuter_eq _ _ _ 0 (Nat.zero_le _)] at hpop
  simp only [Option.some.injEq] at hpop
  subst hpop
  exact shaped_assignAll _ _ _ _ _ hshape'

/-! ## `PopulateGrid` without the validation of the percentages -/

theorem PopulateGrid_run (grid : HexGrid) (shuffle : List CellPtr → List CellPtr)
    (iterate : List (ItemTypePtr × Int) → List (ItemTypePtr × Int))
    (hn : 0 ≤ grid.Rows * grid.Cols)
    (hshape : Shaped grid.Cells grid.Rows.toNat grid.Cols.toNat) :
    PopulateGrid grid shuffle iterate =
      some { grid with
        Cells := assignAll (shuffle (slots grid.Rows.toNat grid.Cols.toNat))
          (labelsOf (iterate (itemCounts grid))) grid.Cells } := by
  unfold PopulateGrid
  simp only [not_lt.2 hn, if_false, collectCells_of_shaped hshape]
  rw [assignOuter_eq _ _ _ 0 (Nat.zero_le _)]
  simp

theorem getCell_assignAll_key {κ : Type} (key : HexCell → κ)
    (hkey : ∀ (cell : HexCell) (t : ItemTypePtr), key { cell with ItemType := some t } = key cell) :
    ∀ (ps : List CellPtr) (ts : List ItemTypePtr) (cells : List (List HexCell)) (q : CellPtr),
      (getCell (assignAll ps ts cells) q).map key = (getCell cells q).map key
  | [], _, _, _ => by simp [assignAll]
  | _ :: _, [], _, _ => by simp [assignAll]
  | p :: ps, t :: ts, cells, q => by
    simp only [assignAll]
    rw [getCell_assignAll_key key hkey ps ts _ q]
    by_cases h : q = p
    · subst h
      rw [getCell_setItemType_self]
      cases getCell cells q with
      | none => rfl
      | some cell => simp [hkey]
    · rw [getCell_setItemType_ne cells p q t h]

/-- Item types of the cells after `PopulateGrid` on a grid built by
`CreateHexGrid`, whatever the percentages: up to the order of the cells, the
labels that fit followed by empty cells. -/
theorem populate_fresh_any (rows cols : Int) (config : YAMLConfig) (grid : HexGrid)
    (shuffle : List CellPtr → List CellPtr)
    (iterate : List (ItemTypePtr × Int) → List (ItemTypePtr × Int))
    (hgrid : CreateHexGrid rows cols config = some grid)
    (hr : 0 ≤ rows) (hc : 0 ≤ cols) (hsh : IsShuffle shuffle) :
    ∃ g, PopulateGrid grid shuffle iterate = some g ∧
      g.Rows = rows ∧ g.Cols = cols ∧ g.ItemTypes = grid.ItemTypes ∧
      g.Cells = assignAll (shuffle (slots rows.toNat cols.toNat))
        (labelsOf (iterate (entriesOf rows cols config.Items))) grid.Cells ∧
      Shaped g.Cells rows.toNat cols.toNat ∧
      ((rows.toNat * cols.toNat : Nat) : Int) = rows * cols ∧
      (g.Cells.flatten.map (fun cell => some cell.ItemType)).Perm
        (((labelsOf (iterate (entriesOf rows cols config.Items))).take
            (rows.toNat * cols.toNat)).map (fun t => some (some t)) ++
          List.replicate (rows.toNat * cols.toNat -
            (labelsOf (iterate (entriesOf rows cols config.Items))).length) (some none)) := by
  obtain ⟨_, _, hR, hC, hI, _, hshape, hnone⟩ := CreateHexGrid_some hgrid
  have hN : ((rows.toNat * cols.toNat : Nat) : Int) = rows * cols := by
    rw [Nat.cast_mul, Int.toNat_of_nonneg hr, Int.toNat_of_nonneg hc]
  have hn : 0 ≤ grid.Rows * grid.Cols := by rw [hR, hC]; exact mul_nonneg hr hc
  have hshape' : Shaped grid.Cells grid.Rows.toNat grid.Cols.toNat := by rw [hR, hC]; exact hshape
  have hrun := PopulateGrid_run grid shuffle iterate hn hshape'
  obtain ⟨g, hg, hgR, hgC, hgI, _, hgs, hperm⟩ :=
    PopulateGrid_spec grid shuffle iterate hn hshape' hsh
  have hcounts : itemCounts grid = entriesOf rows cols config.Items := by
    rw [itemCounts_of_nodup grid (by rw [hI]; exact nodup_addr_itemPtrs _), hI, hR, hC]
    rfl
  have hcells : g.Cells = assignAll (shuffle (slots rows.toNat cols.toNat))
      (labelsOf (iterate (entriesOf rows cols config.Items))) grid.Cells := by
    rw [hrun] at hg
    rw [← Option.some.inj hg, hcounts, hR, hC]
  rw [hR, hC] at hgs hperm
  rw [hcounts] at hperm
  refine ⟨g, hg, hgR.trans hR, hgC.trans hC, hgI, hcells, hgs, hN, ?_⟩
  set labels := labelsOf (iterate (entriesOf rows cols config.Items)) with hlabels
  have hsl : (shuffle (slots rows.toNat cols.toNat)).Perm (slots rows.toNat cols.toNat) := hsh _
  have hrest : ((shuffle (slots rows.toNat cols.toNat)).drop labels.length).map
      (itemAt grid.Cells) =
      List.replicate (rows.toNat * cols.toNat - labels.length) (some none) := by
    rw [List.eq_replicate_iff]
    refine ⟨by simp [hsl.length_eq, length_slots], ?_⟩
    intro o ho
    obtain ⟨p, hp, rfl⟩ := List.mem_map.1 ho
    have hp' : p ∈ slots rows.toNat cols.toNat := hsl.subset (List.mem_of_mem_drop hp)
    have hmem : itemAt grid.Cells p ∈ (slots rows.toNat cols.toNat).map (itemAt grid.Cells) :=
      List.mem_map_of_mem _ hp'
    have hmap : (slots rows.toNat cols.toNat).map (itemAt grid.Cells) =
        grid.Cells.flatten.map (fun cell => some cell.ItemType) := by
      have := congrArg (List.map (Option.map (fun cell : HexCell => cell.ItemType)))
        (map_getCell_slots _ _ _ hshape)
      simp only [List.map_map] at this
      unfold itemAt
      simpa [Function.comp_def] using this
    rw [hmap] at hmem
    obtain ⟨cell, hcell, hce⟩ := List.mem_map.1 hmem
    rw [← hce, hnone cell hcell]
  rw [hrest] at hperm
  exact hperm

theorem sum_toNat_max (c : ItemTypePtr → Int) (ts : List ItemTypePtr) :
    (((ts.map (fun t => (c t).toNat)).sum : Nat) : Int) = (ts.map (fun t => max (c t) 0)).sum := by
  induction ts with
  | nil => simp
  | cons t ts ih =>
    simp only [List.map_cons, List.sum_cons, Nat.cast_add]
    rw [ih, Int.toNat_eq_max]

/-- What `PopulateGrid` does on a grid built by `CreateHexGrid`, whatever the
percentages: the frame, the slots written and the number of cells assigned. -/
theorem populate_safe (rows cols : Int) (config : YAMLConfig) (grid : HexGrid)
    (shuffle : List CellPtr → List CellPtr)
    (iterate : List (ItemTypePtr × Int) → List (ItemTypePtr × Int))
    (hgrid : CreateHexGrid rows cols config = some grid)
    (hr : 0 ≤ rows) (hc : 0 ≤ cols)
    (hsh : IsShuffle shuffle) (hit : IsIteration iterate) :
    ∃ g, PopulateGrid grid shuffle iterate = some g ∧
      g.Rows = grid.Rows ∧ g.Cols = grid.Cols ∧
      Shaped g.Cells rows.toNat cols.toNat ∧
      (∀ q, (getCell g.Cells q).map (fun cell => (cell.Row, cell.Col)) =
        (getCell grid.Cells q).map (fun cell => (cell.Row, cell.Col))) ∧
      (shuffle (slots rows.toNat cols.toNat)).Nodup ∧
      g.Cells = assignAll (shuffle (slots rows.toNat cols.toNat))
        (labelsOf (iterate (itemCounts grid))) grid.Cells ∧
      ((assigned g.Cells : Nat) : Int) =
        min (rows * cols)
          ((grid.ItemTypes.map (fun t => max (itemCount (rows * cols) t) 0)).sum) ∧
      ∀ (i : Nat) (hi : i < config.Items.length),
        ((assignedTo g.Cells i : Nat) : Int) ≤
          max (itemCount (rows * cols) { addr := i, val := config.Items[i] }) 0 := by
  obtain ⟨_, _, hR, hC, hI, _, _, _⟩ := CreateHexGrid_some hgrid
  obtain ⟨g, hg, hgR, hgC, _, hcells, hshape, hN, hperm⟩ :=
    populate_fresh_any rows cols config grid shuffle iterate hgrid hr hc hsh
  have hn : 0 ≤ rows * cols := mul_nonneg hr hc
  have hcounts : itemCounts grid = entriesOf rows cols config.Items := by
    rw [itemCounts_of_nodup grid (by rw [hI]; exact nodup_addr_itemPtrs _), hI, hR, hC]
    rfl
  have hlen : (((labelsOf (iterate (entriesOf rows cols config.Items))).length : Nat) : Int) =
      ((itemPtrs config.Items).map (fun t => max (itemCount (rows * cols) t) 0)).sum := by
    rw [length_labels rows cols config.Items iterate hit, sum_toNat_max]
  refine ⟨g, hg, hgR.trans hR.symm, hgC.trans hC.symm, hshape, ?_, ?_, ?_, ?_, ?_⟩
  · intro q
    rw [hcells]
    exact getCell_assignAll_key (fun cell : HexCell => (cell.Row, cell.Col)) (fun _ _ => rfl)
      _ _ _ q
  · exact (hsh _).nodup_iff.2 (nodup_slots _ _)
  · rw [hcells, hcounts]
  · unfold assigned
    rw [countP_of_perm_labels (fun o => o.isSome) _ _ _ hperm]
    simp only [Option.isSome_some, Option.isSome_none, Bool.false_eq_true, if_false,
      Nat.add_zero, List.countP_true, List.length_take]
    rw [hI, ← hlen, ← hN]
    exact_mod_cast rfl
  · intro i hi
    have hmem := getElem_mem_itemPtrs config.Items i hi
    have hquota : ((itemCount (rows * cols) { addr := i, val := config.Items[i] }).toNat : Int) =
        max (itemCount (rows * cols) { addr := i, val := config.Items[i] }) 0 :=
      Int.toNat_eq_max _
    unfold assignedTo
    rw [countP_of_perm_labels (fun o => o.map (fun p => p.addr) == some i) _ _ _ hperm]
    have hle : List.countP (fun t : ItemTypePtr => (some t).map (fun p => p.addr) == some i)
        ((labelsOf (iterate (entriesOf rows cols config.Items))).take
          (rows.toNat * cols.toNat)) ≤
        List.countP (fun t : ItemTypePtr => (some t).map (fun p => p.addr) == some i)
          (labelsOf (iterate (entriesOf rows cols config.Items))) :=
      (List.take_sublist _ _).countP_le _
    rw [countP_labels_single rows cols config.Items iterate hit _ _ hmem] at hle
    · rw [← hquota]
      simp only [Option.map_none', Nat.cast_le, ge_iff_le]
      simpa using hle
    · intro t ht
      obtain ⟨h1, h2⟩ := mem_itemPtrs.1 ht
      constructor
      · intro h
        have hti : t.addr = i := by simpa using h
        subst hti
        cases t
        simp_all
      · rintro rfl
        simp

/-- The count for 4 cells at a percentage of `10^21`: the quotient `4 * 10^19`
does not fit `int` and the conversion gives the smallest `int`. -/
theorem itemCount_4_of_big (t : ItemTypePtr) (h : t.val.Percentage = 10 ^ 21) :
    itemCount 4 t = -(2 ^ 63) := by
  have ha : F64.ofRat ((4 : Int) : ℚ) = F64.fin 4 :=
    F64.ofRat_nat 4 _ _ (by norm_num) (by norm_num) (by norm_num) (by norm_num)
  have hq : F64.ofRat t.val.Percentage = F64.fin (10 ^ 21) :=
    F64.ofRat_near _ _ 69 7629394531250000 (by norm_num) (by rw [h]; norm_num)
      (by rw [h]; norm_num) (by rw [h]; norm_num) (by rw [h]; norm_num)
      (by rw [abs_of_pos (by norm_num)]; norm_num) (by norm_num)
  have hm : F64.ofRat (4 * 10 ^ 21) = F64.fin (4 * 10 ^ 21) :=
    F64.ofRat_near _ _ 71 7629394531250000 (by norm_num) (by norm_num) (by norm_num)
      (by norm_num) (by norm_num) (by rw [abs_of_pos (by norm_num)]; norm_num) (by norm_num)
  have hv : F64.ofRat (4 * 10 ^ 21 / 100) = F64.fin (4 * 10 ^ 19) :=
    F64.ofRat_near _ _ 65 4882812500000000 (by norm_num) (by norm_num) (by norm_num)
      (by norm_num) (by norm_num) (by rw [abs_of_pos (by norm_num)]; norm_num) (by norm_num)
  have hfl : ⌊((4 : ℚ) * 10 ^ 19)⌋ = 4 * 10 ^ 19 := by
    rw [Int.floor_eq_iff]
    constructor <;> norm_num
  unfold itemCount F64.ofInt
  rw [ha, hq]
  simp only [F64.mul]
  rw [hm]
  simp only [F64.div]
  rw [if_neg (by norm_num), hv]
  simp only [F64.toInt]
  rw [if_pos (show (0 : ℚ) ≤ 4 * 10 ^ 19 by norm_num), hfl, if_neg (by norm_num)]

theorem quota_of_big (it : ItemType) (h : it.Percentage = 10 ^ 21) :
    quota 2 2 it = 4 * 10 ^ 19 := by
  unfold quota
  rw [h, Int.floor_eq_iff]
  constructor <;> norm_num

/-- C14 as stated fails: on the 5 x 25 grid with one item type at the `float64`
nearest to 2.4% three cells are assigned, more than the quota 2 of the type and
than `min(rows*cols, sum of quotas) = 2`; on the 2 x 2 grid with one item type
at `10^21`% no cell is assigned where `min(rows*cols, sum of quotas)` is 4. -/
theorem PopulateGrid_safe_counterexample :
    (∃ grid g, CreateHexGrid 5 25 scenarioD = some grid ∧
      PopulateGrid grid List.reverse List.reverse = some g ∧
      assigned g.Cells = 3 ∧ assignedTo g.Cells 0 = 3 ∧
      scenarioD.Items.map (quota 5 25) = [2] ∧
      min (5 * 25) ((scenarioD.Items.map (quota 5 25)).sum) = 2) ∧
    (∃ grid g, CreateHexGrid 2 2 scenarioG = some grid ∧
      PopulateGrid grid List.reverse List.reverse = some g ∧
      assigned g.Cells = 0 ∧
      min (2 * 2) ((scenarioG.Items.map (quota 2 2)).sum) = 4) := by
  constructor
  · obtain ⟨grid, hgrid⟩ := Option.isSome_iff_exists.1
      (CreateHexGrid_isSome 5 25 scenarioD (by decide) (by decide))
    obtain ⟨_, _, _, _, hI, _, _, _⟩ := CreateHexGrid_some hgrid
    obtain ⟨g, hg, _, _, _, _, _, _, h1, _⟩ := populate_safe 5 25 scenarioD grid List.reverse
      List.reverse hgrid (by decide) (by decide) (fun l => List.reverse_perm l)
      (fun m => List.reverse_perm m)
    obtain ⟨grid2, g2, hgrid2, hg2, h3, _⟩ := scenarioD_run List.reverse List.reverse
      (fun l => List.reverse_perm l) (fun m => List.reverse_perm m)
    have hgg : grid2 = grid := Option.some.inj (hgrid2.symm.trans hgrid)
    subst hgg
    have hg3 : g2 = g := Option.some.inj (hg2.symm.trans hg)
    subst hg3
    have hq : scenarioD.Items.map (quota 5 25) = [2] := by
      simp only [scenarioD, List.map_cons, List.map_nil]
      rw [quota_of_pct24 _ rfl]
    have hs : (grid2.ItemTypes.map (fun t => max (itemCount (5 * 25) t) 0)).sum = 3 := by
      rw [hI, List.map_congr_left (fun t ht => by rw [itemCount_scenarioD t ht])]
      rfl
    rw [hs] at h1
    refine ⟨grid2, g2, hgrid, hg, ?_, h3, hq, ?_⟩
    · have : ((assigned g2.Cells : Nat) : Int) = 3 := by rw [h1]; decide
      exact_mod_cast this
    · rw [hq]
      decide
  · obtain ⟨grid, hgrid⟩ := Option.isSome_iff_exists.1
      (CreateHexGrid_isSome 2 2 scenarioG (by decide) (by decide))
    obtain ⟨_, _, _, _, hI, _, _, _⟩ := CreateHexGrid_some hgrid
    obtain ⟨g, hg, _, _, _, _, _, _, h1, _⟩ := populate_safe 2 2 scenarioG grid List.reverse
      List.reverse hgrid (by decide) (by decide) (fun l => List.reverse_perm l)
      (fun m => List.reverse_perm m)
    have e : (2 : Int) * 2 = 4 := by norm_num
    have hc : ∀ t ∈ itemPtrs scenarioG.Items, max (itemCount (2 * 2) t) 0 = 0 := by
      intro t ht
      have hv := mem_itemPtrs_val ht
      simp only [scenarioG, List.mem_singleton] at hv
      rw [e, itemCount_4_of_big t (by rw [hv])]
      decide
    have hs : (grid.ItemTypes.map (fun t => max (itemCount (2 * 2) t) 0)).sum = 0 := by
      rw [hI, List.map_congr_left hc]
      rfl
    rw [hs] at h1
    refine ⟨grid, g, hgrid, hg, ?_, ?_⟩
    · have : ((assigned g.Cells : Nat) : Int) = 0 := by rw [h1]; decide
      exact_mod_cast this
    · have hq : scenarioG.Items.map (quota 2 2) = [4 * 10 ^ 19] := by
        simp only [scenarioG, List.map_cons, List.map_nil]
        rw [quota_of_big _ rfl]
      rw [hq]
      decide

/-- C14, as the code has it: on a grid built by `CreateHexGrid` with `rows ≥ 0`, `cols ≥ 0`
and arbitrary percentages (their sum may exceed 100), for every shuffle and
iteration order `PopulateGrid` returns, so never indexes the shuffled list out
of range; it stores label `i` into slot `i` of the shuffled list, whose slots
are pairwise distinct, so each cell is assigned at most once; the number of
assigned cells is `min(rows*cols, sum of the counts)`, where the count of a type
is `int(float64(rows*cols) * percentage / 100.0)` as `config.go` line 117
computes it in `float64` (an out-of-range conversion gives the smallest `int`)
and a negative count stands for zero; each item type gets at most its count; and
the dimensions and every cell's `Row` and `Col` are unchanged. -/
theorem PopulateGrid_safe (rows cols : Int) (config : YAMLConfig) (grid : HexGrid)
    (shuffle : List CellPtr → List CellPtr)
    (iterate : List (ItemTypePtr × Int) → List (ItemTypePtr × Int))
    (hgrid : CreateHexGrid rows cols config = some grid)
    (hr : 0 ≤ rows) (hc : 0 ≤ cols)
    (hsh : IsShuffle shuffle) (hit : IsIteration iterate) :
    ∃ g, PopulateGrid grid shuffle iterate = some g ∧
      g.Rows = grid.Rows ∧ g.Cols = grid.Cols ∧
      Shaped g.Cells rows.toNat cols.toNat ∧
      (∀ q, (getCell g.Cells q).map (fun cell => (cell.Row, cell.Col)) =
        (getCell grid.Cells q).map (fun cell => (cell.Row, cell.Col))) ∧
      (shuffle (slots rows.toNat cols.toNat)).Nodup ∧
      g.Cells = assignAll (shuffle (slots rows.toNat cols.toNat))
        (labelsOf (iterate (itemCounts grid))) grid.Cells ∧
      ((assigned g.Cells : Nat) : Int) =
        min (rows * cols)
          ((grid.ItemTypes.map (fun t => max (itemCount (rows * cols) t) 0)).sum) ∧
      ∀ (i : Nat) (hi : i < config.Items.length),
        ((assignedTo g.Cells i : Nat) : Int) ≤
          max (itemCount (rows * cols) { addr := i, val := config.Items[i] }) 0 :=
  populate_safe rows cols config grid shuffle iterate hgrid hr hc hsh hit

theorem PopulateGrid_safe_witness :
    CreateHexGrid 2 2 scenarioA = some gridA ∧ (0 : Int) ≤ 2 ∧
    ∃ g, PopulateGrid gridA List.reverse List.reverse = some g ∧
      g.Rows = gridA.Rows ∧ g.Cols = gridA.Cols ∧
      ((assigned g.Cells : Nat) : Int) =
        min (2 * 2) ((gridA.ItemTypes.map (fun t => max (itemCount (2 * 2) t) 0)).sum) := by
  obtain ⟨g, h1, h2, h3, _, _, _, _, h4, _⟩ :=
    PopulateGrid_safe 2 2 scenarioA gridA List.reverse List.reverse CreateHexGrid_gridA
      (by decide) (by decide) (fun l => List.reverse_perm l) (fun m => List.reverse_perm m)
  exact ⟨CreateHexGrid_gridA, by decide, g, h1, h2, h3, h4⟩

/-! ## Legend and configuration -/

theorem foldl_append_singleton {α β : Type} (f : α → β) :
    ∀ (l : List α) (init : List β),
      l.foldl (fun acc a => acc ++ [f a]) init = init ++ l.map f
  | [], init => by simp
  | a :: l, init => by
    simp only [List.foldl_cons, List.map_cons]
    rw [foldl_append_singleton f l]
    simp

theorem GenerateHTML_legend (grid : HexGrid) (svg : String) :
    ∃ doc, GenerateHTML grid (some svg) = Except.ok doc ∧ doc.svgContent = svg ∧
      doc.legend.map (fun e => e.name) = grid.ItemTypes.map (fun t => t.val.Name) := by
  refine ⟨_, rfl, rfl, ?_⟩
  simp only
  rw [foldl_append_singleton]
  simp [List.map_map, Function.comp_def]

theorem PopulateGrid_itemTypes (grid g : HexGrid) (shuffle : List CellPtr → List CellPtr)
    (iterate : List (ItemTypePtr × Int) → List (ItemTypePtr × Int))
    (h : PopulateGrid grid shuffle iterate = some g) : g.ItemTypes = grid.ItemTypes := by
  unfold PopulateGrid at h
  simp only at h
  split_ifs at h
  split at h
  · exact absurd h (by simp)
  · split at h
    · exact absurd h (by simp)
    · rw [← Option.some.inj h]

/-- C11: for every configuration (with `rows, cols ≥ 0`, so that the grid can be
built) and every shuffle, `CreateHexGrid` and `PopulateGrid` return,
`PopulateGrid` leaves the grid's item-type list unchanged, and the legend built
by `GenerateHTML` has exactly one entry per configured item type, the names of
the entries being the names of the configuration's item list in the same
order. -/
theorem legend_order (rows cols : Int) (config : YAMLConfig)
    (shuffle : List CellPtr → List CellPtr)
    (iterate : List (ItemTypePtr × Int) → List (ItemTypePtr × Int)) (svg : String)
    (hr : 0 ≤ rows) (hc : 0 ≤ cols) (hsh : IsShuffle shuffle) :
    (∀ grid g, PopulateGrid grid shuffle iterate = some g → g.ItemTypes = grid.ItemTypes) ∧
    ∃ grid₀ grid doc, CreateHexGrid rows cols config = some grid₀ ∧
      PopulateGrid grid₀ shuffle iterate = some grid ∧
      grid.ItemTypes = grid₀.ItemTypes ∧
      GenerateHTML grid (some svg) = Except.ok doc ∧
      doc.legend.length = config.Items.length ∧
      doc.legend.map (fun e => e.name) = config.Items.map (fun it => it.Name) := by
  refine ⟨fun grid g h => PopulateGrid_itemTypes grid g shuffle iterate h, ?_⟩
  obtain ⟨grid₀, hgrid⟩ := Option.isSome_iff_exists.1 (CreateHexGrid_isSome rows cols config hr hc)
  obtain ⟨_, _, hR, hC, hI, _, hshape, _⟩ := CreateHexGrid_some hgrid
  obtain ⟨g, hg, _, _, hgI, _⟩ := PopulateGrid_spec grid₀ shuffle iterate
    (by rw [hR, hC]; exact mul_nonneg hr hc) (by rw [hR, hC]; exact hshape) hsh
  obtain ⟨doc, hdoc, _, hnames⟩ := GenerateHTML_legend g svg
  have hn : doc.legend.map (fun e => e.name) = config.Items.map (fun it => it.Name) := by
    rw [hnames, hgI, hI]
    have := congrArg (List.map (fun it : ItemType => it.Name)) (map_val_itemPtrs config.Items)
    simpa [List.map_map, Function.comp_def] using this
  refine ⟨grid₀, g, doc, hgrid, hg, hgI, hdoc, ?_, hn⟩
  have := congrArg List.length hn
  simpa using this

theorem legend_order_witness :
    (0 : Int) ≤ 2 ∧ IsShuffle List.reverse ∧
    ∃ grid₀ grid doc, CreateHexGrid 2 2 scenarioA = some grid₀ ∧
      PopulateGrid grid₀ List.reverse id = some grid ∧
      grid.ItemTypes = grid₀.ItemTypes ∧
      GenerateHTML grid (some "") = Except.ok doc ∧
      doc.legend.length = scenarioA.Items.length ∧
      doc.legend.map (fun e => e.name) = scenarioA.Items.map (fun it => it.Name) :=
  ⟨by decide, fun l => List.reverse_perm l,
    (legend_order 2 2 scenarioA List.reverse id "" (by decide) (by decide)
      (fun l => List.reverse_perm l)).2⟩

/-! ## Validation of the configuration -/

theorem validateItems_ok_iff :
    ∀ (items : List ItemType) (total t : F64),
      validateItems items total = Except.ok t ↔
        (∀ it ∈ items, ¬ (F64.lt (F64.ofRat it.Percentage) (F64.fin 0) = true ∨
            F64.lt (F64.fin 100) (F64.ofRat it.Percentage) = true) ∧
          ¬ (it.Style ≠ "dot" ∧ it.Style ≠ "fill")) ∧
        t = items.foldl (fun total item => F64.add total (F64.ofRat item.Percentage)) total
  | [], total, t => by
    simp only [validateItems, Except.ok.injEq, List.not_mem_nil, false_implies, implies_true,
      true_and, List.foldl_nil]
    exact eq_comm
  | item :: rest, total, t => by
    unfold validateItems
    by_cases h1 : F64.lt (F64.ofRat item.Percentage) (F64.fin 0) = true ∨
        F64.lt (F64.fin 100) (F64.ofRat item.Percentage) = true
    · rw [if_pos h1]
      constructor
      · intro h; cases h
      · intro h; exact absurd h1 (h.1 item (List.mem_cons_self _ _)).1
    · rw [if_neg h1]
      simp only
      by_cases h2 : item.Style ≠ "dot" ∧ item.Style ≠ "fill"
      · rw [if_pos h2]
        constructor
        · intro h; cases h
        · intro h; exact absurd h2 (h.1 item (List.mem_cons_self _ _)).2
      · rw [if_neg h2, validateItems_ok_iff rest]
        simp only [List.mem_cons, forall_eq_or_imp, List.foldl_cons]
        constructor
        · rintro ⟨h, rfl⟩
          exact ⟨⟨⟨h1, h2⟩, h⟩, rfl⟩
        · rintro ⟨⟨_, h⟩, rfl⟩
          exact ⟨h, rfl⟩

/-- The validation of `LoadYAMLConfig` on a parsed configuration. -/
theorem LoadYAMLConfig_run (data : String) (unmarshal : String → Option YAMLConfig)
    (config : YAMLConfig) (hparse : unmarshal data = some config) :
    LoadYAMLConfig (some data) unmarshal =
      (if config.Default = "" then Except.error ConfigError.defaultRequired
      else if config.Items.length = 0 then Except.error ConfigError.noItems
      else
        match validateItems config.Items (F64.fin 0) with
        | Except.error e => Except.error e
        | Except.ok totalPercentage =>
          if F64.lt (F64.fin 100) totalPercentage = true then
            Except.error (ConfigError.totalExceeds totalPercentage)
          else Except.ok config) := by
  unfold LoadYAMLConfig
  simp only [hparse]

/-- The parsed configuration is returned exactly when none of the five
conditions of the validation holds. -/
theorem LoadYAMLConfig_ok_iff (data : String) (unmarshal : String → Option YAMLConfig)
    (config : YAMLConfig) (hparse : unmarshal data = some config) :
    LoadYAMLConfig (some data) unmarshal = Except.ok config ↔
      ¬ (config.Default = "" ∨ config.Items = [] ∨
        (∃ it ∈ config.Items, F64.lt (F64.ofRat it.Percentage) (F64.fin 0) = true ∨
          F64.lt (F64.fin 100) (F64.ofRat it.Percentage) = true) ∨
        (∃ it ∈ config.Items, it.Style ≠ "dot" ∧ it.Style ≠ "fill") ∨
        F64.lt (F64.fin 100) (sumPercentage config.Items) = true) := by
  rw [LoadYAMLConfig_run data unmarshal config hparse]
  by_cases h1 : config.Default = ""
  · simp [h1]
  by_cases h2 : config.Items = []
  · simp [h1, h2]
  have h2' : ¬ config.Items.length = 0 := fun h => h2 (List.length_eq_zero.1 h)
  rw [if_neg h1, if_neg h2']
  cases hv : validateItems config.Items (F64.fin 0) with
  | error e =>
    simp only [false_iff, not_not, h1, h2, false_or, reduceCtorEq]
    by_contra hcon
    push_neg at hcon
    have : validateItems config.Items (F64.fin 0) = Except.ok (sumPercentage config.Items) := by
      rw [validateItems_ok_iff]
      refine ⟨fun it hit => ⟨?_, ?_⟩, rfl⟩
      · have := hcon.1 it hit
        push_neg
        exact ⟨this.1, this.2⟩
      · have := hcon.2.1 it hit
        intro h
        exact h.2 (this h.1)
    rw [hv] at this
    cases this
  | ok total =>
    obtain ⟨hall, htot⟩ := (validateItems_ok_iff _ _ _).1 hv
    have htot' : total = sumPercentage config.Items := htot
    simp only [h1, h2, false_or]
    by_cases h3 : F64.lt (F64.fin 100) total = true
    · rw [if_pos h3]
      simp only [reduceCtorEq, false_iff, not_not]
      right; right
      rw [← htot']; exact h3
    · rw [if_neg h3]
      simp only [true_iff]
      rintro (⟨it, hit, hbad⟩ | ⟨it, hit, hbad⟩ | hsum)
      · exact (hall it hit).1 hbad
      · exact (hall it hit).2 hbad
      · exact h3 (htot' ▸ hsum)

theorem LoadYAMLConfig_ok_eq (data : String) (unmarshal : String → Option YAMLConfig)
    (config : YAMLConfig) (hparse : unmarshal data = some config) (c : YAMLConfig)
    (hc : LoadYAMLConfig (some data) unmarshal = Except.ok c) : c = config := by
  rw [LoadYAMLConfig_run data unmarshal config hparse] at hc
  split_ifs at hc
  split at hc
  · cases hc
  · split_ifs at hc
    cases hc
    rfl

theorem LoadYAMLConfig_error_iff (data : String) (unmarshal : String → Option YAMLConfig)
    (config : YAMLConfig) (hparse : unmarshal data = some config) :
    (∃ e, LoadYAMLConfig (some data) unmarshal = Except.error e) ↔
      ¬ LoadYAMLConfig (some data) unmarshal = Except.ok config := by
  cases hl : LoadYAMLConfig (some data) unmarshal with
  | error e => simp
  | ok c =>
    have := LoadYAMLConfig_ok_eq data unmarshal config hparse c hl
    subst this
    simp

theorem F64.add_fin (a b : ℚ) : F64.add (F64.fin a) (F64.fin b) = F64.ofRat (a + b) := by
  simp only [F64.add]

theorem sumPercentage_pair (a b : ItemType) (x y s1 s : ℚ)
    (ha : F64.ofRat a.Percentage = F64.fin x) (hb : F64.ofRat b.Percentage = F64.fin y)
    (h1 : F64.ofRat (0 + x) = F64.fin s1) (h2 : F64.ofRat (s1 + y) = F64.fin s) :
    sumPercentage [a, b] = F64.fin s := by
  show F64.add (F64.add (F64.fin 0) (F64.ofRat a.Percentage)) (F64.ofRat b.Percentage) = _
  rw [ha, hb, F64.add_fin, h1, F64.add_fin, h2]

theorem sumPercentage_triple (a b c : ItemType) (x y z s1 s2 s : ℚ)
    (ha : F64.ofRat a.Percentage = F64.fin x) (hb : F64.ofRat b.Percentage = F64.fin y)
    (hc : F64.ofRat c.Percentage = F64.fin z)
    (h1 : F64.ofRat (0 + x) = F64.fin s1) (h2 : F64.ofRat (s1 + y) = F64.fin s2)
    (h3 : F64.ofRat (s2 + z) = F64.fin s) :
    sumPercentage [a, b, c] = F64.fin s := by
  show F64.add (F64.add (F64.add (F64.fin 0) (F64.ofRat a.Percentage))
    (F64.ofRat b.Percentage)) (F64.ofRat c.Percentage) = _
  rw [ha, hb, hc, F64.add_fin, h1, F64.add_fin, h2, F64.add_fin, h3]

theorem ofRat_50 : F64.ofRat 50 = F64.fin 50 :=
  F64.ofRat_nat 50 50 50 (by norm_num) (by norm_num) (by norm_num) (by norm_num)

theorem ofRat_100 : F64.ofRat 100 = F64.fin 100 :=
  F64.ofRat_nat 100 100 100 (by norm_num) (by norm_num) (by norm_num) (by norm_num)

theorem ofRat_tiny : F64.ofRat (1 / 2 ^ 100) = F64.fin (1 / 2 ^ 100) :=
  F64.ofRat_near (1 / 2 ^ 100) (1 / 2 ^ 100) (-100) 4503599627370496 (by norm_num)
    (by norm_num) (by norm_num) (by norm_num) (by norm_num)
    (by rw [abs_of_pos (by norm_num)]; norm_num) (by norm_num)

theorem sumPercentage_scenarioA : sumPercentage scenarioA.Items = F64.fin 100 :=
  sumPercentage_pair _ _ 50 50 50 100 ofRat_50 ofRat_50
    (F64.ofRat_nat 50 (0 + 50) 50 (by norm_num) (by norm_num) (by norm_num) (by norm_num))
    (F64.ofRat_nat 100 (50 + 50) 100 (by norm_num) (by norm_num) (by norm_num) (by norm_num))

theorem sumPercentage_scenarioF : sumPercentage scenarioF.Items = F64.fin 100 :=
  sumPercentage_pair _ _ 100 (1 / 2 ^ 100) 100 100 ofRat_100 ofRat_tiny
    (F64.ofRat_nat 100 (0 + 100) 100 (by norm_num) (by norm_num) (by norm_num) (by norm_num))
    (F64.ofRat_near (100 + 1 / 2 ^ 100) 100 6 7036874417766400 (by norm_num)
      (by norm_num) (by norm_num) (by norm_num) (by norm_num)
      (by rw [abs_of_pos (by norm_num)]; norm_num) (by norm_num))

theorem ofRat_scenarioH :
    F64.ofRat (2 / 10) = F64.fin (3602879701896397 / 18014398509481984) ∧
    F64.ofRat (839 / 10) = F64.fin (2951968818253005 / 35184372088832) ∧
    F64.ofRat (159 / 10) = F64.fin (8950904259398861 / 562949953421312) := by
  refine ⟨?_, ?_, ?_⟩
  · exact F64.ofRat_near _ _ (-3) 7205759403792794 (by norm_num)
      (by norm_num) (by norm_num) (by norm_num) (by norm_num)
      (by rw [abs_of_pos (by norm_num)]; norm_num) (by norm_num)
  · exact F64.ofRat_near _ _ 6 5903937636506010 (by norm_num)
      (by norm_num) (by norm_num) (by norm_num) (by norm_num)
      (by rw [abs_of_pos (by norm_num)]; norm_num) (by norm_num)
  · exact F64.ofRat_near _ _ 3 8950904259398861 (by norm_num)
      (by norm_num) (by norm_num) (by norm_num) (by norm_num)
      (by rw [abs_of_pos (by norm_num)]; norm_num) (by norm_num)

theorem sumPercentage_scenarioH :
    sumPercentage scenarioH.Items = F64.fin (7036874417766401 / 70368744177664) :=
  sumPercentage_triple _ _ _ _ _ _ (3602879701896397 / 18014398509481984)
    (5918011385341543 / 70368744177664) _
    ofRat_scenarioH.1 ofRat_scenarioH.2.1 ofRat_scenarioH.2.2
    (F64.ofRat_near (0 + 3602879701896397 / 18014398509481984)
      (3602879701896397 / 18014398509481984) (-3) 7205759403792794 (by norm_num)
      (by norm_num) (by norm_num) (by norm_num) (by norm_num)
      (by rw [abs_of_pos (by norm_num)]; norm_num) (by norm_num))
    (F64.ofRat_near (3602879701896397 / 18014398509481984 + 2951968818253005 / 35184372088832)
      (5918011385341543 / 70368744177664) 6 5918011385341543 (by norm_num)
      (by norm_num) (by norm_num) (by norm_num) (by norm_num)
      (by rw [abs_of_pos (by norm_num)]; norm_num) (by norm_num))
    (F64.ofRat_near (5918011385341543 / 70368744177664 + 8950904259398861 / 562949953421312)
      (7036874417766401 / 70368744177664) 6 7036874417766401 (by norm_num)
      (by norm_num) (by norm_num) (by norm_num) (by norm_num)
      (by rw [abs_of_pos (by norm_num)]; norm_num) (by norm_num))

/-- C12 as stated fails: the configuration with percentages 100 and `2^-100`,
whose sum exceeds 100, is returned without error; the configuration with
percentages 0.2, 83.9 and 15.9, each in [0,100], styles `dot` and `fill`, a
default colour, and sum exactly 100, is rejected for a total over 100. -/
theorem LoadYAMLConfig_validation_counterexample :
    ((scenarioF.Items.map (fun it => it.Percentage)).sum > 100 ∧
      LoadYAMLConfig (some "") (fun _ => some scenarioF) = Except.ok scenarioF) ∧
    (scenarioH.Default ≠ "" ∧ scenarioH.Items ≠ [] ∧
      (∀ it ∈ scenarioH.Items, ¬ (it.Percentage < 0 ∨ it.Percentage > 100)) ∧
      (∀ it ∈ scenarioH.Items, ¬ (it.Style ≠ "dot" ∧ it.Style ≠ "fill")) ∧
      (scenarioH.Items.map (fun it => it.Percentage)).sum = 100 ∧
      ∃ e, LoadYAMLConfig (some "") (fun _ => some scenarioH) = Except.error e) := by
  refine ⟨⟨by norm_num [scenarioF], ?_⟩, by decide, by simp [scenarioH], ?_, ?_,
    by norm_num [scenarioH], ?_⟩
  · rw [LoadYAMLConfig_ok_iff "" (fun _ => some scenarioF) scenarioF rfl]
    rintro (h | h | ⟨it, hit, h⟩ | ⟨it, hit, h⟩ | h)
    · exact absurd h (by decide)
    · exact absurd h (by simp [scenarioF])
    · simp only [scenarioF, List.mem_cons, List.mem_singleton, List.not_mem_nil, or_false] at hit
      rcases hit with rfl | rfl
      · rw [ofRat_100] at h
        simp only [F64.lt, decide_eq_true_eq] at h
        norm_num at h
      · rw [ofRat_tiny] at h
        simp only [F64.lt, decide_eq_true_eq] at h
        norm_num at h
    · simp only [scenarioF, List.mem_cons, List.mem_singleton, List.not_mem_nil, or_false] at hit
      rcases hit with rfl | rfl
      · exact h.2 rfl
      · exact h.1 rfl
    · rw [sumPercentage_scenarioF] at h
      simp only [F64.lt, decide_eq_true_eq] at h
      norm_num at h
  · intro it hit
    simp only [scenarioH, List.mem_cons, List.mem_singleton, List.not_mem_nil, or_false] at hit
    rcases hit with rfl | rfl | rfl <;> norm_num
  · intro it hit
    simp only [scenarioH, List.mem_cons, List.mem_singleton, List.not_mem_nil, or_false] at hit
    rcases hit with rfl | rfl | rfl <;> simp
  · rw [LoadYAMLConfig_error_iff "" (fun _ => some scenarioH) scenarioH rfl,
      LoadYAMLConfig_ok_iff "" (fun _ => some scenarioH) scenarioH rfl, not_not]
    right; right; right; right
    rw [sumPercentage_scenarioH]
    simp only [F64.lt, decide_eq_true_eq]
    norm_num

/-- C12, as the code has it: for every parsed configuration, the validation in
`LoadYAMLConfig` returns an error exactly when the default colour is empty, or
the item list is empty, or some percentage, as the `float64` it is stored in,
is below 0 or above 100, or some style is neither `dot` nor `fill`, or the
`float64` total of the stored percentages, added in list order with each sum
rounded to `float64`, is more than 100; when it returns no error the result is
the parsed configuration itself, items unchanged and in order, as for the
two-item 50/50 configuration of the test. -/
theorem LoadYAMLConfig_validation (data : String) (unmarshal : String → Option YAMLConfig)
    (config : YAMLConfig) (hparse : unmarshal data = some config) :
    ((∃ e, LoadYAMLConfig (some data) unmarshal = Except.error e) ↔
      (config.Default = "" ∨ config.Items = [] ∨
        (∃ it ∈ config.Items, F64.lt (F64.ofRat it.Percentage) (F64.fin 0) = true ∨
          F64.lt (F64.fin 100) (F64.ofRat it.Percentage) = true) ∨
        (∃ it ∈ config.Items, it.Style ≠ "dot" ∧ it.Style ≠ "fill") ∨
        F64.lt (F64.fin 100) (sumPercentage config.Items) = true)) ∧
    ((¬ ∃ e, LoadYAMLConfig (some data) unmarshal = Except.error e) →
      LoadYAMLConfig (some data) unmarshal = Except.ok config) ∧
    (∀ c, LoadYAMLConfig (some data) unmarshal = Except.ok c →
      c = config ∧ c.Items = config.Items) ∧
    (config = scenarioA → LoadYAMLConfig (some data) unmarshal = Except.ok scenarioA) := by
  have hok := LoadYAMLConfig_ok_iff data unmarshal config hparse
  have herr := LoadYAMLConfig_error_iff data unmarshal config hparse
  refine ⟨?_, ?_, ?_, ?_⟩
  · rw [herr, hok, not_not]
  · intro h
    by_contra hne
    exact h (herr.2 hne)
  · intro c hc
    have := LoadYAMLConfig_ok_eq data unmarshal config hparse c hc
    exact ⟨this, by rw [this]⟩
  · intro hcfg
    subst hcfg
    rw [hok]
    rintro (h | h | ⟨it, hit, h⟩ | ⟨it, hit, h⟩ | h)
    · exact absurd h (by decide)
    · exact absurd h (by simp [scenarioA])
    · simp only [scenarioA, List.mem_cons, List.mem_singleton, List.not_mem_nil, or_false] at hit
      rcases hit with rfl | rfl <;>
      · rw [ofRat_50] at h
        simp only [F64.lt, decide_eq_true_eq] at h
        norm_num at h
    · simp only [scenarioA, List.mem_cons, List.mem_singleton, List.not_mem_nil, or_false] at hit
      rcases hit with rfl | rfl
      · exact h.2 rfl
      · exact h.1 rfl
    · rw [sumPercentage_scenarioA] at h
      simp only [F64.lt, decide_eq_true_eq] at h
      norm_num at h

theorem LoadYAMLConfig_validation_witness :
    (fun _ : String => some scenarioA) "" = some scenarioA ∧
    LoadYAMLConfig (some "") (fun _ => some scenarioA) = Except.ok scenarioA :=
  ⟨rfl, (LoadYAMLConfig_validation "" (fun _ => some scenarioA) scenarioA rfl).2.2.2 rfl⟩

/-! ## `hexToRGB` -/

theorem hexChars_facts :
    ∀ c ∈ hexChars, (hexDigit c).isSome = true ∧ (hexDigit c).getD 0 ≤ 15 ∧
      c.utf8Size = 1 ∧ isSpace c = false ∧ c ≠ '\r' ∧ c ≠ '\n' ∧ c ≠ '+' ∧ c ≠ '-' ∧
      c ≠ '#' := by
  decide

theorem skipSpace_of_not_space (limit : Nat) (r : Char) (rest : List Char)
    (h1 : r ≠ '\r') (h2 : r ≠ '\n') (h3 : isSpace r = false) :
    skipSpace (limit + 1) (r :: rest) = some (limit + 1, r :: rest) := by
  simp [skipSpace, h1, h2, h3]

theorem scanField_two_digits (a b : Char) (rest : List Char)
    (ha : a ∈ hexChars) (hb : b ∈ hexChars) :
    scanField (a :: b :: rest) =
      some (((16 * (hexDigit a).getD 0 + (hexDigit b).getD 0 : Nat) : Int), rest) := by
  obtain ⟨a1, a2, _, a4, a5, a6, a7, a8, _⟩ := hexChars_facts a ha
  obtain ⟨b1, b2, _, _, _, _, _, _, _⟩ := hexChars_facts b hb
  have hpow : (2 : Nat) ^ 30 = (2 ^ 30 - 1) + 1 := by norm_num
  unfold scanField
  rw [hpow, skipSpace_of_not_space _ a _ a5 a6 a4]
  simp only
  unfold scanHexInt
  rw [skipSpace_of_not_space 1 a _ a5 a6 a4]
  simp only [a7, a8, or_self, if_false, List.take_succ_cons, List.take_zero,
    List.takeWhile_cons, a1, b1, if_true, List.takeWhile_nil, List.length_cons,
    List.length_nil, List.drop_succ_cons, List.drop_zero, reduceCtorEq]
  have hv : hexValue [a, b] = 16 * (hexDigit a).getD 0 + (hexDigit b).getD 0 := by
    simp [hexValue]
  rw [hv]
  have hle : (16 * (hexDigit a).getD 0 + (hexDigit b).getD 0 : Nat) ≤ 255 := by omega
  rw [if_neg]
  push_neg
  constructor
  · have : (0 : Int) ≤ ((16 * (hexDigit a).getD 0 + (hexDigit b).getD 0 : Nat) : Int) :=
      Int.natCast_nonneg _
    omega
  · have : ((16 * (hexDigit a).getD 0 + (hexDigit b).getD 0 : Nat) : Int) ≤ 255 := by
      exact_mod_cast hle
    omega

theorem byteLen_six (c1 c2 c3 c4 c5 c6 : Char)
    (h1 : c1 ∈ hexChars) (h2 : c2 ∈ hexChars) (h3 : c3 ∈ hexChars)
    (h4 : c4 ∈ hexChars) (h5 : c5 ∈ hexChars) (h6 : c6 ∈ hexChars) :
    byteLen [c1, c2, c3, c4, c5, c6] = 6 := by
  simp [byteLen, (hexChars_facts c1 h1).2.2.1, (hexChars_facts c2 h2).2.2.1,
    (hexChars_facts c3 h3).2.2.1, (hexChars_facts c4 h4).2.2.1,
    (hexChars_facts c5 h5).2.2.1, (hexChars_facts c6 h6).2.2.1]

/-- The valid half of the contract of `hexToRGB`: on six hexadecimal digits,
with or without a leading `#`, it returns the three two-digit values, each
between 0 and 255. -/
theorem hexToRGB_six_digits (c1 c2 c3 c4 c5 c6 : Char)
    (h1 : c1 ∈ hexChars) (h2 : c2 ∈ hexChars) (h3 : c3 ∈ hexChars)
    (h4 : c4 ∈ hexChars) (h5 : c5 ∈ hexChars) (h6 : c6 ∈ hexChars) :
    hexToRGB (String.mk [c1, c2, c3, c4, c5, c6]) =
      (((16 * (hexDigit c1).getD 0 + (hexDigit c2).getD 0 : Nat) : Int),
       ((16 * (hexDigit c3).getD 0 + (hexDigit c4).getD 0 : Nat) : Int),
       ((16 * (hexDigit c5).getD 0 + (hexDigit c6).getD 0 : Nat) : Int)) ∧
    hexToRGB (String.mk ('#' :: [c1, c2, c3, c4, c5, c6])) =
      hexToRGB (String.mk [c1, c2, c3, c4, c5, c6]) ∧
    16 * (hexDigit c1).getD 0 + (hexDigit c2).getD 0 ≤ 255 ∧
    16 * (hexDigit c3).getD 0 + (hexDigit c4).getD 0 ≤ 255 ∧
    16 * (hexDigit c5).getD 0 + (hexDigit c6).getD 0 ≤ 255 := by
  have hlen := byteLen_six c1 c2 c3 c4 c5 c6 h1 h2 h3 h4 h5 h6
  have hne : c1 ≠ '#' := (hexChars_facts c1 h1).2.2.2.2.2.2.2.2
  have hplain : hexToRGB (String.mk [c1, c2, c3, c4, c5, c6]) =
      (((16 * (hexDigit c1).getD 0 + (hexDigit c2).getD 0 : Nat) : Int),
       ((16 * (hexDigit c3).getD 0 + (hexDigit c4).getD 0 : Nat) : Int),
       ((16 * (hexDigit c5).getD 0 + (hexDigit c6).getD 0 : Nat) : Int)) := by
    have e : (String.mk [c1, c2, c3, c4, c5, c6]).toList = [c1, c2, c3, c4, c5, c6] := rfl
    unfold hexToRGB
    simp only [e, List.head?_cons, Option.some.injEq, hne, and_false, if_false, hlen, ne_eq,
      not_true_eq_false]
    rw [scanField_two_digits c1 c2 _ h1 h2]
    simp only
    rw [scanField_two_digits c3 c4 _ h3 h4]
    simp only
    rw [scanField_two_digits c5 c6 _ h5 h6]
  have hsharp : hexToRGB (String.mk ('#' :: [c1, c2, c3, c4, c5, c6])) =
      hexToRGB (String.mk [c1, c2, c3, c4, c5, c6]) := by
    rw [hplain]
    have hlen7 : byteLen ('#' :: [c1, c2, c3, c4, c5, c6]) > 0 := by
      have : byteLen ('#' :: [c1, c2, c3, c4, c5, c6]) =
          '#'.utf8Size + byteLen [c1, c2, c3, c4, c5, c6] := by
        simp [byteLen]
      rw [this, hlen]
      omega
    have e : (String.mk ('#' :: [c1, c2, c3, c4, c5, c6])).toList =
        '#' :: [c1, c2, c3, c4, c5, c6] := rfl
    unfold hexToRGB
    simp only [e, List.head?_cons, hlen7, and_self, if_true, List.drop_succ_cons, List.drop_zero,
      hlen, ne_eq, not_true_eq_false, if_false]
    rw [scanField_two_digits c1 c2 _ h1 h2]
    simp only
    rw [scanField_two_digits c3 c4 _ h3 h4]
    simp only
    rw [scanField_two_digits c5 c6 _ h5 h6]
  have b1 := (hexChars_facts c1 h1).2.1
  have b2 := (hexChars_facts c2 h2).2.1
  have b3 := (hexChars_facts c3 h3).2.1
  have b4 := (hexChars_facts c4 h4).2.1
  have b5 := (hexChars_facts c5 h5).2.1
  have b6 := (hexChars_facts c6 h6).2.1
  exact ⟨hplain, hsharp, by omega, by omega, by omega⟩

/-- The length check of `hexToRGB`: a string whose length after the optional
`#` is not 6 bytes gives black. -/
theorem hexToRGB_bad_length (hex : String)
    (h : byteLen (if byteLen hex.toList > 0 ∧ hex.toList.head? = some '#'
      then hex.toList.drop 1 else hex.toList) ≠ 6) :
    hexToRGB hex = (0, 0, 0) := by
  unfold hexToRGB
  simp only
  rw [if_pos h]

/-- C13 at the failing input: `#FFFFGG` is not a colour of six hexadecimal
digits, yet `hexToRGB` returns `(255, 255, 0)` and not black: the first two
fields are scanned before `Sscanf` fails on `GG`, and its error is dropped.
Likewise `12GGGG` gives `(18, 0, 0)` and `-1-2-3` gives `(-1, -2, -3)`, outside
`0..255`; a string that fails at the first field, such as `GGGGGG`, gives
black. -/
theorem hexToRGB_not_black :
    hexToRGB "#FFFFGG" = (255, 255, 0) ∧ hexToRGB "#FFFFGG" ≠ (0, 0, 0) ∧
    hexToRGB "12GGGG" = (18, 0, 0) ∧ hexToRGB "-1-2-3" = (-1, -2, -3) ∧
    hexToRGB "GGGGGG" = (0, 0, 0) ∧ hexToRGB "#FF0000" = (255, 0, 0) := by
  decide

end Hexgrid
